import Mathlib

/-! # bdx-parser: statistics aggregation pipeline (`main.go`)

A shallow embedding of the PDU processor of `main.go`.

* Go `float64` values are modelled by exact rationals `ℚ` where a property is about the
  values that flow through the pipeline; the order of the computed statistics depends on
  rounding and is settled on `F64`, IEEE 754 binary64 with round to nearest, ties to even.
* Go strings are modelled by Lean strings (sequences of Unicode characters).
* Go maps with string keys are modelled by association lists that hold each key at
  most once; the unspecified iteration order of `range` over a map is an explicit
  `RangeOrder` argument.
* `strconv.ParseFloat` and `fmt.Sprintf("%.3f", _)` belong to the Go standard
  library; they are arguments of the functions that call them.
-/

set_option autoImplicit false

namespace PduProcessor

/-! ## Strings: `strings.TrimSpace`, `strings.Split(_, " ")`, `fmt.Sprintf` -/

/-- Go `unicode.IsSpace`: the characters with the Unicode White_Space property. -/
def isSpace (c : Char) : Bool :=
  let n := c.toNat
  (0x09 ≤ n && n ≤ 0x0D) || n == 0x20 || n == 0x85 || n == 0xA0 || n == 0x1680 ||
  (0x2000 ≤ n && n ≤ 0x200A) || n == 0x2028 || n == 0x2029 || n == 0x202F ||
  n == 0x205F || n == 0x3000

/-- Characters of a string with leading and trailing white space removed. -/
def trimChars (cs : List Char) : List Char :=
  ((cs.dropWhile isSpace).reverse.dropWhile isSpace).reverse

/-- Go `strings.TrimSpace`. -/
def TrimSpace (s : String) : String := ⟨trimChars s.data⟩

/-- Pieces of a character sequence between consecutive single spaces (U+0020). -/
def splitChars : List Char → List (List Char)
  | [] => [[]]
  | c :: cs =>
    if c = ' ' then [] :: splitChars cs
    else
      match splitChars cs with
      | [] => [[c]]
      | p :: ps => (c :: p) :: ps

/-- Go `strings.Split(s, " ")`: the substrings between single space characters. -/
def Split (s : String) : List String := (splitChars s.data).map String.mk

/-- Go `fmt.Sprintf("%s_%s", rackName, lineType)`. -/
def mkKey (rackName lineType : String) : String := rackName ++ "_" ++ lineType

/-- Go `fmt.Sprintf("Q%d", i)` for a non-negative `i`. -/
def rackNameOf (i : Nat) : String := "Q" ++ toString i

/-! ## Maps with string keys -/

/-- Go `m[k]` with the presence flag: the value stored under `k`, if any. -/
def mapGet {α : Type} : List (String × α) → String → Option α
  | [], _ => none
  | (k', v) :: rest, k => if k' = k then some v else mapGet rest k

/-- Go `m[k] = v`: replaces the value of an existing key, adds the key otherwise. -/
def mapSet {α : Type} : List (String × α) → String → α → List (String × α)
  | [], k, v => [(k, v)]
  | (k', v') :: rest, k, v =>
    if k' = k then (k, v) :: rest else (k', v') :: mapSet rest k v

/-- The order in which a `range` loop visits the entries of a map. Go leaves the order
unspecified, and it may differ from one loop to the next: `enum r m` is the order used
by the loop number `r` over the map `m`, some rearrangement of the entries of `m`. -/
structure RangeOrder where
  enum : Nat → List (String × Nat) → List (String × Nat)
  perm : ∀ (r : Nat) (m : List (String × Nat)), (enum r m).Perm m

/-- The iteration order that visits the entries as they are stored. -/
def RangeOrder.stored : RangeOrder where
  enum := fun _ m => m
  perm := fun _ m => List.Perm.refl m

/-- The iteration order that visits the entries in reverse. -/
def RangeOrder.reversed : RangeOrder where
  enum := fun _ m => m.reverse
  perm := fun _ m => List.reverse_perm m

/-! ## Data model -/

/-- Statistics holds min, max, and average values. -/
structure Statistics where
  Min : ℚ
  Max : ℚ
  Avg : ℚ
deriving DecidableEq

/-- DataProcessor: the device name and the sample series per key `"Q1_l1"`, ... -/
structure DataProcessor where
  pduName : String
  data : List (String × List ℚ)
deriving DecidableEq

/-- NewDataProcessor: no device name, an empty map. -/
def NewDataProcessor : DataProcessor := { pduName := "", data := [] }

/-! ## CalculateStatistics -/

/-- One iteration of the scan loop of `CalculateStatistics` on `(min, max, sum)`. -/
def scanStep (acc : ℚ × ℚ × ℚ) (val : ℚ) : ℚ × ℚ × ℚ :=
  let min := if val < acc.1 then val else acc.1
  let max := if val > acc.2.1 then val else acc.2.1
  (min, max, acc.2.2 + val)

/-- CalculateStatistics calculates min, max, and average for a slice of values. -/
def CalculateStatistics (values : List ℚ) : Statistics :=
  match values with
  | [] => { Min := 0, Max := 0, Avg := 0 }
  | v0 :: _ =>
    let acc := values.foldl scanStep (v0, v0, 0)
    { Min := acc.1, Max := acc.2.1, Avg := acc.2.2 / (values.length : ℚ) }

/-! ## float64 arithmetic

The statistics of `main.go` and the summary of `report.go` are computed on `float64`.
This part gives IEEE 754 binary64 values with the operations those lines use: `<`, `>`,
`+`, `/` and the conversion of a length, each result rounded to nearest, ties to even. -/

/-- A float64 value: NaN, an infinity, or the finite value `(-1)^neg * m * 2^e`. The
finite float64 values are those with `m < 2^53` and `-1074 ≤ e ≤ 971`. -/
inductive F64 where
  | nan
  | inf (neg : Bool)
  | fin (neg : Bool) (m : Nat) (e : Int)
deriving DecidableEq

/-- The value `floor (log2 n)` for `n ≥ 1`, by `fuel` halvings. -/
def log2Fuel : Nat → Nat → Nat
  | 0, _ => 0
  | fuel + 1, n => if n < 2 then 0 else 1 + log2Fuel fuel (n / 2)

/-- The position of the leading bit of `n`. -/
def floorLog2 (n : Nat) : Nat := log2Fuel n n

/-- The value `floor (log2 (n / d))` for `n, d > 0`. -/
def quotLog2 (n d : Nat) : Int :=
  let l : Int := (floorLog2 n : Int) - (floorLog2 d : Int)
  let atLeast : Bool :=
    if 0 ≤ l then decide (d * 2 ^ l.toNat ≤ n) else decide (d ≤ n * 2 ^ (-l).toNat)
  if atLeast then l else l - 1

/-- The integer nearest to `num / den`, the even one of the two at a tie. -/
def roundQuot (num den : Nat) : Nat :=
  let q := num / den
  let r := num % den
  if den < 2 * r then q + 1 else if 2 * r < den then q else if q % 2 = 0 then q else q + 1

/-- The float64 nearest to `(-1)^neg * n / d` for `n, d > 0`, ties to the even
significand: the quotient is cut to 53 significant bits, or to a multiple of `2^-1074`
in the subnormal range, and a result of `2^1024` or more becomes an infinity. -/
def roundNearestEven (neg : Bool) (n d : Nat) : F64 :=
  let e : Int := max (quotLog2 n d - 52) (-1074)
  let m := if 0 ≤ e then roundQuot n (d * 2 ^ e.toNat) else roundQuot (n * 2 ^ (-e).toNat) d
  let m2 := if m = 2 ^ 53 then 2 ^ 52 else m
  let e2 := if m = 2 ^ 53 then e + 1 else e
  if 971 < e2 then F64.inf neg else F64.fin neg m2 e2

/-- The comparison `m1 * 2^e1 < m2 * 2^e2` of two magnitudes. -/
def magLt (m1 : Nat) (e1 : Int) (m2 : Nat) (e2 : Int) : Bool :=
  decide (m1 * 2 ^ (e1 - min e1 e2).toNat < m2 * 2 ^ (e2 - min e1 e2).toNat)

/-- Go `a < b` on float64: false when an operand is NaN, and `-0 < +0` is false. -/
def F64.lt : F64 → F64 → Bool
  | .nan, _ => false
  | _, .nan => false
  | .inf n1, .inf n2 => n1 && !n2
  | .inf n1, .fin _ _ _ => n1
  | .fin _ _ _, .inf n2 => !n2
  | .fin false m1 e1, .fin false m2 e2 => magLt m1 e1 m2 e2
  | .fin true m1 e1, .fin true m2 e2 => magLt m2 e2 m1 e1
  | .fin true m1 _, .fin false m2 _ => decide (m1 ≠ 0 ∨ m2 ≠ 0)
  | .fin false _ _, .fin true _ _ => false

/-- Go `a <= b` on float64: false when an operand is NaN. -/
def F64.le (a b : F64) : Bool :=
  match a, b with
  | .nan, _ => false
  | _, .nan => false
  | a, b => !(F64.lt b a)

/-- Go `a + b` on float64: the exact sum, rounded. -/
def F64.add : F64 → F64 → F64
  | .nan, _ => .nan
  | _, .nan => .nan
  | .inf n1, .inf n2 => if n1 = n2 then .inf n1 else .nan
  | .inf n1, .fin _ _ _ => .inf n1
  | .fin _ _ _, .inf n2 => .inf n2
  | .fin s1 m1 e1, .fin s2 m2 e2 =>
    let e := min e1 e2
    let a : Int := (if s1 then -1 else 1) * ((m1 * 2 ^ (e1 - e).toNat : Nat) : Int)
    let b : Int := (if s2 then -1 else 1) * ((m2 * 2 ^ (e2 - e).toNat : Nat) : Int)
    let s := a + b
    if s = 0 then .fin (s1 && s2) 0 0
    else if 0 ≤ e then roundNearestEven (decide (s < 0)) (s.natAbs * 2 ^ e.toNat) 1
    else roundNearestEven (decide (s < 0)) s.natAbs (2 ^ (-e).toNat)

/-- Go `a / b` on float64: the exact quotient, rounded. -/
def F64.div : F64 → F64 → F64
  | .nan, _ => .nan
  | _, .nan => .nan
  | .inf _, .inf _ => .nan
  | .inf n1, .fin s2 _ _ => .inf (xor n1 s2)
  | .fin s1 _ _, .inf n2 => .fin (xor s1 n2) 0 0
  | .fin s1 m1 e1, .fin s2 m2 e2 =>
    if m2 = 0 then (if m1 = 0 then .nan else .inf (xor s1 s2))
    else if m1 = 0 then .fin (xor s1 s2) 0 0
    else
      let e := min e1 e2
      roundNearestEven (xor s1 s2) (m1 * 2 ^ (e1 - e).toNat) (m2 * 2 ^ (e2 - e).toNat)

/-- Go `float64(n)` for a length `n`. -/
def F64.ofNat (n : Nat) : F64 :=
  if n = 0 then .fin false 0 0 else roundNearestEven false n 1

/-- The rational value of a finite float64; 0 for NaN and the infinities. -/
def F64.toRat : F64 → ℚ
  | .fin neg m e => (if neg then -1 else 1) * (m : ℚ) * (2 : ℚ) ^ e
  | _ => 0

/-- Whether the value is a finite float64: neither NaN nor an infinity, with at most 53
significant bits and an exponent in range. -/
def F64.isFinite : F64 → Bool
  | .fin _ m e => decide (m < 2 ^ 53 ∧ -1074 ≤ e ∧ e ≤ 971)
  | _ => false

/-- The double nearest to 0.1, `0x3FB999999999999A`. -/
def tenth : F64 := .fin false 7205759403792794 (-56)

/-- The double nearest to 0.7, `0x3FE6666666666666`. -/
def sevenTenths : F64 := .fin false 6305039478318694 (-53)

/-- The result of `CalculateStatistics` in float64. -/
structure StatisticsF64 where
  Min : F64
  Max : F64
  Avg : F64
deriving DecidableEq

/-- One iteration of the scan loop of `CalculateStatistics` on `(min, max, sum)`, in
float64: `if val < min`, `if val > max`, `sum += val`. -/
def scanStepF64 (acc : F64 × F64 × F64) (val : F64) : F64 × F64 × F64 :=
  let min := if F64.lt val acc.1 then val else acc.1
  let max := if F64.lt acc.2.1 val then val else acc.2.1
  (min, max, F64.add acc.2.2 val)

/-- The values `(min, max, sum)` after the scan loop of `CalculateStatistics`, which
starts from `min = max = values[0]` and `sum = 0.0`. -/
def scanF64 (v0 : F64) (values : List F64) : F64 × F64 × F64 :=
  values.foldl scanStepF64 (v0, v0, .fin false 0 0)

/-- CalculateStatistics on float64, as `main.go` computes it. -/
def CalculateStatisticsF64 (values : List F64) : StatisticsF64 :=
  match values with
  | [] => { Min := .fin false 0 0, Max := .fin false 0 0, Avg := .fin false 0 0 }
  | v0 :: _ =>
    let acc := scanF64 v0 values
    { Min := acc.1, Max := acc.2.1, Avg := F64.div acc.2.2 (F64.ofNat values.length) }

/-- The running sum of `CalculateStatistics`: `sum := 0.0`, then `sum += val` for each
sample in turn. -/
def sumF64 (values : List F64) : F64 := values.foldl F64.add (.fin false 0 0)

/-! ## LoadInputFile: header parsing -/

/-- The body of the header loop for one cell, up to the `len(parts) < 5` test: the
cell is trimmed, an empty cell is skipped, the rest is split at single spaces, and
fewer than 5 parts are skipped. An accepted cell gives `(pduName, key)` with
`pduName = parts[0]` and `key = parts[1] + "_" + parts[len(parts)-1]`. -/
def parseHeaderCell (header : String) : Option (String × String) :=
  let header := TrimSpace header
  if header = "" then none
  else
    let parts := Split header
    if parts.length < 5 then none
    else
      let pduName := parts.getD 0 ""
      let rackName := parts.getD 1 ""
      let lineType := parts.getD (parts.length - 1) ""
      some (pduName, mkKey rackName lineType)

/-- The variables the header loop updates: `dp.pduName` and `columnMap`. -/
structure HeaderState where
  pduName : String
  columnMap : List (String × Nat)
deriving DecidableEq

/-- One iteration `for i, header := range headers` of the header loop. -/
def headerStep (st : HeaderState) (i : Nat) (header : String) : HeaderState :=
  if i = 0 then st
  else
    match parseHeaderCell header with
    | none => st
    | some (pduName, key) =>
      { pduName := if st.pduName = "" then pduName else st.pduName,
        columnMap := mapSet st.columnMap key i }

/-- The header loop over the cells that remain, the first of them in column `i`. -/
def parseHeadersFrom : Nat → List String → HeaderState → HeaderState
  | _, [], st => st
  | i, header :: rest, st => parseHeadersFrom (i + 1) rest (headerStep st i header)

/-- The header loop of `LoadInputFile`, started with the processor's device name and
an empty column map. -/
def parseHeaders (pduName : String) (headers : List String) : HeaderState :=
  parseHeadersFrom 0 headers { pduName := pduName, columnMap := [] }

/-! ## LoadInputFile: aggregation of the data rows -/

/-- The body of `for key, colIndex := range columnMap` for one map entry. -/
def addSample (parseFloat : String → Option ℚ) (row : List String)
    (data : List (String × List ℚ)) (entry : String × Nat) : List (String × List ℚ) :=
  let key := entry.1
  let colIndex := entry.2
  if colIndex ≥ row.length then data
  else
    let cellValue := TrimSpace (row.getD colIndex "")
    if cellValue = "" then data
    else
      match parseFloat cellValue with
      | none => data
      | some value => mapSet data key ((mapGet data key).getD [] ++ [value])

/-- The inner loop over the column map for one data row, in the given visiting order. -/
def processRow (parseFloat : String → Option ℚ) (entries : List (String × Nat))
    (row : List String) (data : List (String × List ℚ)) : List (String × List ℚ) :=
  entries.foldl (addSample parseFloat row) data

/-- The loop `for rowIndex := ...; rowIndex < len(rows); rowIndex++` over the rows that
remain, the first of them being row `rowIndex`. -/
def processRowsFrom (parseFloat : String → Option ℚ) (ord : RangeOrder)
    (columnMap : List (String × Nat)) :
    Nat → List (List String) → List (String × List ℚ) → List (String × List ℚ)
  | _, [], data => data
  | rowIndex, row :: rest, data =>
    processRowsFrom parseFloat ord columnMap (rowIndex + 1) rest
      (processRow parseFloat (ord.enum rowIndex columnMap) row data)

/-- LoadInputFile, from the point where the rows of the first sheet have been read:
the returned pair is the error (`none` for `nil`) and the processor afterwards. -/
def LoadInputFile (parseFloat : String → Option ℚ) (ord : RangeOrder) (filename : String)
    (dp : DataProcessor) (rows : List (List String)) : Option String × DataProcessor :=
  if rows.length < 2 then (some ("insufficient data in " ++ filename), dp)
  else
    let headers := rows.headD []
    let st := parseHeaders dp.pduName headers
    (none, { pduName := st.pduName,
             data := processRowsFrom parseFloat ord st.columnMap 1 (rows.drop 1) dp.data })

/-! ## GenerateOutput -/

/-- The order of measurement types. -/
def measurementTypes : List String :=
  ["l1 min", "l1 avg", "l1 max", "l2 min", "l2 avg", "l2 max", "l3 min", "l3 avg", "l3 max"]

/-- The `switch statType` of `GenerateOutput`; `value` keeps its zero value when no
case matches. -/
def selectStat (stats : Statistics) (statType : String) : ℚ :=
  if statType = "min" then stats.Min
  else if statType = "avg" then stats.Avg
  else if statType = "max" then stats.Max
  else 0

/-- The value computed for rack `Q<i>` in the row of `lineType` and `statType`. -/
def cellValue (dp : DataProcessor) (lineType statType : String) (i : Nat) : ℚ :=
  let rackName := rackNameOf i
  let key := mkKey rackName lineType
  match mapGet dp.data key with
  | some values =>
    if values.length > 0 then selectStat (CalculateStatistics values) statType else 0
  | none => 0

/-- The 18 values of one measurement type, racks Q1 to Q18. -/
def rowValues (dp : DataProcessor) (measurementType : String) : List ℚ :=
  let parts := Split measurementType
  let lineType := parts.getD 0 ""
  let statType := parts.getD 1 ""
  (List.range' 1 18).map (cellValue dp lineType statType)

/-- The device statistics matrix: 9 measurement types by 18 racks. -/
def statisticsMatrix (dp : DataProcessor) : List (List ℚ) :=
  measurementTypes.map (rowValues dp)

/-- The header row of the output file. -/
def outputHeader : List String :=
  "Measurement Type" :: (List.range' 1 18).map rackNameOf

/-- One data row of the output file: the label, then the formatted values. -/
def outputRow (fmt3 : ℚ → String) (dp : DataProcessor) (measurementType : String) :
    List String :=
  measurementType :: (rowValues dp measurementType).map fmt3

/-- GenerateOutput: the records handed to the CSV writer, in order; `fmt3` is
`fmt.Sprintf("%.3f", _)`. -/
def GenerateOutput (fmt3 : ℚ → String) (dp : DataProcessor) : List (List String) :=
  outputHeader :: measurementTypes.map (outputRow fmt3 dp)

/-! ## Definitions used to state the properties -/

/-- The sample series stored under a key; a missing key has the empty series. -/
def series (data : List (String × List ℚ)) (key : String) : List ℚ :=
  (mapGet data key).getD []

/-- The keys of a map, in storage order. -/
def mapKeys {α : Type} (m : List (String × α)) : List String := m.map Prod.fst

/-- The sample a data row gives for a column: the parsed trimmed cell when the column
index is within the row, the trimmed cell is non-empty and it parses as a number. -/
def sampleAt (parseFloat : String → Option ℚ) (row : List String) (col : Nat) : Option ℚ :=
  if col < row.length ∧ TrimSpace (row.getD col "") ≠ "" then
    parseFloat (TrimSpace (row.getD col ""))
  else none

/-- Go `strings.Fields` on characters: the maximal runs of non-space characters. -/
def fieldsChars : List Char → List (List Char)
  | [] => []
  | c :: cs =>
    if isSpace c then fieldsChars cs
    else
      match cs with
      | [] => [[c]]
      | d :: _ =>
        if isSpace d then [c] :: fieldsChars cs
        else
          match fieldsChars cs with
          | [] => [[c]]
          | p :: ps => (c :: p) :: ps

/-- The white-space-separated tokens of a string. -/
def Fields (s : String) : List String := (fieldsChars s.data).map String.mk

/-- The digits of a decimal numeral as a number, `none` when some character is not a
digit. -/
def digitsValue (cs : List Char) : Option Nat :=
  cs.foldl (fun acc c =>
    match acc with
    | none => none
    | some n => if c.isDigit then some (10 * n + (c.toNat - 48)) else none) (some 0)

/-- Sign, integer part digits and fraction digits of `[+-]digits[.digits]`. -/
def decimalParts (s : String) : Option (Bool × Nat × Nat) :=
  let cs := s.data
  let neg := cs.head? = some '-'
  let body := if cs.head? = some '-' ∨ cs.head? = some '+' then cs.tail else cs
  let ip := body.takeWhile (fun c => c ≠ '.')
  let rest := body.dropWhile (fun c => c ≠ '.')
  let fp := rest.tail
  if ip = [] ∨ (rest ≠ [] ∧ fp = []) then none
  else
    match digitsValue (ip ++ fp) with
    | none => none
    | some m => some (decide neg, m, fp.length)

/-- A parser for plain decimal literals such as `"10.0"` or `"-3.25"` (no exponent),
with the exact value of the literal: the fragment of `strconv.ParseFloat` that the
worked examples use. -/
def parseDecimal (s : String) : Option ℚ :=
  match decimalParts s with
  | none => none
  | some (neg, m, k) => some ((if neg then -1 else 1) * (m : ℚ) / (10 : ℚ) ^ k)

/-- The line label of a line index: `l1`, `l2`, `l3`. -/
def lineName (l : Fin 3) : String :=
  match l with
  | 0 => "l1"
  | 1 => "l2"
  | 2 => "l3"

/-- The statistic of a stat-kind index: min, avg, max. -/
def statAt (s : Fin 3) (stats : Statistics) : ℚ :=
  match s with
  | 0 => stats.Min
  | 1 => stats.Avg
  | 2 => stats.Max

/-- A rendering of a rational with three decimals, rounding half to even, in the manner
of `fmt.Sprintf("%.3f", _)`; it instantiates the formatter in examples. -/
def formatFixed3 (x : ℚ) : String :=
  let y := abs x * 1000
  let f := y.floor.toNat
  let r := y - (f : ℚ)
  let n := if 2 * r > 1 then f + 1 else if 2 * r < 1 then f else if f % 2 = 0 then f else f + 1
  let frac := toString (n % 1000)
  (if x < 0 then "-" else "") ++ toString (n / 1000) ++ "." ++
    String.mk (List.replicate (3 - frac.length) '0') ++ frac

/-- The key an accepted header cell is mapped under; `none` for an ignored cell. -/
def headerKey (header : String) : Option String :=
  (parseHeaderCell header).map Prod.snd

/-- The position, counted from 0, of the first cell that is accepted with the key. -/
def columnOf : List String → String → Option Nat
  | [], _ => none
  | c :: rest, k =>
    if headerKey c = some k then some 0 else (columnOf rest k).map (fun j => j + 1)

/-- The sample a single data cell gives: the parsed trimmed cell when the trimmed cell
is non-empty and parses as a number. -/
def cellSample (parseFloat : String → Option ℚ) (cell : String) : Option ℚ :=
  if TrimSpace cell ≠ "" then parseFloat (TrimSpace cell) else none

/-- The cells of a row after the first, rearranged by `σ`; the first cell stays. -/
def permuteCols {m : Nat} (σ : Equiv.Perm (Fin m)) (row : List String) : List String :=
  match row with
  | [] => []
  | t :: cells => t :: List.ofFn (fun j : Fin m => cells.getD (σ j).val "")

end PduProcessor

/-! # Monthly filler (`pkg/report/report.go`)

* A template cell (`interface{}`) is `nil`, a `float64` or a `string`.
* Errors are values of `ReportError`; `ReportError.message` is the Go text.
* An index out of range is a run-time panic: `Outcome.panicked`.
* The file system, the workbook reader and the CSV reader are the argument `fs`. -/

namespace Report

open PduProcessor

/-! ## Data model -/

deriving instance DecidableEq for Except

/-- A cell of the monthly grid: `nil`, a `float64` value or a `string` value. -/
inductive Cell where
  | empty
  | num (v : ℚ)
  | text (s : String)
deriving DecidableEq

/-- PDUData holds the processed statistics for a PDU (Q1-Q18 values per slice). -/
structure PDUData where
  PDUName : String
  L1Min : List ℚ
  L1Avg : List ℚ
  L1Max : List ℚ
  L2Min : List ℚ
  L2Avg : List ℚ
  L2Max : List ℚ
  L3Min : List ℚ
  L3Avg : List ℚ
  L3Max : List ℚ
deriving DecidableEq

/-- PDUSection represents a PDU section in the template. -/
structure PDUSection where
  Name : String
  HeaderRow : Nat
  StartRow : Nat
  EndRow : Nat
deriving DecidableEq

/-- MonthlyFiller handles filling PDU data into the monthly template. -/
structure MonthlyFiller where
  pduData : PDUData
  monthlyData : List (List Cell)
  pduSections : List PDUSection
deriving DecidableEq

/-- NewMonthlyFiller: every field has its zero value. -/
def NewMonthlyFiller : MonthlyFiller :=
  { pduData := { PDUName := "", L1Min := [], L1Avg := [], L1Max := [], L2Min := [],
                 L2Avg := [], L2Max := [], L3Min := [], L3Avg := [], L3Max := [] },
    monthlyData := [], pduSections := [] }

/-- The errors the filler returns. -/
inductive ReportError where
  | extractFailed (filename : String)
  | loadCSVFailed (cause : String)
  | loadExcelFailed (cause : String)
  | sectionNotFound (pduName : String)
  | rowIndexExceeds (rowIndex : Nat)
  | openPDUFailed (cause : String)
  | readCSVFailed (cause : String)
  | insufficientPDUData
deriving DecidableEq

/-- The text of an error, as built by `fmt.Errorf`. -/
def ReportError.message : ReportError → String
  | .extractFailed filename => "could not extract PDU name from filename: " ++ filename
  | .loadCSVFailed cause => "failed to load CSV file: " ++ cause
  | .loadExcelFailed cause => "failed to load Excel file: " ++ cause
  | .sectionNotFound pduName => "PDU section '" ++ pduName ++ "' not found in template"
  | .rowIndexExceeds rowIndex =>
    "row index " ++ toString rowIndex ++ " exceeds template size"
  | .openPDUFailed cause => "failed to open PDU data file: " ++ cause
  | .readCSVFailed cause => "failed to read CSV: " ++ cause
  | .insufficientPDUData => "insufficient data in PDU CSV file"

/-- How a call that may also index out of range ends: `nil`, an error, or a panic. -/
inductive Outcome where
  | ok
  | failed (e : ReportError)
  | panicked
deriving DecidableEq

/-- `fmt.Sprintf("%v", v)` for a `float64`. Go writes a float with digits, a sign, a
point and an exponent, or as `NaN`, `+Inf`, `-Inf`: the letter `P` never occurs. -/
structure FloatFormat where
  render : ℚ → String
  no_upper_p : ∀ x : ℚ, 'P' ∉ (render x).data

/-- What the external readers return: `statOk` tells whether `os.Stat` succeeds,
`excel` is the result of opening a workbook (the result of `GetRows` for each of its
sheets, in sheet order) and `csv` the result of opening and reading a CSV file. -/
structure FileSystem where
  statOk : String → Bool
  excel : String → Except String (List (Except String (List (List String))))
  csv : String → Except String (List (List String))

/-! ## Strings and paths -/

/-- Go `strings.HasPrefix`. -/
def HasPrefix (s pre : String) : Bool := pre.data.isPrefixOf s.data

/-- Go `strings.TrimPrefix`. -/
def TrimPrefix (s pre : String) : String :=
  if HasPrefix s pre then ⟨s.data.drop pre.data.length⟩ else s

/-- Go `strings.HasSuffix`. -/
def HasSuffix (s suf : String) : Bool := suf.data.reverse.isPrefixOf s.data.reverse

/-- Go `strings.TrimSuffix`. -/
def TrimSuffix (s suf : String) : String :=
  if HasSuffix s suf then ⟨s.data.take (s.data.length - suf.data.length)⟩ else s

/-- Go `os.IsPathSeparator` on Unix. -/
def isPathSeparator (c : Char) : Bool := c = '/'

/-- Go `filepath.Base` on Unix: the last element of the path, trailing slashes
removed; `.` for the empty path and `/` for a path of slashes. -/
def Base (path : String) : String :=
  if path = "" then "."
  else
    let stripped := (path.data.reverse.dropWhile isPathSeparator).reverse
    let last := (stripped.reverse.takeWhile (fun c => !isPathSeparator c)).reverse
    if last = [] then "/" else ⟨last⟩

/-- Go `filepath.Ext`: the suffix beginning at the final dot in the final element of
the path; empty if there is no dot. -/
def Ext (path : String) : String :=
  let lastRev := path.data.reverse.takeWhile (fun c => !isPathSeparator c)
  if '.' ∈ lastRev then ⟨'.' :: (lastRev.takeWhile (fun c => c ≠ '.')).reverse⟩ else ""

/-- Go `strings.ToUpper` and `strings.ToLower` on ASCII text. -/
def ToUpper (s : String) : String := ⟨s.data.map Char.toUpper⟩

/-- Go `strings.ToLower` on ASCII text. -/
def ToLower (s : String) : String := ⟨s.data.map Char.toLower⟩

/-- The class `[abc]` under the flag `(?i)`. -/
def isABC (c : Char) : Bool :=
  c = 'a' || c = 'b' || c = 'c' || c = 'A' || c = 'B' || c = 'C'

/-- The class `\d`: an ASCII digit. -/
def isDigitChar (c : Char) : Bool := '0' ≤ c && c ≤ '9'

/-- The leftmost match of the regular expression `(?i)([abc]\d+)`, the digits taken
greedily: `re.FindStringSubmatch(s)[1]` when there is a match. -/
def findPDUMatch : List Char → Option (List Char)
  | [] => none
  | c :: cs =>
    if isABC c && (cs.head?.map isDigitChar).getD false then
      some (c :: cs.takeWhile isDigitChar)
    else findPDUMatch cs

/-- ExtractPDUNameFromFilename extracts PDU name from filename like "total_a1.csv" ->
"A1". -/
def ExtractPDUNameFromFilename (filename : String) : Except ReportError String :=
  let basename := Base filename
  let basename := TrimSuffix basename (Ext basename)
  match findPDUMatch basename.data with
  | none => .error (.extractFailed filename)
  | some m => .ok (ToUpper ⟨m⟩)

/-! ## LoadPDUData -/

/-- The loop `for j := 1; j < 19; j++` of `LoadPDUData` for one column `j`: a cell that
parses is stored at `targetSlice[j-1]`. -/
def storeValue (parseFloat : String → Option ℚ) (record : List String)
    (targetSlice : List ℚ) (j : Nat) : List ℚ :=
  if j < record.length then
    match parseFloat (TrimSpace (record.getD j "")) with
    | some value => targetSlice.set (j - 1) value
    | none => targetSlice
  else targetSlice

/-- The loop over the columns 1..18 of one record. -/
def storeValues (parseFloat : String → Option ℚ) (record : List String)
    (targetSlice : List ℚ) : List ℚ :=
  (List.range' 1 18).foldl (storeValue parseFloat record) targetSlice

/-- The body of the loop over the records of `LoadPDUData`: a record with fewer than 19
fields or an unknown measurement type is skipped; the `switch` selects the slice that
receives the values. -/
def loadRecord (parseFloat : String → Option ℚ) (pd : PDUData) (record : List String) :
    PDUData :=
  if record.length < 19 then pd
  else
    let measurementType := TrimSpace (record.getD 0 "")
    if measurementType = "l1 min" then
      { pd with L1Min := storeValues parseFloat record pd.L1Min }
    else if measurementType = "l1 avg" then
      { pd with L1Avg := storeValues parseFloat record pd.L1Avg }
    else if measurementType = "l1 max" then
      { pd with L1Max := storeValues parseFloat record pd.L1Max }
    else if measurementType = "l2 min" then
      { pd with L2Min := storeValues parseFloat record pd.L2Min }
    else if measurementType = "l2 avg" then
      { pd with L2Avg := storeValues parseFloat record pd.L2Avg }
    else if measurementType = "l2 max" then
      { pd with L2Max := storeValues parseFloat record pd.L2Max }
    else if measurementType = "l3 min" then
      { pd with L3Min := storeValues parseFloat record pd.L3Min }
    else if measurementType = "l3 avg" then
      { pd with L3Avg := storeValues parseFloat record pd.L3Avg }
    else if measurementType = "l3 max" then
      { pd with L3Max := storeValues parseFloat record pd.L3Max }
    else pd

/-- The slices after `make([]float64, 18)`: 18 zeros each. -/
def initSlices (pduName : String) : PDUData :=
  { PDUName := pduName,
    L1Min := List.replicate 18 0, L1Avg := List.replicate 18 0,
    L1Max := List.replicate 18 0, L2Min := List.replicate 18 0,
    L2Avg := List.replicate 18 0, L2Max := List.replicate 18 0,
    L3Min := List.replicate 18 0, L3Avg := List.replicate 18 0,
    L3Max := List.replicate 18 0 }

/-- LoadPDUData loads the processed PDU statistics from CSV. `source` is the result of
`os.Open` and, when the file opens, of `reader.ReadAll`. The returned pair is the error
(`none` for `nil`) and the filler afterwards. -/
def LoadPDUData (parseFloat : String → Option ℚ) (mf : MonthlyFiller) (filename : String)
    (source : Except String (Except String (List (List String)))) :
    Option ReportError × MonthlyFiller :=
  match ExtractPDUNameFromFilename filename with
  | .error err => (some err, mf)
  | .ok pduName =>
    let mf := { mf with pduData := { mf.pduData with PDUName := pduName } }
    match source with
    | .error err => (some (.openPDUFailed err), mf)
    | .ok (.error err) => (some (.readCSVFailed err), mf)
    | .ok (.ok records) =>
      if records.length < 10 then (some .insufficientPDUData, mf)
      else
        (none, { mf with pduData :=
          (records.drop 1).foldl (loadRecord parseFloat) (initSlices pduName) })

/-! ## LoadMonthlyTemplate -/

/-- The function `loadExcelFile`: loads an Excel file and returns the rows of its first sheet. -/
def loadExcelFile (fs : FileSystem) (filename : String) :
    Except String (List (List String)) :=
  match fs.excel filename with
  | .error err => .error err
  | .ok sheets =>
    match sheets with
    | [] => .error "no sheets found"
    | first :: _ => first

/-- The function `loadCSVFile`: loads a CSV file and returns rows as string arrays. -/
def loadCSVFile (fs : FileSystem) (filename : String) : Except String (List (List String)) :=
  fs.csv filename

/-- The file `LoadMonthlyTemplate` decides to load. -/
def targetFile (fs : FileSystem) (filename : String) (preserveExisting : Bool)
    (outputFile : String) : String :=
  if preserveExisting && outputFile ≠ "" then
    if fs.statOk outputFile then outputFile else filename
  else filename

/-- The rows `LoadMonthlyTemplate` reads from the target file. -/
def loadRows (fs : FileSystem) (filename : String) (preserveExisting : Bool)
    (outputFile : String) : Except ReportError (List (List String)) :=
  let target := targetFile fs filename preserveExisting outputFile
  if HasSuffix (ToLower target) ".csv" then
    match loadCSVFile fs target with
    | .error err => .error (.loadCSVFailed err)
    | .ok rows => .ok rows
  else
    match loadExcelFile fs target with
    | .error err => .error (.loadExcelFailed err)
    | .ok rows => .ok rows

/-- The conversion of one source string: a number when it parses, else the string;
`nil` for the empty string. -/
def convertCell (parseFloat : String → Option ℚ) (cell : String) : Cell :=
  if cell ≠ "" then
    match parseFloat cell with
    | some val => .num val
    | none => .text cell
  else .empty

/-- The loop `for len(row) < 15 { row = append(row, nil) }`. -/
def padRow (row : List Cell) : List Cell :=
  row ++ List.replicate (15 - row.length) Cell.empty

/-- The conversion of the loaded rows to the grid. -/
def convertRows (parseFloat : String → Option ℚ) (rows : List (List String)) :
    List (List Cell) :=
  rows.map (fun row => padRow (row.map (convertCell parseFloat)))

/-- Go `fmt.Sprintf("%v", firstCell)`. -/
def cellString (fmt : FloatFormat) : Cell → String
  | .empty => "<nil>"
  | .num v => fmt.render v
  | .text s => s

/-- The scan loop of `identifyPDUSections` over the rows that remain, the first of
them being row `i`. -/
def identifyFrom (fmt : FloatFormat) : Nat → List (List Cell) → List PDUSection
  | _, [] => []
  | i, row :: rest =>
    match row with
    | [] => identifyFrom fmt (i + 1) rest
    | firstCell :: _ =>
      if firstCell = Cell.empty then identifyFrom fmt (i + 1) rest
      else
        let cellStr := cellString fmt firstCell
        if HasPrefix cellStr "PDU " then
          let pduName := TrimPrefix cellStr "PDU "
          let startRow := i + 1
          let endRow := startRow + 17
          { Name := pduName, HeaderRow := i, StartRow := startRow, EndRow := endRow } ::
            identifyFrom fmt (i + 1) rest
        else identifyFrom fmt (i + 1) rest

/-- The function `identifyPDUSections` scans the template to find all PDU sections. -/
def identifyPDUSections (fmt : FloatFormat) (mf : MonthlyFiller) : MonthlyFiller :=
  { mf with pduSections := identifyFrom fmt 0 mf.monthlyData }

/-- LoadMonthlyTemplate loads the monthly template and identifies PDU sections: the
error (`none` for `nil`) and the filler afterwards. -/
def LoadMonthlyTemplate (fs : FileSystem) (parseFloat : String → Option ℚ)
    (fmt : FloatFormat) (mf : MonthlyFiller) (filename : String) (preserveExisting : Bool)
    (outputFile : String) : Option ReportError × MonthlyFiller :=
  match loadRows fs filename preserveExisting outputFile with
  | .error e => (some e, mf)
  | .ok rows =>
    (none, identifyPDUSections fmt { mf with monthlyData := convertRows parseFloat rows })

/-! ## FindPDUSection and FillPDUData -/

/-- FindPDUSection finds the section for the specified PDU name. -/
def FindPDUSection (mf : MonthlyFiller) (pduName : String) : Except ReportError PDUSection :=
  match mf.pduSections.find? (fun s => s.Name = pduName) with
  | some sec => .ok sec
  | none => .error (.sectionNotFound pduName)

/-- Column mapping based on the template structure. -/
def columnMapping : List (String × Nat) :=
  [("L1Min", 3), ("L1Avg", 4), ("L1Max", 5), ("L2Min", 6), ("L2Avg", 7), ("L2Max", 8),
    ("L3Min", 9), ("L3Avg", 10), ("L3Max", 11),
    ("SummaryMin", 12), ("SummaryAvg", 13), ("SummaryMax", 14)]

/-- Go `columnMapping[name]`: 0 for a missing key. -/
def columnFor (name : String) : Nat := (mapGet columnMapping name).getD 0

/-- The function `minValue` returns the minimum of three float64 values. -/
def minValue (a b c : ℚ) : ℚ :=
  let min := a
  let min := if b < min then b else min
  let min := if c < min then c else min
  min

/-- The function `maxValue` returns the maximum of three float64 values. -/
def maxValue (a b c : ℚ) : ℚ :=
  let max := a
  let max := if b > max then b else max
  let max := if c > max then c else max
  max

/-! ## The summary values in float64 -/

/-- The function `minValue` on float64, with the comparison `<` of Go. -/
def minValueF64 (a b c : F64) : F64 :=
  let min := a
  let min := if F64.lt b min then b else min
  let min := if F64.lt c min then c else min
  min

/-- The function `maxValue` on float64, with the comparison `>` of Go. -/
def maxValueF64 (a b c : F64) : F64 :=
  let max := a
  let max := if F64.lt max b then b else max
  let max := if F64.lt max c then c else max
  max

/-- The nine values read for one rack, in float64. -/
structure RackStatsF64 where
  l1Min : F64
  l1Avg : F64
  l1Max : F64
  l2Min : F64
  l2Avg : F64
  l2Max : F64
  l3Min : F64
  l3Avg : F64
  l3Max : F64
deriving DecidableEq

/-- The values `(summaryMin, summaryAvg, summaryMax)` that `FillPDUData` computes for one
rack and assigns to the columns 12, 13 and 14 of its row, in float64: `summaryAvg` is
`(l1Avg + l2Avg + l3Avg) / 3.0`, each operation rounded. -/
def summaryF64 (st : RackStatsF64) : F64 × F64 × F64 :=
  let summaryMin := minValueF64 st.l1Min st.l2Min st.l3Min
  let summaryAvg := F64.div (F64.add (F64.add st.l1Avg st.l2Avg) st.l3Avg) (.fin false 3 0)
  let summaryMax := maxValueF64 st.l1Max st.l2Max st.l3Max
  (summaryMin, summaryAvg, summaryMax)

/-- The rack whose nine statistics are all the double nearest to 0.1. -/
def tenthRack : RackStatsF64 :=
  { l1Min := tenth, l1Avg := tenth, l1Max := tenth, l2Min := tenth, l2Avg := tenth,
    l2Max := tenth, l3Min := tenth, l3Avg := tenth, l3Max := tenth }

/-- The rack with the lines (1, 1.5, 2), (2, 2.5, 3) and (3, 3, 3). -/
def halvesRack : RackStatsF64 :=
  { l1Min := .fin false 1 0, l1Avg := .fin false 3 (-1), l1Max := .fin false 2 0,
    l2Min := .fin false 2 0, l2Avg := .fin false 5 (-1), l2Max := .fin false 3 0,
    l3Min := .fin false 3 0, l3Avg := .fin false 3 0, l3Max := .fin false 3 0 }

/-- The nine values read for one rack. -/
structure RackStats where
  l1Min : ℚ
  l1Avg : ℚ
  l1Max : ℚ
  l2Min : ℚ
  l2Avg : ℚ
  l2Max : ℚ
  l3Min : ℚ
  l3Avg : ℚ
  l3Max : ℚ
deriving DecidableEq

/-- The reads `mf.pduData.L1Min[q]`, ...: `none` when an index is out of range. -/
def readStats (pd : PDUData) (q : Nat) : Option RackStats :=
  match pd.L1Min[q]?, pd.L1Avg[q]?, pd.L1Max[q]?, pd.L2Min[q]?, pd.L2Avg[q]?, pd.L2Max[q]?,
    pd.L3Min[q]?, pd.L3Avg[q]?, pd.L3Max[q]? with
  | some a1, some a2, some a3, some b1, some b2, some b3, some c1, some c2, some c3 =>
    some { l1Min := a1, l1Avg := a2, l1Max := a3, l2Min := b1, l2Avg := b2, l2Max := b3,
           l3Min := c1, l3Avg := c2, l3Max := c3 }
  | _, _, _, _, _, _, _, _, _ => none

/-- The assignment `row[col] = v`: `none` when the column is out of range. -/
def setCell (row : List Cell) (col : Nat) (v : Cell) : Option (List Cell) :=
  if col < row.length then some (row.set col v) else none

/-- The twelve assignments to one row: the nine statistics, then the summary. -/
def writeStats (row : List Cell) (st : RackStats) : Option (List Cell) :=
  (setCell row (columnFor "L1Min") (.num st.l1Min)).bind fun row =>
  (setCell row (columnFor "L1Avg") (.num st.l1Avg)).bind fun row =>
  (setCell row (columnFor "L1Max") (.num st.l1Max)).bind fun row =>
  (setCell row (columnFor "L2Min") (.num st.l2Min)).bind fun row =>
  (setCell row (columnFor "L2Avg") (.num st.l2Avg)).bind fun row =>
  (setCell row (columnFor "L2Max") (.num st.l2Max)).bind fun row =>
  (setCell row (columnFor "L3Min") (.num st.l3Min)).bind fun row =>
  (setCell row (columnFor "L3Avg") (.num st.l3Avg)).bind fun row =>
  (setCell row (columnFor "L3Max") (.num st.l3Max)).bind fun row =>
  let summaryMin := minValue st.l1Min st.l2Min st.l3Min
  let summaryAvg := (st.l1Avg + st.l2Avg + st.l3Avg) / 3
  let summaryMax := maxValue st.l1Max st.l2Max st.l3Max
  (setCell row (columnFor "SummaryMin") (.num summaryMin)).bind fun row =>
  (setCell row (columnFor "SummaryAvg") (.num summaryAvg)).bind fun row =>
  setCell row (columnFor "SummaryMax") (.num summaryMax)

/-- The body of the loop `for q := 0; q < 18; q++` once the row exists: the row is
padded, the statistics are read and written; `none` is a panic. -/
def fillRow (pd : PDUData) (q : Nat) (row : List Cell) : Option (List Cell) :=
  match readStats pd q with
  | none => none
  | some st => writeStats (padRow row) st

/-- The loop `for q := ...; q < 18; q++` with `n` iterations left, the next for rack
`q`: the outcome and the grid afterwards. -/
def fillLoop (pd : PDUData) (startRow : Nat) :
    Nat → Nat → List (List Cell) → Outcome × List (List Cell)
  | 0, _, grid => (.ok, grid)
  | n + 1, q, grid =>
    let rowIndex := startRow + q
    if rowIndex ≥ grid.length then (.failed (.rowIndexExceeds rowIndex), grid)
    else
      match fillRow pd q (grid.getD rowIndex []) with
      | none => (.panicked, grid)
      | some row => fillLoop pd startRow n (q + 1) (grid.set rowIndex row)

/-- FillPDUData fills the PDU statistics into the correct section of the monthly
template: the outcome and the filler afterwards. -/
def FillPDUData (mf : MonthlyFiller) : Outcome × MonthlyFiller :=
  match FindPDUSection mf mf.pduData.PDUName with
  | .error err => (.failed err, mf)
  | .ok sec =>
    let r := fillLoop mf.pduData sec.StartRow 18 0 mf.monthlyData
    (r.1, { mf with monthlyData := r.2 })

/-! ## ExportToCSV -/

/-- The text `ExportToCSV` writes for a cell; `fmt3` is `fmt.Sprintf("%.3f", _)`. -/
def exportCell (fmt3 : ℚ → String) : Cell → String
  | .empty => ""
  | .text v => v
  | .num v => fmt3 v

/-- ExportToCSV: the records handed to the CSV writer. -/
def ExportToCSV (fmt3 : ℚ → String) (mf : MonthlyFiller) : List (List String) :=
  mf.monthlyData.map (fun row => row.map (exportCell fmt3))

/-! ## Definitions used to state the properties -/

/-- A float rendering: three decimals. It instantiates `FloatFormat` in examples. -/
def FloatFormat.fixed3 : FloatFormat where
  render := formatFixed3
  no_upper_p := by
    intro x
    have hdc : ∀ d : Nat, d < 10 → Nat.digitChar d ≠ 'P' := by
      intro d hd
      interval_cases d <;> decide
    have hcore : ∀ (fuel n : Nat) (ds : List Char), 'P' ∉ ds →
        'P' ∉ Nat.toDigitsCore 10 fuel n ds := by
      intro fuel
      induction fuel with
      | zero => intro n ds h; simpa [Nat.toDigitsCore] using h
      | succ f ih =>
        intro n ds h
        have hd : 'P' ∉ Nat.digitChar (n % 10) :: ds := by
          simp only [List.mem_cons, not_or]
          exact ⟨fun e => hdc _ (Nat.mod_lt _ (by decide)) e.symm, h⟩
        simp only [Nat.toDigitsCore]
        split_ifs
        · exact hd
        · exact ih _ _ hd
    have hnat : ∀ n : Nat, 'P' ∉ (toString n).data := by
      intro n
      show 'P' ∉ (Nat.repr n).data
      simp only [Nat.repr, Nat.toDigits, List.asString]
      exact hcore _ _ _ (by simp)
    simp only [formatFixed3, String.data_append, List.mem_append, not_or]
    refine ⟨⟨⟨⟨?_, hnat _⟩, by decide⟩, ?_⟩, hnat _⟩
    · split_ifs <;> decide
    · simp [List.mem_replicate]

/-- The device name a row announces: its column-0 cell is a text that starts with the
four characters `PDU `, and the name is the text after them. -/
def markerName (row : List Cell) : Option String :=
  match row with
  | Cell.text s :: _ =>
    match s.data with
    | 'P' :: 'D' :: 'U' :: ' ' :: rest => some ⟨rest⟩
    | _ => none
  | _ => none

/-- The section recorded for a marker in row `i`. -/
def sectionAt (i : Nat) (name : String) : PDUSection :=
  { Name := name, HeaderRow := i, StartRow := i + 1, EndRow := i + 18 }

/-- The row ranges `HeaderRow..EndRow` of two sections share no row. -/
@[reducible] def SectionsDisjoint (s t : PDUSection) : Prop :=
  s.EndRow < t.HeaderRow ∨ t.EndRow < s.HeaderRow

/-- A letter among a, b, c (either case) directly followed by a digit occurs. -/
def OccursIn (l : List Char) : Prop :=
  ∃ (p : List Char) (c d : Char) (s : List Char),
    l = p ++ c :: d :: s ∧ isABC c = true ∧ isDigitChar d = true

/-- The stem of a file name: the base name with its extension removed. -/
def stemOf (filename : String) : String :=
  TrimSuffix (Base filename) (Ext (Base filename))

/-- The cell the fill writes in a column, if it writes that column. -/
def filledCell (st : RackStats) (j : Nat) : Option Cell :=
  if j = 3 then some (.num st.l1Min)
  else if j = 4 then some (.num st.l1Avg)
  else if j = 5 then some (.num st.l1Max)
  else if j = 6 then some (.num st.l2Min)
  else if j = 7 then some (.num st.l2Avg)
  else if j = 8 then some (.num st.l2Max)
  else if j = 9 then some (.num st.l3Min)
  else if j = 10 then some (.num st.l3Avg)
  else if j = 11 then some (.num st.l3Max)
  else if j = 12 then some (.num (min (min st.l1Min st.l2Min) st.l3Min))
  else if j = 13 then some (.num ((st.l1Avg + st.l2Avg + st.l3Avg) / 3))
  else if j = 14 then some (.num (max (max st.l1Max st.l2Max) st.l3Max))
  else none

/-- The slice of the device matrix for a line index and a stat-kind index. -/
def slotOf (l s : Fin 3) (pd : PDUData) : List ℚ :=
  match l, s with
  | 0, 0 => pd.L1Min
  | 0, 1 => pd.L1Avg
  | 0, 2 => pd.L1Max
  | 1, 0 => pd.L2Min
  | 1, 1 => pd.L2Avg
  | 1, 2 => pd.L2Max
  | 2, 0 => pd.L3Min
  | 2, 1 => pd.L3Avg
  | 2, 2 => pd.L3Max

/-- A filler for the examples: the device `A1` with 18 values per statistic, and a grid
with the marker of `A1` in row 0 followed by 18 short rows. -/
def exampleFiller : MonthlyFiller :=
  { pduData := { PDUName := "A1",
                 L1Min := List.replicate 18 10, L1Avg := List.replicate 18 11,
                 L1Max := List.replicate 18 12, L2Min := List.replicate 18 5,
                 L2Avg := List.replicate 18 6, L2Max := List.replicate 18 7,
                 L3Min := List.replicate 18 20, L3Avg := List.replicate 18 21,
                 L3Max := List.replicate 18 22 },
    monthlyData := [Cell.text "PDU A1"] :: List.replicate 18 [Cell.text "Q"],
    pduSections := [{ Name := "A1", HeaderRow := 0, StartRow := 1, EndRow := 18 }] }

/-- The example filler with a grid that ends after three data rows. -/
def shortFiller : MonthlyFiller :=
  { exampleFiller with
    monthlyData := [Cell.text "PDU A1"] :: List.replicate 3 [Cell.text "Q"] }

/-- A grid with two markers 19 rows apart: rows 0 and 19. -/
def twoSectionGrid : List (List Cell) :=
  [Cell.text "PDU A1"] :: List.replicate 18 [Cell.empty] ++ [[Cell.text "PDU A2"]]

/-- A file system with one workbook, `monthlyjune2025.xlsx`, whose first sheet has the
given rows, and no other file. -/
def templateFS (rows : List (List String)) : FileSystem where
  statOk := fun _ => false
  excel := fun name =>
    if name = "monthlyjune2025.xlsx" then .ok [.ok rows] else .error "no such file"
  csv := fun _ => .error "no such file"

end Report

/-! # Properties -/

namespace PduProcessor

/-! ## Maps -/

theorem mapGet_mapSet {α : Type} (m : List (String × α)) (k k' : String) (v : α) :
    mapGet (mapSet m k v) k' = if k = k' then some v else mapGet m k' := by
  induction m with
  | nil => simp [mapSet, mapGet]
  | cons e rest ih =>
    obtain ⟨k0, v0⟩ := e
    by_cases h0 : k0 = k
    · subst h0
      by_cases h1 : k0 = k' <;> simp [mapSet, mapGet, h1]
    · by_cases h1 : k0 = k'
      · subst h1
        have h2 : ¬ k = k0 := fun h => h0 h.symm
        simp [mapSet, mapGet, h0, h2]
      · simp [mapSet, mapGet, h0, h1, ih]

theorem mem_mapKeys_mapSet {α : Type} (m : List (String × α)) (k k' : String) (v : α) :
    k' ∈ mapKeys (mapSet m k v) ↔ k' = k ∨ k' ∈ mapKeys m := by
  induction m with
  | nil => simp [mapSet, mapKeys]
  | cons e rest ih =>
    obtain ⟨k0, v0⟩ := e
    by_cases h0 : k0 = k
    · subst h0
      simp [mapSet, mapKeys]
    · have ih' : k' ∈ List.map Prod.fst (mapSet rest k v) ↔
          k' = k ∨ k' ∈ List.map Prod.fst rest := ih
      simp only [mapSet, h0, if_false, mapKeys, List.map_cons, List.mem_cons, ih']
      tauto

theorem nodup_mapKeys_mapSet {α : Type} (m : List (String × α)) (k : String) (v : α)
    (h : (mapKeys m).Nodup) : (mapKeys (mapSet m k v)).Nodup := by
  induction m with
  | nil => simp [mapSet, mapKeys]
  | cons e rest ih =>
    obtain ⟨k0, v0⟩ := e
    have h' : k0 ∉ mapKeys rest ∧ (mapKeys rest).Nodup := by
      simpa [mapKeys] using h
    by_cases h0 : k0 = k
    · subst h0
      simpa [mapSet, mapKeys] using h
    · have hk : k0 ∉ mapKeys (mapSet rest k v) := by
        rw [mem_mapKeys_mapSet]
        rintro (h1 | h1)
        · exact h0 h1
        · exact h'.1 h1
      have hn := ih h'.2
      simp only [mapSet, h0, if_false]
      exact List.nodup_cons.mpr ⟨hk, hn⟩

theorem mapGet_eq_none_iff {α : Type} (m : List (String × α)) (k : String) :
    mapGet m k = none ↔ k ∉ mapKeys m := by
  induction m with
  | nil => simp [mapGet, mapKeys]
  | cons e rest ih =>
    obtain ⟨k0, v0⟩ := e
    have ih' : mapGet rest k = none ↔ k ∉ List.map Prod.fst rest := ih
    by_cases h0 : k0 = k
    · subst h0
      simp [mapGet, mapKeys]
    · have h1 : ¬ k = k0 := fun h => h0 h.symm
      simp [mapGet, mapKeys, h0, h1, ih']

theorem mapGet_eq_some_iff {α : Type} (m : List (String × α)) (k : String) (v : α)
    (h : (mapKeys m).Nodup) : mapGet m k = some v ↔ (k, v) ∈ m := by
  induction m with
  | nil => simp [mapGet]
  | cons e rest ih =>
    obtain ⟨k0, v0⟩ := e
    have h' : k0 ∉ mapKeys rest ∧ (mapKeys rest).Nodup := by
      simpa [mapKeys] using h
    by_cases h0 : k0 = k
    · subst h0
      have hnot : ∀ w, (k0, w) ∉ rest := by
        intro w hw
        exact h'.1 (List.mem_map.mpr ⟨(k0, w), hw, rfl⟩)
      simp only [mapGet, if_true, Option.some.injEq, List.mem_cons, Prod.mk.injEq, true_and,
        hnot, or_false]
      exact eq_comm
    · have h1 : ¬ k = k0 := fun h => h0 h.symm
      simp [mapGet, h0, h1, ih h'.2]

theorem mapGet_perm {α : Type} (m m' : List (String × α)) (k : String)
    (hp : m'.Perm m) (h : (mapKeys m).Nodup) : mapGet m' k = mapGet m k := by
  have h' : (mapKeys m').Nodup := (List.Perm.nodup_iff (hp.map Prod.fst)).mpr h
  cases hg : mapGet m k with
  | none =>
    rw [mapGet_eq_none_iff] at hg ⊢
    intro hk
    exact hg ((hp.map Prod.fst).mem_iff.mp hk)
  | some v =>
    rw [mapGet_eq_some_iff _ _ _ h] at hg
    rw [mapGet_eq_some_iff _ _ _ h']
    exact hp.mem_iff.mpr hg

/-! ## The statistics reducer -/

theorem scan_invariant (l : List ℚ) (mn mx s : ℚ) :
    ((l.foldl scanStep (mn, mx, s)).1 ≤ mn ∧
      (∀ x ∈ l, (l.foldl scanStep (mn, mx, s)).1 ≤ x) ∧
      ((l.foldl scanStep (mn, mx, s)).1 = mn ∨ (l.foldl scanStep (mn, mx, s)).1 ∈ l)) ∧
    (mx ≤ (l.foldl scanStep (mn, mx, s)).2.1 ∧
      (∀ x ∈ l, x ≤ (l.foldl scanStep (mn, mx, s)).2.1) ∧
      ((l.foldl scanStep (mn, mx, s)).2.1 = mx ∨ (l.foldl scanStep (mn, mx, s)).2.1 ∈ l)) ∧
    (l.foldl scanStep (mn, mx, s)).2.2 = s + l.sum := by
  induction l generalizing mn mx s with
  | nil => simp
  | cons a t ih =>
    simp only [List.foldl_cons, scanStep]
    obtain ⟨⟨h1, h2, h3⟩, ⟨h4, h5, h6⟩, h7⟩ :=
      ih (if a < mn then a else mn) (if a > mx then a else mx) (s + a)
    refine ⟨⟨?_, ?_, ?_⟩, ⟨?_, ?_, ?_⟩, ?_⟩
    · refine le_trans h1 ?_
      split_ifs with h
      · exact le_of_lt h
      · exact le_refl _
    · intro x hx
      rcases List.mem_cons.mp hx with rfl | hx
      · refine le_trans h1 ?_
        split_ifs with h
        · exact le_refl _
        · exact not_lt.mp h
      · exact h2 x hx
    · rcases h3 with h3 | h3
      · rw [h3]
        split_ifs with h
        · right; exact List.mem_cons_self _ _
        · left; rfl
      · right; exact List.mem_cons_of_mem _ h3
    · refine le_trans ?_ h4
      split_ifs with h
      · exact le_of_lt h
      · exact le_refl _
    · intro x hx
      rcases List.mem_cons.mp hx with rfl | hx
      · refine le_trans ?_ h4
        split_ifs with h
        · exact le_refl _
        · exact not_lt.mp h
      · exact h5 x hx
    · rcases h6 with h6 | h6
      · rw [h6]
        split_ifs with h
        · right; exact List.mem_cons_self _ _
        · left; rfl
      · right; exact List.mem_cons_of_mem _ h6
    · rw [h7, List.sum_cons, add_assoc]

theorem length_mul_le_sum (l : List ℚ) (m : ℚ) (h : ∀ x ∈ l, m ≤ x) :
    (l.length : ℚ) * m ≤ l.sum := by
  induction l with
  | nil => simp
  | cons a t ih =>
    have ha := h a (List.mem_cons_self _ _)
    have ht := ih (fun x hx => h x (List.mem_cons_of_mem _ hx))
    simp only [List.length_cons, List.sum_cons, Nat.cast_succ]
    linarith

theorem sum_le_length_mul (l : List ℚ) (m : ℚ) (h : ∀ x ∈ l, x ≤ m) :
    l.sum ≤ (l.length : ℚ) * m := by
  induction l with
  | nil => simp
  | cons a t ih =>
    have ha := h a (List.mem_cons_self _ _)
    have ht := ih (fun x hx => h x (List.mem_cons_of_mem _ hx))
    simp only [List.length_cons, List.sum_cons, Nat.cast_succ]
    linarith

/-- What `CalculateStatistics` returns on a non-empty series. -/
theorem calculateStatistics_spec (values : List ℚ) (hne : values ≠ []) :
    ((CalculateStatistics values).Min ∈ values ∧
      ∀ x ∈ values, (CalculateStatistics values).Min ≤ x) ∧
    ((CalculateStatistics values).Max ∈ values ∧
      ∀ x ∈ values, x ≤ (CalculateStatistics values).Max) ∧
    (CalculateStatistics values).Avg = values.sum / (values.length : ℚ) := by
  cases values with
  | nil => exact absurd rfl hne
  | cons v vs =>
    obtain ⟨⟨_, h2, h3⟩, ⟨_, h5, h6⟩, h7⟩ := scan_invariant (v :: vs) v v 0
    simp only [CalculateStatistics]
    refine ⟨⟨?_, h2⟩, ⟨?_, h5⟩, ?_⟩
    · rcases h3 with h3 | h3
      · rw [h3]; exact List.mem_cons_self _ _
      · exact h3
    · rcases h6 with h6 | h6
      · rw [h6]; exact List.mem_cons_self _ _
      · exact h6
    · rw [h7, zero_add]

/-- C2: for every non-empty sample series, `Min` is the least element of the series
and `Max` the greatest (each is a member of the series and bounds every element), and
`Avg` is the sum of the elements divided by their count. -/
theorem calculateStatistics_least_greatest_mean (values : List ℚ) (hne : values ≠ []) :
    ((CalculateStatistics values).Min ∈ values ∧
      ∀ x ∈ values, (CalculateStatistics values).Min ≤ x) ∧
    ((CalculateStatistics values).Max ∈ values ∧
      ∀ x ∈ values, x ≤ (CalculateStatistics values).Max) ∧
    (CalculateStatistics values).Avg = values.sum / (values.length : ℚ) :=
  calculateStatistics_spec values hne

/-- Witness of C2 at the series 3, 1, 2. -/
theorem calculateStatistics_least_greatest_mean_witness :
    ([3, 1, 2] : List ℚ) ≠ [] ∧
    ((CalculateStatistics [3, 1, 2]).Min ∈ ([3, 1, 2] : List ℚ) ∧
      ∀ x ∈ ([3, 1, 2] : List ℚ), (CalculateStatistics [3, 1, 2]).Min ≤ x) ∧
    ((CalculateStatistics [3, 1, 2]).Max ∈ ([3, 1, 2] : List ℚ) ∧
      ∀ x ∈ ([3, 1, 2] : List ℚ), x ≤ (CalculateStatistics [3, 1, 2]).Max) ∧
    (CalculateStatistics [3, 1, 2]).Avg =
      ([3, 1, 2] : List ℚ).sum / (([3, 1, 2] : List ℚ).length : ℚ) :=
  ⟨by simp, calculateStatistics_least_greatest_mean [3, 1, 2] (by simp)⟩

/-- C3: `CalculateStatistics` applied to the empty series returns `Min = 0`, `Max = 0`
and `Avg = 0`; being a total function, it does not fail. -/
theorem calculateStatistics_empty :
    CalculateStatistics [] = { Min := 0, Max := 0, Avg := 0 } := rfl

end PduProcessor

namespace PduProcessor

/-! ## float64: order and rounding -/

theorem zpow_two_split (e1 e : ℤ) (h : e ≤ e1) :
    (2 : ℚ) ^ e1 = ((2 ^ (e1 - e).toNat : ℕ) : ℚ) * (2 : ℚ) ^ e := by
  have h1 : ((e1 - e).toNat : ℤ) = e1 - e := Int.toNat_of_nonneg (by omega)
  have h2 : e1 = ((e1 - e).toNat : ℤ) + e := by omega
  conv_lhs => rw [h2]
  rw [zpow_add₀ (by norm_num : (2 : ℚ) ≠ 0), zpow_natCast]
  push_cast
  rfl

theorem magLt_iff (m1 : ℕ) (e1 : ℤ) (m2 : ℕ) (e2 : ℤ) :
    magLt m1 e1 m2 e2 = true ↔ (m1 : ℚ) * (2 : ℚ) ^ e1 < (m2 : ℚ) * (2 : ℚ) ^ e2 := by
  unfold magLt
  rw [decide_eq_true_iff]
  have hpos : (0 : ℚ) < (2 : ℚ) ^ (min e1 e2) := zpow_pos (by norm_num) _
  rw [zpow_two_split e1 (min e1 e2) (min_le_left _ _),
    zpow_two_split e2 (min e1 e2) (min_le_right _ _), ← mul_assoc, ← mul_assoc,
    mul_lt_mul_right hpos]
  constructor
  · intro h; exact_mod_cast h
  · intro h; exact_mod_cast h

theorem mag_nonneg (m : ℕ) (e : ℤ) : (0 : ℚ) ≤ (m : ℚ) * (2 : ℚ) ^ e :=
  mul_nonneg (Nat.cast_nonneg m) (le_of_lt (zpow_pos (by norm_num) _))

theorem mag_pos_iff (m : ℕ) (e : ℤ) : (0 : ℚ) < (m : ℚ) * (2 : ℚ) ^ e ↔ m ≠ 0 := by
  have hp : (0 : ℚ) < (2 : ℚ) ^ e := zpow_pos (by norm_num) _
  constructor
  · intro h hm
    rw [hm] at h
    simp at h
  · intro h
    exact mul_pos (by exact_mod_cast Nat.pos_of_ne_zero h) hp

/-- On finite values `F64.lt` is the order of the rational values. -/
theorem F64.lt_fin_iff (s1 : Bool) (m1 : ℕ) (e1 : ℤ) (s2 : Bool) (m2 : ℕ) (e2 : ℤ) :
    F64.lt (.fin s1 m1 e1) (.fin s2 m2 e2) = true ↔
      (F64.fin s1 m1 e1).toRat < (F64.fin s2 m2 e2).toRat := by
  have n1 := mag_nonneg m1 e1
  have n2 := mag_nonneg m2 e2
  cases s1 <;> cases s2 <;> simp only [F64.lt, F64.toRat, Bool.false_eq_true, if_false, if_true,
    one_mul, neg_mul]
  · exact magLt_iff _ _ _ _
  · constructor
    · intro h; exact absurd h (by simp)
    · intro h; linarith
  · rw [decide_eq_true_iff]
    constructor
    · rintro (h | h)
      · have := (mag_pos_iff m1 e1).mpr h; linarith
      · have := (mag_pos_iff m2 e2).mpr h; linarith
    · intro h
      by_contra hc
      push_neg at hc
      rw [hc.1, hc.2] at h
      simp at h
  · rw [magLt_iff]
    constructor <;> intro h <;> linarith

theorem F64.le_fin_iff (s1 : Bool) (m1 : ℕ) (e1 : ℤ) (s2 : Bool) (m2 : ℕ) (e2 : ℤ) :
    F64.le (.fin s1 m1 e1) (.fin s2 m2 e2) = true ↔
      (F64.fin s1 m1 e1).toRat ≤ (F64.fin s2 m2 e2).toRat := by
  have h := F64.lt_fin_iff s2 m2 e2 s1 m1 e1
  rw [← not_lt, ← h]
  show (!(F64.lt (.fin s2 m2 e2) (.fin s1 m1 e1))) = true ↔ _
  cases F64.lt (.fin s2 m2 e2) (.fin s1 m1 e1) <;> simp

theorem log2Fuel_eq (fuel n : ℕ) (h : n ≤ fuel) : log2Fuel fuel n = Nat.log 2 n := by
  induction fuel generalizing n with
  | zero =>
    have : n = 0 := by omega
    subst this
    simp [log2Fuel]
  | succ k ih =>
    simp only [log2Fuel]
    split_ifs with h2
    · exact (Nat.log_of_lt h2).symm
    · rw [Nat.log_of_one_lt_of_le (by norm_num) (by omega), ih (n / 2) (by omega)]
      omega

theorem floorLog2_spec (n : ℕ) (hn : 0 < n) :
    2 ^ floorLog2 n ≤ n ∧ n < 2 ^ (floorLog2 n + 1) := by
  unfold floorLog2
  rw [log2Fuel_eq n n (le_refl _)]
  exact ⟨Nat.pow_log_le_self 2 (by omega), Nat.lt_pow_succ_log_self (by norm_num) n⟩

theorem roundQuot_spec (num den : ℕ) (hden : 0 < den) :
    (∀ k : ℕ, k * den ≤ num → k ≤ roundQuot num den) ∧
    (∀ k : ℕ, num ≤ k * den → roundQuot num den ≤ k) := by
  have hdm : den * (num / den) + num % den = num := Nat.div_add_mod num den
  have hr : num % den < den := Nat.mod_lt _ hden
  have hq : ∀ k : ℕ, k * den ≤ num → k ≤ num / den := fun k hk =>
    (Nat.le_div_iff_mul_le hden).mpr hk
  have hq2 : ∀ k : ℕ, num ≤ k * den → num / den ≤ k := by
    intro k hk
    by_contra hc
    push_neg at hc
    have h1 : (k + 1) * den ≤ (num / den) * den := Nat.mul_le_mul_right _ hc
    generalize num / den = Q at hdm h1
    generalize num % den = R at hdm
    have h2 : (k + 1) * den = k * den + den := by ring
    have h3 : den * Q = Q * den := Nat.mul_comm _ _
    omega
  have hq3 : ∀ k : ℕ, num ≤ k * den → 0 < num % den → num / den + 1 ≤ k := by
    intro k hk h0
    by_contra hc
    push_neg at hc
    have h1 : k * den ≤ (num / den) * den := Nat.mul_le_mul_right _ (by omega)
    generalize num / den = Q at hdm h1
    generalize num % den = R at hdm h0
    have h3 : den * Q = Q * den := Nat.mul_comm _ _
    omega
  unfold roundQuot
  simp only []
  constructor
  · intro k hk
    have := hq k hk
    split_ifs <;> omega
  · intro k hk
    have h2 := hq2 k hk
    split_ifs with h1 h3 h4
    · exact hq3 k hk (by omega)
    · exact h2
    · exact h2
    · exact hq3 k hk (by omega)

theorem quotLog2_spec (n d : ℕ) (hn : 0 < n) (hd : 0 < d) :
    (2 : ℚ) ^ (quotLog2 n d) ≤ (n : ℚ) / d ∧ (n : ℚ) / d < (2 : ℚ) ^ (quotLog2 n d + 1) := by
  obtain ⟨hn1, hn2⟩ := floorLog2_spec n hn
  obtain ⟨hd1, hd2⟩ := floorLog2_spec d hd
  have hdq : (0 : ℚ) < d := by exact_mod_cast hd
  have two : (2 : ℚ) ≠ 0 := by norm_num
  have qn1 : (2 : ℚ) ^ (floorLog2 n : ℤ) ≤ n := by
    rw [zpow_natCast]; exact_mod_cast hn1
  have qn2 : (n : ℚ) < (2 : ℚ) ^ ((floorLog2 n : ℤ) + 1) := by
    rw [zpow_add_one₀ two, zpow_natCast]
    have : n < 2 ^ floorLog2 n * 2 := by rw [← pow_succ]; exact hn2
    exact_mod_cast this
  have qd1 : (2 : ℚ) ^ (floorLog2 d : ℤ) ≤ d := by
    rw [zpow_natCast]; exact_mod_cast hd1
  have qd2 : (d : ℚ) < (2 : ℚ) ^ ((floorLog2 d : ℤ) + 1) := by
    rw [zpow_add_one₀ two, zpow_natCast]
    have : d < 2 ^ floorLog2 d * 2 := by rw [← pow_succ]; exact hd2
    exact_mod_cast this
  have pd : (0 : ℚ) < (2 : ℚ) ^ (floorLog2 d : ℤ) := zpow_pos (by norm_num) _
  -- the bracket of the quotient between `2^(l-1)` and `2^(l+1)`
  have hlo : (2 : ℚ) ^ ((floorLog2 n : ℤ) - (floorLog2 d : ℤ) - 1) ≤ (n : ℚ) / d := by
    rw [le_div_iff₀ hdq]
    have e1 : (2 : ℚ) ^ ((floorLog2 n : ℤ) - (floorLog2 d : ℤ) - 1) *
        (2 : ℚ) ^ ((floorLog2 d : ℤ) + 1) = (2 : ℚ) ^ (floorLog2 n : ℤ) := by
      rw [← zpow_add₀ two]; congr 1; ring
    have pp : (0 : ℚ) < (2 : ℚ) ^ ((floorLog2 n : ℤ) - (floorLog2 d : ℤ) - 1) :=
      zpow_pos (by norm_num) _
    calc (2 : ℚ) ^ ((floorLog2 n : ℤ) - (floorLog2 d : ℤ) - 1) * d
        ≤ (2 : ℚ) ^ ((floorLog2 n : ℤ) - (floorLog2 d : ℤ) - 1) *
          (2 : ℚ) ^ ((floorLog2 d : ℤ) + 1) := by
          exact mul_le_mul_of_nonneg_left (le_of_lt qd2) (le_of_lt pp)
      _ = (2 : ℚ) ^ (floorLog2 n : ℤ) := e1
      _ ≤ n := qn1
  have hhi : (n : ℚ) / d < (2 : ℚ) ^ ((floorLog2 n : ℤ) - (floorLog2 d : ℤ) + 1) := by
    rw [div_lt_iff₀ hdq]
    have e1 : (2 : ℚ) ^ ((floorLog2 n : ℤ) - (floorLog2 d : ℤ) + 1) *
        (2 : ℚ) ^ (floorLog2 d : ℤ) = (2 : ℚ) ^ ((floorLog2 n : ℤ) + 1) := by
      rw [← zpow_add₀ two]; congr 1; ring
    have pp : (0 : ℚ) < (2 : ℚ) ^ ((floorLog2 n : ℤ) - (floorLog2 d : ℤ) + 1) :=
      zpow_pos (by norm_num) _
    calc (n : ℚ) < (2 : ℚ) ^ ((floorLog2 n : ℤ) + 1) := qn2
      _ = (2 : ℚ) ^ ((floorLog2 n : ℤ) - (floorLog2 d : ℤ) + 1) *
          (2 : ℚ) ^ (floorLog2 d : ℤ) := e1.symm
      _ ≤ (2 : ℚ) ^ ((floorLog2 n : ℤ) - (floorLog2 d : ℤ) + 1) * d :=
          mul_le_mul_of_nonneg_left qd1 (le_of_lt pp)
  -- the test `atLeast` decides `2^l ≤ n / d`
  have hat : ((if 0 ≤ (floorLog2 n : ℤ) - (floorLog2 d : ℤ)
        then decide (d * 2 ^ ((floorLog2 n : ℤ) - (floorLog2 d : ℤ)).toNat ≤ n)
        else decide (d ≤ n * 2 ^ (-((floorLog2 n : ℤ) - (floorLog2 d : ℤ))).toNat)) = true) ↔
      (2 : ℚ) ^ ((floorLog2 n : ℤ) - (floorLog2 d : ℤ)) ≤ (n : ℚ) / d := by
    rw [le_div_iff₀ hdq]
    split_ifs with h0
    · rw [decide_eq_true_iff]
      have hc : (((floorLog2 n : ℤ) - (floorLog2 d : ℤ)).toNat : ℤ) =
          (floorLog2 n : ℤ) - (floorLog2 d : ℤ) := Int.toNat_of_nonneg h0
      rw [← hc, zpow_natCast]
      constructor
      · intro h
        have : ((d * 2 ^ ((floorLog2 n : ℤ) - (floorLog2 d : ℤ)).toNat : ℕ) : ℚ) ≤ n := by
          exact_mod_cast h
        push_cast at this
        linarith
      · intro h
        have : ((d * 2 ^ ((floorLog2 n : ℤ) - (floorLog2 d : ℤ)).toNat : ℕ) : ℚ) ≤ n := by
          push_cast
          linarith
        exact_mod_cast this
    · rw [decide_eq_true_iff]
      have hc : ((-((floorLog2 n : ℤ) - (floorLog2 d : ℤ))).toNat : ℤ) =
          -((floorLog2 n : ℤ) - (floorLog2 d : ℤ)) := Int.toNat_of_nonneg (by omega)
      have hz : (2 : ℚ) ^ ((floorLog2 n : ℤ) - (floorLog2 d : ℤ)) *
          (2 : ℚ) ^ (-((floorLog2 n : ℤ) - (floorLog2 d : ℤ))).toNat = 1 := by
        rw [← zpow_natCast, hc, ← zpow_add₀ two]
        simp
      have pp : (0 : ℚ) < (2 : ℚ) ^ (-((floorLog2 n : ℤ) - (floorLog2 d : ℤ))).toNat :=
        pow_pos (by norm_num) _
      constructor
      · intro h
        have h' : (d : ℚ) ≤ n * (2 : ℚ) ^ (-((floorLog2 n : ℤ) - (floorLog2 d : ℤ))).toNat := by
          exact_mod_cast h
        rw [← mul_le_mul_right pp]
        calc (2 : ℚ) ^ ((floorLog2 n : ℤ) - (floorLog2 d : ℤ)) * d *
              (2 : ℚ) ^ (-((floorLog2 n : ℤ) - (floorLog2 d : ℤ))).toNat
            = d * ((2 : ℚ) ^ ((floorLog2 n : ℤ) - (floorLog2 d : ℤ)) *
              (2 : ℚ) ^ (-((floorLog2 n : ℤ) - (floorLog2 d : ℤ))).toNat) := by ring
          _ = d := by rw [hz, mul_one]
          _ ≤ _ := h'
      · intro h
        have h' : (d : ℚ) ≤ n * (2 : ℚ) ^ (-((floorLog2 n : ℤ) - (floorLog2 d : ℤ))).toNat := by
          calc (d : ℚ) = d * ((2 : ℚ) ^ ((floorLog2 n : ℤ) - (floorLog2 d : ℤ)) *
              (2 : ℚ) ^ (-((floorLog2 n : ℤ) - (floorLog2 d : ℤ))).toNat) := by
                rw [hz, mul_one]
            _ = (2 : ℚ) ^ ((floorLog2 n : ℤ) - (floorLog2 d : ℤ)) * d *
              (2 : ℚ) ^ (-((floorLog2 n : ℤ) - (floorLog2 d : ℤ))).toNat := by ring
            _ ≤ _ := mul_le_mul_of_nonneg_right h (le_of_lt pp)
        exact_mod_cast h'
  unfold quotLog2
  simp only []
  by_cases hb : (2 : ℚ) ^ ((floorLog2 n : ℤ) - (floorLog2 d : ℤ)) ≤ (n : ℚ) / d
  · rw [if_pos (hat.mpr hb)]
    exact ⟨hb, hhi⟩
  · rw [if_neg (fun h => hb (hat.mp h))]
    refine ⟨hlo, ?_⟩
    rw [sub_add_cancel]
    exact not_le.mp hb

theorem two_zpow_mono (a b : ℤ) (h : a ≤ b) : (2 : ℚ) ^ a ≤ (2 : ℚ) ^ b :=
  zpow_le_zpow_right₀ (by norm_num) h

theorem mag_split (mx : ℕ) (ex e : ℤ) (h : e ≤ ex) :
    (mx : ℚ) * (2 : ℚ) ^ ex = ((mx * 2 ^ (ex - e).toNat : ℕ) : ℚ) * (2 : ℚ) ^ e := by
  rw [zpow_two_split ex e h]
  push_cast
  ring

/-- What `roundNearestEven` returns: an integer `m` next to `(n / d) / 2^e` at the
exponent `e` of the quotient, carried to the next exponent when it reaches `2^53`. -/
theorem roundNearestEven_spec (neg : Bool) (n d : ℕ) (hn : 0 < n) (hd : 0 < d) :
    ∃ (m : ℕ) (e : ℤ), -1074 ≤ e ∧
      (∀ k : ℕ, (k : ℚ) * (2 : ℚ) ^ e ≤ (n : ℚ) / d → k ≤ m) ∧
      (∀ k : ℕ, (n : ℚ) / d ≤ (k : ℚ) * (2 : ℚ) ^ e → m ≤ k) ∧
      (-1074 < e → (2 : ℚ) ^ (e + 52) ≤ (n : ℚ) / d) ∧
      (n : ℚ) / d < (2 : ℚ) ^ (e + 53) ∧
      roundNearestEven neg n d =
        (if 971 < (if m = 2 ^ 53 then e + 1 else e) then F64.inf neg
         else F64.fin neg (if m = 2 ^ 53 then 2 ^ 52 else m) (if m = 2 ^ 53 then e + 1 else e)) := by
  obtain ⟨hl1, hl2⟩ := quotLog2_spec n d hn hd
  have hdq : (0 : ℚ) < d := by exact_mod_cast hd
  have two : (2 : ℚ) ≠ 0 := by norm_num
  refine ⟨if 0 ≤ max (quotLog2 n d - 52) (-1074)
      then roundQuot n (d * 2 ^ (max (quotLog2 n d - 52) (-1074)).toNat)
      else roundQuot (n * 2 ^ (-(max (quotLog2 n d - 52) (-1074))).toNat) d,
    max (quotLog2 n d - 52) (-1074), le_max_right _ _, ?_, ?_, ?_, ?_, rfl⟩
  · intro k hk
    rw [le_div_iff₀ hdq] at hk
    split_ifs with h0
    · have hc : (((max (quotLog2 n d - 52) (-1074)).toNat : ℕ) : ℤ) =
          max (quotLog2 n d - 52) (-1074) := Int.toNat_of_nonneg h0
      rw [← hc, zpow_natCast] at hk
      refine (roundQuot_spec n _ (Nat.mul_pos hd (Nat.pow_pos (by norm_num)))).1 k ?_
      have : ((k * (d * 2 ^ (max (quotLog2 n d - 52) (-1074)).toNat) : ℕ) : ℚ) ≤ n := by
        push_cast
        linarith
      exact_mod_cast this
    · have hc : (((-(max (quotLog2 n d - 52) (-1074))).toNat : ℕ) : ℤ) =
          -(max (quotLog2 n d - 52) (-1074)) := Int.toNat_of_nonneg (by omega)
      have hz : (2 : ℚ) ^ (max (quotLog2 n d - 52) (-1074)) *
          (2 : ℚ) ^ (-(max (quotLog2 n d - 52) (-1074))).toNat = 1 := by
        rw [← zpow_natCast, hc, ← zpow_add₀ two]
        simp
      have pp : (0 : ℚ) < (2 : ℚ) ^ (-(max (quotLog2 n d - 52) (-1074))).toNat :=
        pow_pos (by norm_num) _
      refine (roundQuot_spec _ d hd).1 k ?_
      have : ((k * d : ℕ) : ℚ) ≤
          ((n * 2 ^ (-(max (quotLog2 n d - 52) (-1074))).toNat : ℕ) : ℚ) := by
        push_cast
        calc (k : ℚ) * d = (k * (2 : ℚ) ^ (max (quotLog2 n d - 52) (-1074)) * d) *
              (2 : ℚ) ^ (-(max (quotLog2 n d - 52) (-1074))).toNat := by
                rw [mul_assoc (k : ℚ), mul_comm ((2 : ℚ) ^ (max (quotLog2 n d - 52) (-1074))),
                  mul_assoc, mul_assoc, hz, mul_one]
          _ ≤ n * (2 : ℚ) ^ (-(max (quotLog2 n d - 52) (-1074))).toNat :=
                mul_le_mul_of_nonneg_right hk (le_of_lt pp)
      exact_mod_cast this
  · intro k hk
    rw [div_le_iff₀ hdq] at hk
    split_ifs with h0
    · have hc : (((max (quotLog2 n d - 52) (-1074)).toNat : ℕ) : ℤ) =
          max (quotLog2 n d - 52) (-1074) := Int.toNat_of_nonneg h0
      rw [← hc, zpow_natCast] at hk
      refine (roundQuot_spec n _ (Nat.mul_pos hd (Nat.pow_pos (by norm_num)))).2 k ?_
      have : (n : ℚ) ≤ ((k * (d * 2 ^ (max (quotLog2 n d - 52) (-1074)).toNat) : ℕ) : ℚ) := by
        push_cast
        linarith
      exact_mod_cast this
    · have hc : (((-(max (quotLog2 n d - 52) (-1074))).toNat : ℕ) : ℤ) =
          -(max (quotLog2 n d - 52) (-1074)) := Int.toNat_of_nonneg (by omega)
      have hz : (2 : ℚ) ^ (max (quotLog2 n d - 52) (-1074)) *
          (2 : ℚ) ^ (-(max (quotLog2 n d - 52) (-1074))).toNat = 1 := by
        rw [← zpow_natCast, hc, ← zpow_add₀ two]
        simp
      have pp : (0 : ℚ) < (2 : ℚ) ^ (-(max (quotLog2 n d - 52) (-1074))).toNat :=
        pow_pos (by norm_num) _
      refine (roundQuot_spec _ d hd).2 k ?_
      have : ((n * 2 ^ (-(max (quotLog2 n d - 52) (-1074))).toNat : ℕ) : ℚ) ≤
          ((k * d : ℕ) : ℚ) := by
        push_cast
        calc (n : ℚ) * (2 : ℚ) ^ (-(max (quotLog2 n d - 52) (-1074))).toNat
            ≤ (k * (2 : ℚ) ^ (max (quotLog2 n d - 52) (-1074)) * d) *
              (2 : ℚ) ^ (-(max (quotLog2 n d - 52) (-1074))).toNat :=
                mul_le_mul_of_nonneg_right hk (le_of_lt pp)
          _ = (k : ℚ) * d := by
                rw [mul_assoc (k : ℚ), mul_comm ((2 : ℚ) ^ (max (quotLog2 n d - 52) (-1074))),
                  mul_assoc, mul_assoc, hz, mul_one]
      exact_mod_cast this
  · intro he
    have : max (quotLog2 n d - 52) (-1074) = quotLog2 n d - 52 := by omega
    rw [this, sub_add_cancel]
    exact hl1
  · refine lt_of_lt_of_le hl2 (two_zpow_mono _ _ ?_)
    have := le_max_left (quotLog2 n d - 52) (-1074)
    omega

/-- Rounding is monotone against a finite float64 `mx * 2^ex`: a float64 below the
exact quotient is below the rounded one, and one above it is above the rounded one. -/
theorem roundNearestEven_bounds (neg : Bool) (n d : ℕ) (hn : 0 < n) (hd : 0 < d)
    (mx : ℕ) (ex : ℤ) (hmx : mx < 2 ^ 53) (hex1 : -1074 ≤ ex) (hex2 : ex ≤ 971) :
    ((mx : ℚ) * (2 : ℚ) ^ ex ≤ (n : ℚ) / d →
      roundNearestEven neg n d = F64.inf neg ∨
      ∃ (m2 : ℕ) (e2 : ℤ), roundNearestEven neg n d = F64.fin neg m2 e2 ∧
        (mx : ℚ) * (2 : ℚ) ^ ex ≤ (m2 : ℚ) * (2 : ℚ) ^ e2) ∧
    ((n : ℚ) / d ≤ (mx : ℚ) * (2 : ℚ) ^ ex →
      ∃ (m2 : ℕ) (e2 : ℤ), roundNearestEven neg n d = F64.fin neg m2 e2 ∧
        (m2 : ℚ) * (2 : ℚ) ^ e2 ≤ (mx : ℚ) * (2 : ℚ) ^ ex) := by
  obtain ⟨m, e, he, hfloor, hceil, hnorm, hupper, hres⟩ := roundNearestEven_spec neg n d hn hd
  have two : (2 : ℚ) ≠ 0 := by norm_num
  have pe : (0 : ℚ) < (2 : ℚ) ^ e := zpow_pos (by norm_num) _
  have pex : (0 : ℚ) < (2 : ℚ) ^ ex := zpow_pos (by norm_num) _
  have hmxq : (mx : ℚ) < 2 ^ 53 := by exact_mod_cast hmx
  -- the value of the result is `m * 2^e`
  have hval : ((if m = 2 ^ 53 then 2 ^ 52 else m : ℕ) : ℚ) *
      (2 : ℚ) ^ (if m = 2 ^ 53 then e + 1 else e) = (m : ℚ) * (2 : ℚ) ^ e := by
    split_ifs with h
    · rw [h, zpow_add_one₀ two]
      push_cast
      ring
    · rfl
  -- a float64 with a smaller exponent lies below `2^(e+52)`
  have hsmall : ex < e → (mx : ℚ) * (2 : ℚ) ^ ex < (2 : ℚ) ^ (e + 52) := by
    intro hlt
    have h1 : (2 : ℚ) ^ ex ≤ (2 : ℚ) ^ (e - 1) := two_zpow_mono _ _ (by omega)
    have h2 : (2 : ℚ) ^ (e + 52) = 2 ^ 53 * (2 : ℚ) ^ (e - 1) := by
      have : e + 52 = (53 : ℕ) + (e - 1) := by push_cast; ring
      rw [this, zpow_add₀ two, zpow_natCast]
    rw [h2]
    calc (mx : ℚ) * (2 : ℚ) ^ ex < 2 ^ 53 * (2 : ℚ) ^ ex := mul_lt_mul_of_pos_right hmxq pex
      _ ≤ 2 ^ 53 * (2 : ℚ) ^ (e - 1) := mul_le_mul_of_nonneg_left h1 (by positivity)
  have hbig : -1074 < e → (2 : ℚ) ^ (e + 52) ≤ (m : ℚ) * (2 : ℚ) ^ e := by
    intro h
    have h1 := hnorm h
    have h2 : (2 : ℚ) ^ (e + 52) = ((2 ^ 52 : ℕ) : ℚ) * (2 : ℚ) ^ e := by
      have : e + 52 = (52 : ℕ) + e := by push_cast; ring
      rw [this, zpow_add₀ two, zpow_natCast]
      push_cast
      rfl
    have h3 : 2 ^ 52 ≤ m := hfloor (2 ^ 52) (by rw [← h2]; exact h1)
    rw [h2]
    exact mul_le_mul_of_nonneg_right (by exact_mod_cast h3) (le_of_lt pe)
  constructor
  · intro hX
    by_cases hinf : 971 < (if m = 2 ^ 53 then e + 1 else e)
    · left
      rw [hres, if_pos hinf]
    · right
      refine ⟨_, _, by rw [hres, if_neg hinf], ?_⟩
      rw [hval]
      by_cases hlt : ex < e
      · exact le_trans (le_of_lt (hsmall hlt)) (hbig (by omega))
      · rw [mag_split mx ex e (by omega)] at hX ⊢
        have := hfloor _ hX
        exact mul_le_mul_of_nonneg_right (by exact_mod_cast this) (le_of_lt pe)
  · intro hX
    have hle : (m : ℚ) * (2 : ℚ) ^ e ≤ (mx : ℚ) * (2 : ℚ) ^ ex := by
      by_cases hlt : ex < e
      · have := hnorm (by omega)
        have := hsmall hlt
        linarith
      · rw [mag_split mx ex e (by omega)] at hX ⊢
        have := hceil _ hX
        exact mul_le_mul_of_nonneg_right (by exact_mod_cast this) (le_of_lt pe)
    have hfin : ¬ 971 < (if m = 2 ^ 53 then e + 1 else e) := by
      intro hinf
      have hXlt : (mx : ℚ) * (2 : ℚ) ^ ex < 2 ^ 53 * (2 : ℚ) ^ (971 : ℤ) :=
        calc (mx : ℚ) * (2 : ℚ) ^ ex < 2 ^ 53 * (2 : ℚ) ^ ex :=
              mul_lt_mul_of_pos_right hmxq pex
          _ ≤ 2 ^ 53 * (2 : ℚ) ^ (971 : ℤ) :=
              mul_le_mul_of_nonneg_left (two_zpow_mono _ _ hex2) (by positivity)
      have hge : 2 ^ 53 * (2 : ℚ) ^ (971 : ℤ) ≤ (m : ℚ) * (2 : ℚ) ^ e := by
        have h53 : (2 : ℚ) ^ 53 * (2 : ℚ) ^ (971 : ℤ) = (2 : ℚ) ^ (1024 : ℤ) := by
          rw [← zpow_natCast, ← zpow_add₀ two]
          norm_num
        rw [h53]
        by_cases hm : m = 2 ^ 53
        · rw [if_pos hm] at hinf
          have h1 : (2 : ℚ) ^ (1024 : ℤ) ≤ (2 : ℚ) ^ (e + 53) := two_zpow_mono _ _ (by omega)
          have h2 : (2 : ℚ) ^ (e + 53) = (m : ℚ) * (2 : ℚ) ^ e := by
            have : e + 53 = (53 : ℕ) + e := by push_cast; ring
            rw [this, zpow_add₀ two, zpow_natCast, hm]
            push_cast
            rfl
          rw [← h2]
          exact h1
        · rw [if_neg hm] at hinf
          have h1 : (2 : ℚ) ^ (1024 : ℤ) ≤ (2 : ℚ) ^ (e + 52) := two_zpow_mono _ _ (by omega)
          exact le_trans h1 (hbig (by omega))
      linarith
    exact ⟨_, _, by rw [hres, if_neg hfin], by rw [hval]; exact hle⟩

theorem F64.isFinite_iff (x : F64) :
    x.isFinite = true ↔
      ∃ (s : Bool) (m : ℕ) (e : ℤ), x = .fin s m e ∧ m < 2 ^ 53 ∧ -1074 ≤ e ∧ e ≤ 971 := by
  cases x with
  | nan => simp [F64.isFinite]
  | inf n => simp [F64.isFinite]
  | fin s m e =>
    simp only [F64.isFinite, decide_eq_true_iff]
    constructor
    · intro h
      exact ⟨s, m, e, rfl, h⟩
    · rintro ⟨_, _, _, h, hb⟩
      injection h with h1 h2 h3
      subst h2 h3
      exact hb

theorem roundNearestEven_shape (neg : Bool) (n d : ℕ) (hn : 0 < n) (hd : 0 < d) :
    roundNearestEven neg n d = F64.inf neg ∨
      ∃ (m : ℕ) (e : ℤ), roundNearestEven neg n d = F64.fin neg m e := by
  obtain ⟨m, e, _, _, _, _, _, hres⟩ := roundNearestEven_spec neg n d hn hd
  rw [hres]
  by_cases h : 971 < (if m = 2 ^ 53 then e + 1 else e)
  · left
    rw [if_pos h]
  · right
    rw [if_neg h]
    exact ⟨_, _, rfl⟩

/-- Rounding against a finite float64 of either sign. -/
theorem roundNearestEven_le (x : F64) (hx : x.isFinite = true) (neg : Bool) (n d : ℕ)
    (hn : 0 < n) (hd : 0 < d) :
    (x.toRat ≤ (if neg then -1 else 1) * ((n : ℚ) / d) →
      F64.le x (roundNearestEven neg n d) = true) ∧
    ((if neg then -1 else 1) * ((n : ℚ) / d) ≤ x.toRat →
      F64.le (roundNearestEven neg n d) x = true) := by
  obtain ⟨sx, mx, ex, rfl, hmx, hex1, hex2⟩ := (F64.isFinite_iff x).mp hx
  obtain ⟨hL, hU⟩ := roundNearestEven_bounds neg n d hn hd mx ex hmx hex1 hex2
  have hv : (0 : ℚ) < (n : ℚ) / d :=
    div_pos (by exact_mod_cast hn) (by exact_mod_cast hd)
  have nx := mag_nonneg mx ex
  cases neg <;> cases sx <;>
    simp only [F64.toRat, Bool.false_eq_true, if_false, if_true, one_mul, neg_mul] at *
  · constructor
    · intro h
      rcases hL h with hr | ⟨m2, e2, hr, hle⟩
      · rw [hr]; rfl
      · rw [hr, F64.le_fin_iff]
        simpa [F64.toRat] using hle
    · intro h
      obtain ⟨m2, e2, hr, hle⟩ := hU h
      rw [hr, F64.le_fin_iff]
      simpa [F64.toRat] using hle
  · constructor
    · intro _
      rcases roundNearestEven_shape false n d hn hd with hr | ⟨m2, e2, hr⟩
      · rw [hr]; rfl
      · rw [hr]; rfl
    · intro h
      linarith
  · constructor
    · intro h
      linarith
    · intro _
      rcases roundNearestEven_shape true n d hn hd with hr | ⟨m2, e2, hr⟩
      · rw [hr]; rfl
      · rw [hr]; rfl
  · constructor
    · intro h
      obtain ⟨m2, e2, hr, hle⟩ := hU (by linarith)
      rw [hr, F64.le_fin_iff]
      simp only [F64.toRat, if_true]
      linarith
    · intro h
      rcases hL (by linarith) with hr | ⟨m2, e2, hr, hle⟩
      · rw [hr]; rfl
      · rw [hr, F64.le_fin_iff]
        simp only [F64.toRat, if_true]
        linarith

/-- Division by a positive finite float64 is monotone against a finite float64: a
float64 below the exact quotient is below the computed one, and one above the exact
quotient is above the computed one. -/
theorem F64.div_le (x : F64) (hx : x.isFinite = true) (s1 : Bool) (m1 : ℕ) (e1 : ℤ)
    (m2 : ℕ) (e2 : ℤ) (hm2 : m2 ≠ 0) :
    (x.toRat ≤ (F64.fin s1 m1 e1).toRat / (F64.fin false m2 e2).toRat →
      F64.le x (F64.div (.fin s1 m1 e1) (.fin false m2 e2)) = true) ∧
    ((F64.fin s1 m1 e1).toRat / (F64.fin false m2 e2).toRat ≤ x.toRat →
      F64.le (F64.div (.fin s1 m1 e1) (.fin false m2 e2)) x = true) := by
  by_cases hm1 : m1 = 0
  · subst hm1
    obtain ⟨sx, mx, ex, rfl, _, _, _⟩ := (F64.isFinite_iff x).mp hx
    have hd : F64.div (.fin s1 0 e1) (.fin false m2 e2) = .fin s1 0 0 := by
      simp [F64.div, hm2]
    rw [hd, F64.le_fin_iff, F64.le_fin_iff]
    simp [F64.toRat]
  · have hd : F64.div (.fin s1 m1 e1) (.fin false m2 e2) =
        roundNearestEven s1 (m1 * 2 ^ (e1 - min e1 e2).toNat)
          (m2 * 2 ^ (e2 - min e1 e2).toNat) := by
      simp [F64.div, hm1, hm2]
    have hq : (F64.fin s1 m1 e1).toRat / (F64.fin false m2 e2).toRat =
        (if s1 then -1 else 1) *
          (((m1 * 2 ^ (e1 - min e1 e2).toNat : ℕ) : ℚ) /
            ((m2 * 2 ^ (e2 - min e1 e2).toNat : ℕ) : ℚ)) := by
      have pe : (2 : ℚ) ^ (min e1 e2) ≠ 0 := ne_of_gt (zpow_pos (by norm_num) _)
      have hm2q : ((m2 * 2 ^ (e2 - min e1 e2).toNat : ℕ) : ℚ) ≠ 0 := by
        have : 0 < m2 * 2 ^ (e2 - min e1 e2).toNat :=
          Nat.mul_pos (Nat.pos_of_ne_zero hm2) (Nat.pow_pos (by norm_num))
        exact_mod_cast (ne_of_gt this)
      cases s1
      · simp only [F64.toRat, Bool.false_eq_true, if_false, one_mul]
        rw [mag_split m1 e1 (min e1 e2) (min_le_left _ _),
          mag_split m2 e2 (min e1 e2) (min_le_right _ _)]
        field_simp
        ring
      · simp only [F64.toRat, Bool.false_eq_true, if_false, if_true, one_mul, neg_mul]
        rw [mag_split m1 e1 (min e1 e2) (min_le_left _ _),
          mag_split m2 e2 (min e1 e2) (min_le_right _ _)]
        field_simp
        ring
    rw [hd, hq]
    exact roundNearestEven_le x hx s1 _ _
      (Nat.mul_pos (Nat.pos_of_ne_zero hm1) (Nat.pow_pos (by norm_num)))
      (Nat.mul_pos (Nat.pos_of_ne_zero hm2) (Nat.pow_pos (by norm_num)))

/-- The conversion `float64(n)` of a length below `2^53` is exact. -/
theorem F64.ofNat_exact (n : ℕ) (hn : 0 < n) (hlt : n < 2 ^ 53) :
    ∃ (m : ℕ) (e : ℤ), F64.ofNat n = .fin false m e ∧ m ≠ 0 ∧
      (F64.fin false m e).toRat = n := by
  obtain ⟨hL, hU⟩ := roundNearestEven_bounds false n 1 hn (by norm_num) n 0 hlt (by norm_num)
    (by norm_num)
  obtain ⟨m, e, hr, hle⟩ := hU (by simp)
  have hof : F64.ofNat n = roundNearestEven false n 1 := by
    simp [F64.ofNat, Nat.pos_iff_ne_zero.mp hn]
  rcases hL (by simp) with hinf | ⟨m', e', hr', hge⟩
  · rw [hinf] at hr
    exact absurd hr (by simp)
  · rw [hr] at hr'
    injection hr' with _ hm he
    subst hm he
    have hval : (m : ℚ) * (2 : ℚ) ^ e = n := by
      have h1 : (m : ℚ) * (2 : ℚ) ^ e ≤ n := by simpa using hle
      have h2 : (n : ℚ) ≤ (m : ℚ) * (2 : ℚ) ^ e := by simpa using hge
      linarith
    refine ⟨m, e, by rw [hof, hr], ?_, by simpa [F64.toRat] using hval⟩
    intro h0
    rw [h0] at hval
    have : (n : ℚ) = 0 := by simpa using hval.symm
    have : n = 0 := by exact_mod_cast this
    omega

end PduProcessor

namespace PduProcessor

/-! ## The statistics reducer in float64 -/

theorem F64.lt_iff_of_finite (a b : F64) (ha : a.isFinite = true) (hb : b.isFinite = true) :
    F64.lt a b = true ↔ a.toRat < b.toRat := by
  obtain ⟨s1, m1, e1, rfl, _⟩ := (F64.isFinite_iff a).mp ha
  obtain ⟨s2, m2, e2, rfl, _⟩ := (F64.isFinite_iff b).mp hb
  exact F64.lt_fin_iff _ _ _ _ _ _

theorem F64.le_iff_of_finite (a b : F64) (ha : a.isFinite = true) (hb : b.isFinite = true) :
    F64.le a b = true ↔ a.toRat ≤ b.toRat := by
  obtain ⟨s1, m1, e1, rfl, _⟩ := (F64.isFinite_iff a).mp ha
  obtain ⟨s2, m2, e2, rfl, _⟩ := (F64.isFinite_iff b).mp hb
  exact F64.le_fin_iff _ _ _ _ _ _

/-- The scan loop on finite float64 samples keeps `min` and `max` among the values seen,
below and above each of them. -/
theorem scanF64_invariant (l : List F64) (hfin : ∀ v ∈ l, v.isFinite = true)
    (mn mx s : F64) (hmn : mn.isFinite = true) (hmx : mx.isFinite = true) :
    (((l.foldl scanStepF64 (mn, mx, s)).1 = mn ∨ (l.foldl scanStepF64 (mn, mx, s)).1 ∈ l) ∧
      (l.foldl scanStepF64 (mn, mx, s)).1.toRat ≤ mn.toRat ∧
      (∀ x ∈ l, (l.foldl scanStepF64 (mn, mx, s)).1.toRat ≤ x.toRat)) ∧
    (((l.foldl scanStepF64 (mn, mx, s)).2.1 = mx ∨
        (l.foldl scanStepF64 (mn, mx, s)).2.1 ∈ l) ∧
      mx.toRat ≤ (l.foldl scanStepF64 (mn, mx, s)).2.1.toRat ∧
      (∀ x ∈ l, x.toRat ≤ (l.foldl scanStepF64 (mn, mx, s)).2.1.toRat)) ∧
    (l.foldl scanStepF64 (mn, mx, s)).2.2 = l.foldl F64.add s := by
  induction l generalizing mn mx s with
  | nil => simp
  | cons a t ih =>
    have ha : a.isFinite = true := hfin a (List.mem_cons_self _ _)
    have ht : ∀ v ∈ t, v.isFinite = true := fun v hv => hfin v (List.mem_cons_of_mem _ hv)
    have hmn2 : (if F64.lt a mn then a else mn).isFinite = true := by
      split_ifs
      · exact ha
      · exact hmn
    have hmx2 : (if F64.lt mx a then a else mx).isFinite = true := by
      split_ifs
      · exact ha
      · exact hmx
    have hlo1 : (if F64.lt a mn then a else mn).toRat ≤ mn.toRat := by
      split_ifs with h
      · exact le_of_lt ((F64.lt_iff_of_finite a mn ha hmn).mp h)
      · exact le_refl _
    have hlo2 : (if F64.lt a mn then a else mn).toRat ≤ a.toRat := by
      split_ifs with h
      · exact le_refl _
      · exact not_lt.mp (fun hc => h ((F64.lt_iff_of_finite a mn ha hmn).mpr hc))
    have hhi1 : mx.toRat ≤ (if F64.lt mx a then a else mx).toRat := by
      split_ifs with h
      · exact le_of_lt ((F64.lt_iff_of_finite mx a hmx ha).mp h)
      · exact le_refl _
    have hhi2 : a.toRat ≤ (if F64.lt mx a then a else mx).toRat := by
      split_ifs with h
      · exact le_refl _
      · exact not_lt.mp (fun hc => h ((F64.lt_iff_of_finite mx a hmx ha).mpr hc))
    simp only [List.foldl_cons, scanStepF64]
    obtain ⟨⟨h1, h2, h3⟩, ⟨h4, h5, h6⟩, h7⟩ :=
      ih ht (if F64.lt a mn then a else mn) (if F64.lt mx a then a else mx) (F64.add s a)
        hmn2 hmx2
    refine ⟨⟨?_, le_trans h2 hlo1, ?_⟩, ⟨?_, le_trans hhi1 h5, ?_⟩, h7⟩
    · rcases h1 with h1 | h1
      · rw [h1]
        split_ifs
        · right; exact List.mem_cons_self _ _
        · left; rfl
      · right; exact List.mem_cons_of_mem _ h1
    · intro x hx
      rcases List.mem_cons.mp hx with rfl | hx
      · exact le_trans h2 hlo2
      · exact h3 x hx
    · rcases h4 with h4 | h4
      · rw [h4]
        split_ifs
        · right; exact List.mem_cons_self _ _
        · left; rfl
      · right; exact List.mem_cons_of_mem _ h4
    · intro x hx
      rcases List.mem_cons.mp hx with rfl | hx
      · exact le_trans hhi2 h5
      · exact h6 x hx

/-- What `CalculateStatisticsF64` returns on a non-empty series of finite samples. -/
theorem calculateStatisticsF64_spec (values : List F64) (hne : values ≠ [])
    (hfin : ∀ v ∈ values, v.isFinite = true) :
    ((CalculateStatisticsF64 values).Min ∈ values ∧
      ∀ x ∈ values, (CalculateStatisticsF64 values).Min.toRat ≤ x.toRat) ∧
    ((CalculateStatisticsF64 values).Max ∈ values ∧
      ∀ x ∈ values, x.toRat ≤ (CalculateStatisticsF64 values).Max.toRat) ∧
    (CalculateStatisticsF64 values).Avg =
      F64.div (sumF64 values) (F64.ofNat values.length) := by
  cases values with
  | nil => exact absurd rfl hne
  | cons v vs =>
    have hv : v.isFinite = true := hfin v (List.mem_cons_self _ _)
    obtain ⟨⟨h1, _, h3⟩, ⟨h4, _, h6⟩, h7⟩ :=
      scanF64_invariant (v :: vs) hfin v v (.fin false 0 0) hv hv
    simp only [CalculateStatisticsF64, scanF64, sumF64]
    refine ⟨⟨?_, h3⟩, ⟨?_, h6⟩, by rw [h7]⟩
    · rcases h1 with h1 | h1
      · rw [h1]; exact List.mem_cons_self _ _
      · exact h1
    · rcases h4 with h4 | h4
      · rw [h4]; exact List.mem_cons_self _ _
      · exact h4

/-- C1 as amended: for every non-empty series of finite float64 samples, the `Min` and
`Max` that `CalculateStatistics` returns enclose the exact mean of the samples,
`Min ≤ (sum of the samples) / (their count) ≤ Max` over the rationals; and the `Avg` it
returns satisfies `Min ≤ Avg ≤ Max` in float64 whenever the running float64 sum is finite
and free of rounding error (the series being shorter than `2^53`). -/
theorem calculateStatisticsF64_min_mean_max (values : List F64) (hne : values ≠ [])
    (hfin : ∀ v ∈ values, v.isFinite = true) :
    (CalculateStatisticsF64 values).Min.toRat ≤
      (values.map F64.toRat).sum / (values.length : ℚ) ∧
    (values.map F64.toRat).sum / (values.length : ℚ) ≤
      (CalculateStatisticsF64 values).Max.toRat ∧
    (values.length < 2 ^ 53 → (sumF64 values).isFinite = true →
      (sumF64 values).toRat = (values.map F64.toRat).sum →
      F64.le (CalculateStatisticsF64 values).Min (CalculateStatisticsF64 values).Avg = true ∧
      F64.le (CalculateStatisticsF64 values).Avg (CalculateStatisticsF64 values).Max = true) := by
  obtain ⟨⟨hminm, hmin⟩, ⟨hmaxm, hmax⟩, havg⟩ := calculateStatisticsF64_spec values hne hfin
  have hlen : 0 < values.length := List.length_pos.mpr hne
  have hpos : (0 : ℚ) < (values.length : ℚ) := by exact_mod_cast hlen
  have h1 := length_mul_le_sum (values.map F64.toRat) (CalculateStatisticsF64 values).Min.toRat
    (by
      intro x hx
      obtain ⟨v, hv, rfl⟩ := List.mem_map.mp hx
      exact hmin v hv)
  have h2 := sum_le_length_mul (values.map F64.toRat) (CalculateStatisticsF64 values).Max.toRat
    (by
      intro x hx
      obtain ⟨v, hv, rfl⟩ := List.mem_map.mp hx
      exact hmax v hv)
  rw [List.length_map] at h1 h2
  have hlo : (CalculateStatisticsF64 values).Min.toRat ≤
      (values.map F64.toRat).sum / (values.length : ℚ) := by
    rw [le_div_iff₀ hpos]; linarith
  have hhi : (values.map F64.toRat).sum / (values.length : ℚ) ≤
      (CalculateStatisticsF64 values).Max.toRat := by
    rw [div_le_iff₀ hpos]; linarith
  refine ⟨hlo, hhi, ?_⟩
  intro hshort hsfin hexact
  obtain ⟨ss, ms, es, hs, _⟩ := (F64.isFinite_iff _).mp hsfin
  obtain ⟨mlen, elen, hof, hm0, hval⟩ := F64.ofNat_exact values.length hlen hshort
  rw [havg, hof, hs]
  rw [hs] at hexact
  have hq : (F64.fin ss ms es).toRat / (F64.fin false mlen elen).toRat =
      (values.map F64.toRat).sum / (values.length : ℚ) := by rw [hexact, hval]
  constructor
  · exact (F64.div_le _ (hfin _ hminm) ss ms es mlen elen hm0).1 (by rw [hq]; exact hlo)
  · exact (F64.div_le _ (hfin _ hmaxm) ss ms es mlen elen hm0).2 (by rw [hq]; exact hhi)

/-- C1, counterexample: on the series 0.1, 0.1, 0.1 the float64 sum is
0.30000000000000004 and `Avg` is 0.10000000000000002, above `Max = 0.1`; on
0.7, 0.7, 0.7 `Avg` is 0.6999999999999998, below `Min = 0.7`. -/
theorem calculateStatisticsF64_avg_outside :
    (CalculateStatisticsF64 [tenth, tenth, tenth]).Max = .fin false 7205759403792794 (-56) ∧
    (CalculateStatisticsF64 [tenth, tenth, tenth]).Avg = .fin false 7205759403792795 (-56) ∧
    F64.le (CalculateStatisticsF64 [tenth, tenth, tenth]).Avg
      (CalculateStatisticsF64 [tenth, tenth, tenth]).Max = false ∧
    (CalculateStatisticsF64 [sevenTenths, sevenTenths, sevenTenths]).Min =
      .fin false 6305039478318694 (-53) ∧
    (CalculateStatisticsF64 [sevenTenths, sevenTenths, sevenTenths]).Avg =
      .fin false 6305039478318693 (-53) ∧
    F64.le (CalculateStatisticsF64 [sevenTenths, sevenTenths, sevenTenths]).Min
      (CalculateStatisticsF64 [sevenTenths, sevenTenths, sevenTenths]).Avg = false := by
  decide

/-- Witness of C1 as amended: the series 1.5, 2.5, 3.0, whose float64 sum 7.0 is exact. -/
theorem calculateStatisticsF64_min_mean_max_witness :
    ([.fin false 3 (-1), .fin false 5 (-1), .fin false 3 0] : List F64) ≠ [] ∧
    (∀ v ∈ ([.fin false 3 (-1), .fin false 5 (-1), .fin false 3 0] : List F64),
      v.isFinite = true) ∧
    ([.fin false 3 (-1), .fin false 5 (-1), .fin false 3 0] : List F64).length < 2 ^ 53 ∧
    (sumF64 [.fin false 3 (-1), .fin false 5 (-1), .fin false 3 0]).isFinite = true ∧
    (sumF64 [.fin false 3 (-1), .fin false 5 (-1), .fin false 3 0]).toRat =
      (([.fin false 3 (-1), .fin false 5 (-1), .fin false 3 0] : List F64).map F64.toRat).sum ∧
    (CalculateStatisticsF64 [.fin false 3 (-1), .fin false 5 (-1), .fin false 3 0]).Avg =
      .fin false 5254199565265579 (-51) ∧
    F64.le (CalculateStatisticsF64 [.fin false 3 (-1), .fin false 5 (-1), .fin false 3 0]).Min
      (CalculateStatisticsF64 [.fin false 3 (-1), .fin false 5 (-1), .fin false 3 0]).Avg =
        true ∧
    F64.le (CalculateStatisticsF64 [.fin false 3 (-1), .fin false 5 (-1), .fin false 3 0]).Avg
      (CalculateStatisticsF64 [.fin false 3 (-1), .fin false 5 (-1), .fin false 3 0]).Max =
        true := by
  have hs : sumF64 [.fin false 3 (-1), .fin false 5 (-1), .fin false 3 0] =
      .fin false 7881299347898368 (-50) := by decide
  have hexact : (sumF64 [.fin false 3 (-1), .fin false 5 (-1), .fin false 3 0]).toRat =
      (([.fin false 3 (-1), .fin false 5 (-1), .fin false 3 0] : List F64).map F64.toRat).sum := by
    rw [hs]
    norm_num [F64.toRat]
  have h := calculateStatisticsF64_min_mean_max
    [.fin false 3 (-1), .fin false 5 (-1), .fin false 3 0] (by simp) (by decide)
  exact ⟨by simp, by decide, by decide, by decide, hexact, by decide,
    h.2.2 (by decide) (by decide) hexact⟩

end PduProcessor

namespace PduProcessor

/-! ## Aggregation of the data rows -/

theorem series_addSample (parseFloat : String → Option ℚ) (row : List String)
    (data : List (String × List ℚ)) (k : String) (c : Nat) (k' : String) :
    series (addSample parseFloat row data (k, c)) k' =
      if k = k' then series data k' ++ (sampleAt parseFloat row c).toList
      else series data k' := by
  simp only [addSample, sampleAt]
  generalize row.getD c "" = cell
  by_cases hc : c ≥ row.length
  · have hc' : ¬ c < row.length := not_lt.mpr hc
    simp [hc, hc']
  · have hc' : c < row.length := not_le.mp hc
    by_cases ht : TrimSpace cell = ""
    · simp [hc, ht]
    · cases hp : parseFloat (TrimSpace cell) with
      | none => simp [hc, hc', ht, hp]
      | some v =>
        by_cases hk : k = k'
        · subst hk
          simp [hc, hc', ht, hp, series, mapGet_mapSet]
        · simp [hc, hc', ht, hp, series, mapGet_mapSet, hk]

theorem series_processRow (parseFloat : String → Option ℚ) (row : List String)
    (entries : List (String × Nat)) (hnd : (mapKeys entries).Nodup)
    (data : List (String × List ℚ)) (k : String) :
    series (processRow parseFloat entries row data) k =
      series data k ++ ((mapGet entries k).bind (sampleAt parseFloat row)).toList := by
  induction entries generalizing data with
  | nil => simp [processRow, mapGet]
  | cons e rest ih =>
    obtain ⟨k0, c0⟩ := e
    have h' : k0 ∉ mapKeys rest ∧ (mapKeys rest).Nodup := by
      simpa [mapKeys] using hnd
    have ih' := ih h'.2 (addSample parseFloat row data (k0, c0))
    simp only [processRow, List.foldl_cons] at ih' ⊢
    rw [ih', series_addSample]
    by_cases hk : k0 = k
    · subst hk
      have hnone : mapGet rest k0 = none := (mapGet_eq_none_iff rest k0).mpr h'.1
      simp [mapGet, hnone]
    · simp [mapGet, hk]

theorem series_processRowsFrom (parseFloat : String → Option ℚ) (ord : RangeOrder)
    (columnMap : List (String × Nat)) (hnd : (mapKeys columnMap).Nodup)
    (rows : List (List String)) (rowIndex : Nat) (data : List (String × List ℚ))
    (k : String) :
    series (processRowsFrom parseFloat ord columnMap rowIndex rows data) k =
      series data k ++
        rows.filterMap (fun row => (mapGet columnMap k).bind (sampleAt parseFloat row)) := by
  induction rows generalizing rowIndex data with
  | nil => simp [processRowsFrom]
  | cons row rest ih =>
    have hp := ord.perm rowIndex columnMap
    have hnd' : (mapKeys (ord.enum rowIndex columnMap)).Nodup :=
      (List.Perm.nodup_iff (hp.map Prod.fst)).mpr hnd
    simp only [processRowsFrom]
    rw [ih, series_processRow _ _ _ hnd', mapGet_perm _ _ _ hp hnd]
    cases hb : (mapGet columnMap k).bind (sampleAt parseFloat row) with
    | none => simp [List.filterMap_cons, hb]
    | some v => simp [List.filterMap_cons, hb]

end PduProcessor

namespace PduProcessor

/-- C8: for every column map (each key held once) and every list of data rows, after
aggregation by a fresh processor the sample series of each mapped key is the list, in
row order, of the parsed values of the cells in that key's column, taken over exactly
the rows where the column index is within the row, the trimmed cell is non-empty and
the trimmed cell parses as a number; every other pair of row and key contributes
nothing, a key that is not mapped has no samples, and the loop is total (no error). -/
theorem aggregation_series (parseFloat : String → Option ℚ) (ord : RangeOrder)
    (columnMap : List (String × Nat)) (hnd : (mapKeys columnMap).Nodup)
    (rows : List (List String)) (key : String) :
    (∀ col, mapGet columnMap key = some col →
      series (processRowsFrom parseFloat ord columnMap 1 rows NewDataProcessor.data) key =
        rows.filterMap (fun row => sampleAt parseFloat row col)) ∧
    (mapGet columnMap key = none →
      series (processRowsFrom parseFloat ord columnMap 1 rows NewDataProcessor.data) key
        = []) := by
  have h := series_processRowsFrom parseFloat ord columnMap hnd rows 1
    NewDataProcessor.data key
  constructor
  · intro col hcol
    rw [h, hcol]
    simp [series, NewDataProcessor, mapGet]
  · intro hnone
    rw [h, hnone]
    simp [series, NewDataProcessor, mapGet]

end PduProcessor

namespace PduProcessor

/-! ## The statistics matrix -/

theorem selectStat_zero (statType : String) :
    selectStat { Min := 0, Max := 0, Avg := 0 } statType = 0 := by
  unfold selectStat
  split_ifs <;> rfl

theorem cellValue_eq_series (dp : DataProcessor) (lineType statType : String) (i : Nat) :
    cellValue dp lineType statType i =
      selectStat (CalculateStatistics (series dp.data (mkKey (rackNameOf i) lineType)))
        statType := by
  simp only [cellValue, series]
  cases hg : mapGet dp.data (mkKey (rackNameOf i) lineType) with
  | none => simp [CalculateStatistics, selectStat_zero]
  | some values =>
    cases values with
    | nil => simp [CalculateStatistics, selectStat_zero]
    | cons v vs => simp

theorem statisticsMatrix_eq_series (dp : DataProcessor) :
    statisticsMatrix dp =
      measurementTypes.map (fun mt =>
        (List.range' 1 18).map (fun i =>
          selectStat
            (CalculateStatistics
              (series dp.data (mkKey (rackNameOf i) ((Split mt).getD 0 ""))))
            ((Split mt).getD 1 ""))) := by
  simp only [statisticsMatrix, rowValues]
  refine List.map_congr_left ?_
  intro mt _
  refine List.map_congr_left ?_
  intro i _
  exact cellValue_eq_series dp _ _ i

theorem statisticsMatrix_congr (dp dp' : DataProcessor)
    (h : ∀ k, series dp.data k = series dp'.data k) :
    statisticsMatrix dp = statisticsMatrix dp' := by
  rw [statisticsMatrix_eq_series, statisticsMatrix_eq_series]
  simp only [h]

/-- C4: header parsing, aggregation and matrix generation on the export with header
row `"TS", "A1 Q1 Current : l1", "A1 Q1 Current : l2"` and the data rows
`t1, "10.0", "20.0"` and `t2, "12.0", "22.0"` (any timestamp cells) succeed, give the
device name `"A1"`, the statistics (min 10, avg 11, max 12) for Q1 l1, (min 20, avg 21,
max 22) for Q1 l2 and (0, 0, 0) for every other key, hence a matrix whose rows are
zero but for the Q1 entries of the l1 and l2 rows. -/
theorem worked_example_a1 (parseFloat : String → Option ℚ) (ord : RangeOrder)
    (filename t1 t2 : String)
    (h10 : parseFloat "10.0" = some 10) (h12 : parseFloat "12.0" = some 12)
    (h20 : parseFloat "20.0" = some 20) (h22 : parseFloat "22.0" = some 22) :
    (LoadInputFile parseFloat ord filename NewDataProcessor
      [["TS", "A1 Q1 Current : l1", "A1 Q1 Current : l2"],
        [t1, "10.0", "20.0"], [t2, "12.0", "22.0"]]).1 = none ∧
    (LoadInputFile parseFloat ord filename NewDataProcessor
      [["TS", "A1 Q1 Current : l1", "A1 Q1 Current : l2"],
        [t1, "10.0", "20.0"], [t2, "12.0", "22.0"]]).2.pduName = "A1" ∧
    CalculateStatistics (series (LoadInputFile parseFloat ord filename NewDataProcessor
      [["TS", "A1 Q1 Current : l1", "A1 Q1 Current : l2"],
        [t1, "10.0", "20.0"], [t2, "12.0", "22.0"]]).2.data "Q1_l1")
      = { Min := 10, Max := 12, Avg := 11 } ∧
    CalculateStatistics (series (LoadInputFile parseFloat ord filename NewDataProcessor
      [["TS", "A1 Q1 Current : l1", "A1 Q1 Current : l2"],
        [t1, "10.0", "20.0"], [t2, "12.0", "22.0"]]).2.data "Q1_l2")
      = { Min := 20, Max := 22, Avg := 21 } ∧
    (∀ key, key ≠ "Q1_l1" → key ≠ "Q1_l2" →
      CalculateStatistics (series (LoadInputFile parseFloat ord filename NewDataProcessor
        [["TS", "A1 Q1 Current : l1", "A1 Q1 Current : l2"],
          [t1, "10.0", "20.0"], [t2, "12.0", "22.0"]]).2.data key)
        = { Min := 0, Max := 0, Avg := 0 }) ∧
    statisticsMatrix (LoadInputFile parseFloat ord filename NewDataProcessor
      [["TS", "A1 Q1 Current : l1", "A1 Q1 Current : l2"],
        [t1, "10.0", "20.0"], [t2, "12.0", "22.0"]]).2 =
      [10 :: List.replicate 17 0, 11 :: List.replicate 17 0, 12 :: List.replicate 17 0,
        20 :: List.replicate 17 0, 21 :: List.replicate 17 0, 22 :: List.replicate 17 0,
        List.replicate 18 0, List.replicate 18 0, List.replicate 18 0] := by
  have hhdr : parseHeaders NewDataProcessor.pduName
      ["TS", "A1 Q1 Current : l1", "A1 Q1 Current : l2"] =
      { pduName := "A1", columnMap := [("Q1_l1", 1), ("Q1_l2", 2)] } := by decide
  have hnd : (mapKeys [("Q1_l1", 1), ("Q1_l2", 2)]).Nodup := by decide
  have ht10 : TrimSpace "10.0" = "10.0" := by decide
  have ht12 : TrimSpace "12.0" = "12.0" := by decide
  have ht20 : TrimSpace "20.0" = "20.0" := by decide
  have ht22 : TrimSpace "22.0" = "22.0" := by decide
  have hne10 : ("10.0" : String) ≠ "" := by decide
  have hne12 : ("12.0" : String) ≠ "" := by decide
  have hne20 : ("20.0" : String) ≠ "" := by decide
  have hne22 : ("22.0" : String) ≠ "" := by decide
  have hload : LoadInputFile parseFloat ord filename NewDataProcessor
      [["TS", "A1 Q1 Current : l1", "A1 Q1 Current : l2"],
        [t1, "10.0", "20.0"], [t2, "12.0", "22.0"]] =
      (none, { pduName := "A1",
               data := processRowsFrom parseFloat ord [("Q1_l1", 1), ("Q1_l2", 2)] 1
                 [[t1, "10.0", "20.0"], [t2, "12.0", "22.0"]] NewDataProcessor.data }) := by
    simp [LoadInputFile, hhdr]
  have hser : ∀ key,
      series (processRowsFrom parseFloat ord [("Q1_l1", 1), ("Q1_l2", 2)] 1
        [[t1, "10.0", "20.0"], [t2, "12.0", "22.0"]] NewDataProcessor.data) key =
      if key = "Q1_l1" then [10, 12] else if key = "Q1_l2" then [20, 22] else [] := by
    intro key
    rw [series_processRowsFrom _ _ _ hnd]
    by_cases h1 : key = "Q1_l1"
    · subst h1
      simp [series, NewDataProcessor, mapGet, sampleAt, ht10, ht12, hne10, hne12, h10, h12]
    · by_cases h2 : key = "Q1_l2"
      · subst h2
        simp [series, NewDataProcessor, mapGet, sampleAt, ht20, ht22, hne20, hne22, h20, h22]
      · have h1' : ¬ "Q1_l1" = key := fun h => h1 h.symm
        have h2' : ¬ "Q1_l2" = key := fun h => h2 h.symm
        simp [series, NewDataProcessor, mapGet, h1, h2, h1', h2']
  have hstat : ∀ key,
      CalculateStatistics (series (processRowsFrom parseFloat ord
        [("Q1_l1", 1), ("Q1_l2", 2)] 1
        [[t1, "10.0", "20.0"], [t2, "12.0", "22.0"]] NewDataProcessor.data) key) =
      if key = "Q1_l1" then { Min := 10, Max := 12, Avg := 11 }
      else if key = "Q1_l2" then { Min := 20, Max := 22, Avg := 21 }
      else { Min := 0, Max := 0, Avg := 0 } := by
    intro key
    rw [hser]
    split_ifs
    · norm_num [CalculateStatistics, scanStep]
    · norm_num [CalculateStatistics, scanStep]
    · rfl
  rw [hload]
  refine ⟨rfl, rfl, ?_, ?_, ?_, ?_⟩
  · rw [hstat]; rfl
  · rw [hstat]; rfl
  · intro key h1 h2
    rw [hstat]
    simp [h1, h2]
  · rw [statisticsMatrix_eq_series]
    simp only [hstat]
    decide

end PduProcessor

namespace PduProcessor

theorem parseDecimal_10_0 : parseDecimal "10.0" = some 10 := by
  have h : decimalParts "10.0" = some (false, 100, 1) := by decide
  simp only [parseDecimal, h]
  norm_num

theorem parseDecimal_12_0 : parseDecimal "12.0" = some 12 := by
  have h : decimalParts "12.0" = some (false, 120, 1) := by decide
  simp only [parseDecimal, h]
  norm_num

theorem parseDecimal_20_0 : parseDecimal "20.0" = some 20 := by
  have h : decimalParts "20.0" = some (false, 200, 1) := by decide
  simp only [parseDecimal, h]
  norm_num

theorem parseDecimal_22_0 : parseDecimal "22.0" = some 22 := by
  have h : decimalParts "22.0" = some (false, 220, 1) := by decide
  simp only [parseDecimal, h]
  norm_num

/-- Witness of C4 with the decimal parser, the reversed visiting order and two
timestamps. -/
theorem worked_example_a1_witness :
    (parseDecimal "10.0" = some 10 ∧ parseDecimal "12.0" = some 12 ∧
      parseDecimal "20.0" = some 20 ∧ parseDecimal "22.0" = some 22) ∧
    (LoadInputFile parseDecimal RangeOrder.reversed "A1.xlsx" NewDataProcessor
      [["TS", "A1 Q1 Current : l1", "A1 Q1 Current : l2"],
        ["2024-01-01 00:00", "10.0", "20.0"],
        ["2024-01-01 00:05", "12.0", "22.0"]]).2.pduName = "A1" ∧
    statisticsMatrix (LoadInputFile parseDecimal RangeOrder.reversed "A1.xlsx"
      NewDataProcessor
      [["TS", "A1 Q1 Current : l1", "A1 Q1 Current : l2"],
        ["2024-01-01 00:00", "10.0", "20.0"],
        ["2024-01-01 00:05", "12.0", "22.0"]]).2 =
      [10 :: List.replicate 17 0, 11 :: List.replicate 17 0, 12 :: List.replicate 17 0,
        20 :: List.replicate 17 0, 21 :: List.replicate 17 0, 22 :: List.replicate 17 0,
        List.replicate 18 0, List.replicate 18 0, List.replicate 18 0] :=
  ⟨⟨parseDecimal_10_0, parseDecimal_12_0, parseDecimal_20_0, parseDecimal_22_0⟩,
    (worked_example_a1 parseDecimal RangeOrder.reversed "A1.xlsx" "2024-01-01 00:00"
      "2024-01-01 00:05" parseDecimal_10_0 parseDecimal_12_0 parseDecimal_20_0
      parseDecimal_22_0).2.1,
    (worked_example_a1 parseDecimal RangeOrder.reversed "A1.xlsx" "2024-01-01 00:00"
      "2024-01-01 00:05" parseDecimal_10_0 parseDecimal_12_0 parseDecimal_20_0
      parseDecimal_22_0).2.2.2.2.2⟩

/-- Witness of C8: one mapped column, rows with a blank cell, a short row and a cell
that is not a number. -/
theorem aggregation_series_witness :
    (mapKeys [("Q1_l1", 1)]).Nodup ∧
    (∀ col, mapGet [("Q1_l1", 1)] "Q1_l1" = some col →
      series (processRowsFrom parseDecimal RangeOrder.stored [("Q1_l1", 1)] 1
        [["t", "10.0"], ["t", " "], ["t"], ["t", "x"], ["t", " 12.0"]]
        NewDataProcessor.data) "Q1_l1" =
        [["t", "10.0"], ["t", " "], ["t"], ["t", "x"], ["t", " 12.0"]].filterMap
          (fun row => sampleAt parseDecimal row col)) ∧
    (mapGet [("Q1_l1", 1)] "Q1_l1" = none →
      series (processRowsFrom parseDecimal RangeOrder.stored [("Q1_l1", 1)] 1
        [["t", "10.0"], ["t", " "], ["t"], ["t", "x"], ["t", " 12.0"]]
        NewDataProcessor.data) "Q1_l1" = []) :=
  ⟨by decide, aggregation_series parseDecimal RangeOrder.stored [("Q1_l1", 1)] (by decide)
    [["t", "10.0"], ["t", " "], ["t"], ["t", "x"], ["t", " 12.0"]] "Q1_l1"⟩

/-! ## GenerateOutput -/

theorem rowValues_getD (dp : DataProcessor) (measurementType : String) (q : Nat)
    (hq : q < 18) :
    (rowValues dp measurementType).getD q 0 =
      cellValue dp ((Split measurementType).getD 0 "") ((Split measurementType).getD 1 "")
        (q + 1) := by
  simp only [rowValues]
  rw [List.getD_eq_getElem?_getD, List.getElem?_map, List.getElem?_range' _ _ hq]
  simp [Nat.add_comm]

theorem outputRow_getD (fmt3 : ℚ → String) (dp : DataProcessor) (measurementType : String)
    (q : Nat) (hq : q < 18) :
    (outputRow fmt3 dp measurementType).getD (1 + q) "" =
      fmt3 (cellValue dp ((Split measurementType).getD 0 "")
        ((Split measurementType).getD 1 "") (q + 1)) := by
  have h : 1 + q = q + 1 := Nat.add_comm 1 q
  simp only [outputRow, rowValues, h, List.getD_cons_succ]
  rw [List.getD_eq_getElem?_getD, List.getElem?_map, List.getElem?_map,
    List.getElem?_range' _ _ hq]
  simp [Nat.add_comm]

end PduProcessor

namespace PduProcessor

/-- C9: for every aggregator state, `GenerateOutput` produces the header row
`Measurement Type, Q1, ..., Q18` followed by exactly 9 data rows labelled, in this
order, l1 min, l1 avg, l1 max, l2 min, l2 avg, l2 max, l3 min, l3 avg, l3 max, each
with the label and 18 value cells in rack order; the cell for (line, stat, Qi) is the
formatted statistic of the series stored under the key `Qi_line`, and the formatted 0
when the key is absent or its series is empty. -/
theorem generateOutput_layout (fmt3 : ℚ → String) (dp : DataProcessor) :
    (GenerateOutput fmt3 dp).length = 10 ∧
    (GenerateOutput fmt3 dp).head? =
      some ["Measurement Type", "Q1", "Q2", "Q3", "Q4", "Q5", "Q6", "Q7", "Q8", "Q9",
        "Q10", "Q11", "Q12", "Q13", "Q14", "Q15", "Q16", "Q17", "Q18"] ∧
    (GenerateOutput fmt3 dp).tail.map List.head? =
      [some "l1 min", some "l1 avg", some "l1 max", some "l2 min", some "l2 avg",
        some "l2 max", some "l3 min", some "l3 avg", some "l3 max"] ∧
    (∀ row ∈ (GenerateOutput fmt3 dp).tail, row.length = 19) ∧
    (∀ (l s : Fin 3) (q : Fin 18),
      ((GenerateOutput fmt3 dp).getD (1 + 3 * l.val + s.val) []).getD (1 + q.val) "" =
        fmt3 (statAt s (CalculateStatistics
          (series dp.data ("Q" ++ toString (q.val + 1) ++ "_" ++ lineName l))))) ∧
    (∀ (l s : Fin 3) (q : Fin 18),
      (mapGet dp.data ("Q" ++ toString (q.val + 1) ++ "_" ++ lineName l) = none ∨
        mapGet dp.data ("Q" ++ toString (q.val + 1) ++ "_" ++ lineName l) = some []) →
      ((GenerateOutput fmt3 dp).getD (1 + 3 * l.val + s.val) []).getD (1 + q.val) "" =
        fmt3 0) := by
  have hcell : ∀ (l s : Fin 3) (q : Fin 18),
      ((GenerateOutput fmt3 dp).getD (1 + 3 * l.val + s.val) []).getD (1 + q.val) "" =
        fmt3 (statAt s (CalculateStatistics
          (series dp.data ("Q" ++ toString (q.val + 1) ++ "_" ++ lineName l)))) := by
    intro l s q
    have hsp : measurementTypes.map (fun mt => ((Split mt).getD 0 "", (Split mt).getD 1 "")) =
        [("l1", "min"), ("l1", "avg"), ("l1", "max"), ("l2", "min"), ("l2", "avg"),
          ("l2", "max"), ("l3", "min"), ("l3", "avg"), ("l3", "max")] := by decide
    simp only [measurementTypes, List.map_cons, List.map_nil, List.cons.injEq, Prod.mk.injEq,
      and_true] at hsp
    obtain ⟨⟨a1, a2⟩, ⟨b1, b2⟩, ⟨c1, c2⟩, ⟨d1, d2⟩, ⟨e1, e2⟩, ⟨f1, f2⟩, ⟨g1, g2⟩, ⟨i1, i2⟩,
      ⟨j1, j2⟩⟩ := hsp
    have hmin : ∀ st : Statistics, selectStat st "min" = st.Min := fun st => by
      simp [selectStat]
    have havg : ∀ st : Statistics, selectStat st "avg" = st.Avg := fun st => by
      simp [selectStat]
    have hmax : ∀ st : Statistics, selectStat st "max" = st.Max := fun st => by
      simp [selectStat]
    have hrow : ∀ mt line stat : String, (Split mt).getD 0 "" = line →
        (Split mt).getD 1 "" = stat →
        (outputRow fmt3 dp mt)[1 + q.val]?.getD "" =
          fmt3 (selectStat (CalculateStatistics
            (series dp.data ("Q" ++ toString (q.val + 1) ++ "_" ++ line))) stat) := by
      intro mt line stat h0 h1
      rw [← List.getD_eq_getElem?_getD, outputRow_getD fmt3 dp mt q.val q.isLt,
        cellValue_eq_series, h0, h1]
      rfl
    have ra := hrow _ _ _ a1 a2
    have rb := hrow _ _ _ b1 b2
    have rc := hrow _ _ _ c1 c2
    have rd := hrow _ _ _ d1 d2
    have re := hrow _ _ _ e1 e2
    have rf := hrow _ _ _ f1 f2
    have rg := hrow _ _ _ g1 g2
    have ri := hrow _ _ _ i1 i2
    have rj := hrow _ _ _ j1 j2
    fin_cases l <;> fin_cases s <;>
      simp [GenerateOutput, measurementTypes, ra, rb, rc, rd, re, rf, rg, ri, rj,
        hmin, havg, hmax, statAt, lineName]
  refine ⟨?_, ?_, ?_, ?_, hcell, ?_⟩
  · simp [GenerateOutput, measurementTypes]
  · have h : outputHeader =
        ["Measurement Type", "Q1", "Q2", "Q3", "Q4", "Q5", "Q6", "Q7", "Q8", "Q9",
          "Q10", "Q11", "Q12", "Q13", "Q14", "Q15", "Q16", "Q17", "Q18"] := by decide
    simp [GenerateOutput, h]
  · simp [GenerateOutput, measurementTypes, outputRow]
  · intro row hrow
    simp only [GenerateOutput, List.tail_cons, List.mem_map] at hrow
    obtain ⟨mt, _, rfl⟩ := hrow
    simp [outputRow, rowValues]
  · intro l s q h
    rw [hcell]
    have hs : series dp.data ("Q" ++ toString (q.val + 1) ++ "_" ++ lineName l) = [] := by
      rcases h with h | h <;> simp [series, h]
    rw [hs]
    fin_cases s <;> rfl

/-- C10: given the rows read from the first sheet, `LoadInputFile` fails if and only if
there are fewer than 2 rows, and when it fails for that reason the processor (device
name and accumulated sample series) is unchanged. -/
theorem loadInputFile_fails_iff (parseFloat : String → Option ℚ) (ord : RangeOrder)
    (filename : String) (dp : DataProcessor) (rows : List (List String)) :
    ((LoadInputFile parseFloat ord filename dp rows).1 ≠ none ↔ rows.length < 2) ∧
    (rows.length < 2 → (LoadInputFile parseFloat ord filename dp rows).2 = dp) := by
  by_cases h : rows.length < 2
  · simp [LoadInputFile, h]
  · simp [LoadInputFile, h]

end PduProcessor

namespace PduProcessor

/-- Witness of C9: the key `Q1_l3` is absent, so the Q1 cell of the row `l3 min` is the
formatted zero. -/
theorem generateOutput_layout_witness :
    (mapGet ({ pduName := "A1", data := [("Q1_l1", [10, 12])] } : DataProcessor).data
        ("Q" ++ toString ((0 : Fin 18).val + 1) ++ "_" ++ lineName 2) = none ∨
      mapGet ({ pduName := "A1", data := [("Q1_l1", [10, 12])] } : DataProcessor).data
        ("Q" ++ toString ((0 : Fin 18).val + 1) ++ "_" ++ lineName 2) = some []) ∧
    ((GenerateOutput formatFixed3 { pduName := "A1", data := [("Q1_l1", [10, 12])] }).getD
      (1 + 3 * (2 : Fin 3).val + (0 : Fin 3).val) []).getD (1 + (0 : Fin 18).val) "" =
      formatFixed3 0 :=
  ⟨Or.inl (by decide),
    (generateOutput_layout formatFixed3
      { pduName := "A1", data := [("Q1_l1", [10, 12])] }).2.2.2.2.2 2 0 0
      (Or.inl (by decide))⟩

/-- Witness of C10: a sheet with the header row only. -/
theorem loadInputFile_fails_iff_witness :
    [["TS", "A1 Q1 Current : l1"]].length < 2 ∧
    (LoadInputFile parseDecimal RangeOrder.stored "A1.xlsx"
      { pduName := "B2", data := [("Q1_l1", [1])] } [["TS", "A1 Q1 Current : l1"]]).2 =
      { pduName := "B2", data := [("Q1_l1", [1])] } :=
  ⟨by decide,
    (loadInputFile_fails_iff parseDecimal RangeOrder.stored "A1.xlsx"
      { pduName := "B2", data := [("Q1_l1", [1])] } [["TS", "A1 Q1 Current : l1"]]).2
      (by decide)⟩

/-! ## Header parsing -/

/-- Counterexample to C6: the cell `a    b` (four spaces) has two white-space-separated
tokens, yet the header loop accepts it in column 1: it splits into five parts at the
single spaces, sets the device name `a` and maps the key `_b`. -/
theorem short_header_cell_accepted :
    (Fields (TrimSpace "a    b")).length = 2 ∧
    headerStep { pduName := "", columnMap := [] } 1 "a    b" =
      { pduName := "a", columnMap := [("_b", 1)] } := by
  decide

/-- C6 as amended: a header cell in a column other than column 0 that, after trimming,
splits at its single space characters into fewer than 5 parts is ignored by the header
loop: the device name and the column map stay as they were. -/
theorem header_cell_ignored (st : HeaderState) (i : Nat) (header : String)
    (hi : i ≠ 0) (hparts : (Split (TrimSpace header)).length < 5) :
    headerStep st i header = st := by
  have hnone : parseHeaderCell header = none := by
    simp only [parseHeaderCell]
    split_ifs <;> rfl
  simp [headerStep, hi, hnone]

/-- Witness of C6 as amended: four parts in column 2. -/
theorem header_cell_ignored_witness :
    (2 : Nat) ≠ 0 ∧ (Split (TrimSpace " A1 Q1 Current l1 ")).length < 5 ∧
    headerStep { pduName := "", columnMap := [("Q1_l1", 1)] } 2 " A1 Q1 Current l1 " =
      { pduName := "", columnMap := [("Q1_l1", 1)] } :=
  ⟨by decide, by decide,
    header_cell_ignored { pduName := "", columnMap := [("Q1_l1", 1)] } 2
      " A1 Q1 Current l1 " (by decide) (by decide)⟩

theorem dropWhile_append_singleton (p : Char → Bool) (l : List Char) (a : Char)
    (ha : p a = false) : (l ++ [a]).dropWhile p = l.dropWhile p ++ [a] := by
  induction l with
  | nil => simp [List.dropWhile, ha]
  | cons b t ih =>
    cases hb : p b with
    | true => simp [List.dropWhile, hb, ih]
    | false => simp [List.dropWhile, hb]

theorem dropWhile_head_false (p : Char → Bool) (l : List Char) (a : Char) (t : List Char)
    (h : l.dropWhile p = a :: t) : p a = false := by
  induction l with
  | nil => simp at h
  | cons b r ih =>
    cases hb : p b with
    | true =>
      simp only [List.dropWhile, hb] at h
      exact ih h
    | false =>
      simp only [List.dropWhile, hb] at h
      injection h with h1 _
      rw [← h1]; exact hb

theorem trimChars_head_not_space (cs : List Char) (c : Char) (rest : List Char)
    (h : trimChars cs = c :: rest) : isSpace c = false := by
  unfold trimChars at h
  cases hd : cs.dropWhile isSpace with
  | nil => rw [hd] at h; simp at h
  | cons a t =>
    have ha := dropWhile_head_false isSpace cs a t hd
    rw [hd, List.reverse_cons, dropWhile_append_singleton _ _ _ ha, List.reverse_append] at h
    simp only [List.reverse_cons, List.reverse_nil, List.nil_append, List.singleton_append,
      List.cons.injEq] at h
    rw [← h.1]; exact ha

theorem splitChars_ne_nil (cs : List Char) : splitChars cs ≠ [] := by
  cases cs with
  | nil => simp [splitChars]
  | cons c t =>
    unfold splitChars
    split_ifs
    · simp
    · split <;> simp

theorem splitChars_head_cons (c : Char) (cs : List Char) (hc : c ≠ ' ') :
    ∃ p ps, splitChars (c :: cs) = (c :: p) :: ps := by
  unfold splitChars
  rw [if_neg hc]
  split
  · exact ⟨[], [], rfl⟩
  · exact ⟨_, _, rfl⟩

theorem parseHeaderCell_name_ne_empty (header name key : String)
    (h : parseHeaderCell header = some (name, key)) : name ≠ "" := by
  simp only [parseHeaderCell] at h
  split_ifs at h with h1 h2
  simp only [Option.some.injEq, Prod.mk.injEq] at h
  have hne : trimChars header.data ≠ [] := by
    intro hnil
    apply h1
    simp [TrimSpace, hnil]
  cases htc : trimChars header.data with
  | nil => exact absurd htc hne
  | cons c rest =>
    have hsp := trimChars_head_not_space _ _ _ htc
    have hc : c ≠ ' ' := by
      rintro rfl
      revert hsp
      decide
    obtain ⟨p, ps, hps⟩ := splitChars_head_cons c rest hc
    have hname : name = String.mk (c :: p) := by
      rw [← h.1]
      simp [Split, TrimSpace, htc, hps]
    rw [hname]
    intro habs
    have := congrArg String.data habs
    simp at this

end PduProcessor

namespace PduProcessor

theorem parseHeaderCell_name (header name key : String)
    (h : parseHeaderCell header = some (name, key)) :
    name = (Split (TrimSpace header)).getD 0 "" := by
  simp only [parseHeaderCell] at h
  split_ifs at h
  simp only [Option.some.injEq, Prod.mk.injEq] at h
  exact h.1.symm

theorem headerStep_pduName_of_ne (st : HeaderState) (i : Nat) (header : String)
    (h : st.pduName ≠ "") : (headerStep st i header).pduName = st.pduName := by
  unfold headerStep
  split_ifs
  · rfl
  · split
    · rfl
    · simp [h]

theorem parseHeadersFrom_pduName_of_ne (cells : List String) (i : Nat) (st : HeaderState)
    (h : st.pduName ≠ "") : (parseHeadersFrom i cells st).pduName = st.pduName := by
  induction cells generalizing i st with
  | nil => rfl
  | cons c rest ih =>
    have h1 := headerStep_pduName_of_ne st i c h
    simp only [parseHeadersFrom]
    rw [ih (i + 1) (headerStep st i c) (by rw [h1]; exact h), h1]

theorem parseHeadersFrom_pduName_fresh (cells : List String) (i : Nat) (hi : i ≠ 0)
    (st : HeaderState) (h : st.pduName = "") :
    (parseHeadersFrom i cells st).pduName =
      match cells.find? (fun cell => (parseHeaderCell cell).isSome) with
      | some cell => (Split (TrimSpace cell)).getD 0 ""
      | none => "" := by
  induction cells generalizing i st with
  | nil => simpa [parseHeadersFrom] using h
  | cons c rest ih =>
    simp only [parseHeadersFrom]
    cases hc : parseHeaderCell c with
    | none =>
      have hstep : headerStep st i c = st := by simp [headerStep, hi, hc]
      rw [hstep, ih (i + 1) (Nat.succ_ne_zero i) st h]
      simp [List.find?, hc]
    | some nk =>
      obtain ⟨name, key⟩ := nk
      have hname := parseHeaderCell_name c name key hc
      have hne := parseHeaderCell_name_ne_empty c name key hc
      have hstep : (headerStep st i c).pduName = name := by
        simp [headerStep, hi, hc, h]
      rw [parseHeadersFrom_pduName_of_ne rest (i + 1) (headerStep st i c)
        (by rw [hstep]; exact hne), hstep]
      simp [List.find?, hc, hname]

/-- C7: for every header row parsed by a fresh `DataProcessor`, the resolved device
name is token 0 of the accepted header cell with the lowest column index (column 0
excluded), and the empty string when no header cell is accepted; later accepted cells,
whatever device they name, do not change it, and the load of a sheet with at least one
data row does not fail. -/
theorem device_name_first_accepted (parseFloat : String → Option ℚ) (ord : RangeOrder)
    (filename : String) (headers row : List String) (rows : List (List String)) :
    (parseHeaders NewDataProcessor.pduName headers).pduName =
      (match headers.tail.find? (fun cell => (parseHeaderCell cell).isSome) with
      | some cell => (Split (TrimSpace cell)).getD 0 ""
      | none => "") ∧
    (LoadInputFile parseFloat ord filename NewDataProcessor (headers :: row :: rows)).1
      = none ∧
    (LoadInputFile parseFloat ord filename NewDataProcessor
      (headers :: row :: rows)).2.pduName =
      (match headers.tail.find? (fun cell => (parseHeaderCell cell).isSome) with
      | some cell => (Split (TrimSpace cell)).getD 0 ""
      | none => "") := by
  have hp : (parseHeaders NewDataProcessor.pduName headers).pduName =
      (match headers.tail.find? (fun cell => (parseHeaderCell cell).isSome) with
      | some cell => (Split (TrimSpace cell)).getD 0 ""
      | none => "") := by
    cases headers with
    | nil => rfl
    | cons h0 cells =>
      have h0' : headerStep { pduName := "", columnMap := [] } 0 h0 =
          { pduName := "", columnMap := [] } := by simp [headerStep]
      simp only [parseHeaders, parseHeadersFrom, NewDataProcessor, List.tail_cons]
      rw [h0']
      exact parseHeadersFrom_pduName_fresh cells 1 (by decide) _ rfl
  have hlen : ¬ (headers :: row :: rows).length < 2 := by
    simp only [List.length_cons]
    omega
  refine ⟨hp, ?_, ?_⟩
  · simp only [LoadInputFile, if_neg hlen]
  · rw [← hp]
    simp only [LoadInputFile, if_neg hlen, List.headD_cons]

/-- Two accepted cells that name different devices: the name of the first one is kept. -/
theorem device_name_mixed_export :
    parseHeaders NewDataProcessor.pduName
      ["TS", "bad", "A1 Q1 Current : l1", "B7 Q2 Current : l1"] =
      { pduName := "A1", columnMap := [("Q1_l1", 2), ("Q2_l1", 3)] } := by
  decide

end PduProcessor

namespace PduProcessor

/-! ## Column order -/

theorem parseDecimal_1 : parseDecimal "1" = some 1 := by
  have h : decimalParts "1" = some (false, 1, 0) := by decide
  simp only [parseDecimal, h]
  norm_num

theorem parseDecimal_2 : parseDecimal "2" = some 2 := by
  have h : decimalParts "2" = some (false, 2, 0) := by decide
  simp only [parseDecimal, h]
  norm_num

/-- The first value of the first matrix row is the minimum of the series `Q1_l1`. -/
theorem statisticsMatrix_first_cell (dp : DataProcessor) :
    ((statisticsMatrix dp).headD []).headD 0 =
      (CalculateStatistics (series dp.data "Q1_l1")).Min := by
  have h0 : (Split "l1 min").getD 0 "" = "l1" := by decide
  have h1 : (Split "l1 min").getD 1 "" = "min" := by decide
  have hk : mkKey (rackNameOf 1) "l1" = "Q1_l1" := by decide
  have hr : List.range' 1 18 = 1 :: List.range' 2 17 := rfl
  rw [statisticsMatrix_eq_series]
  simp only [measurementTypes, List.map_cons, List.headD_cons, hr, h0, h1, hk]
  simp [selectStat]

/-- The first matrix cell after loading a sheet with one data row, when the header maps
`Q1_l1` to column 2 and nothing else. -/
theorem first_cell_single_row (parseFloat : String → Option ℚ) (ord : RangeOrder)
    (filename : String) (headers row : List String) (v : ℚ)
    (hhdr : (parseHeaders NewDataProcessor.pduName headers).columnMap = [("Q1_l1", 2)])
    (hrow : sampleAt parseFloat row 2 = some v) :
    ((statisticsMatrix (LoadInputFile parseFloat ord filename NewDataProcessor
      [headers, row]).2).headD []).headD 0 = v := by
  have hnd : (mapKeys [("Q1_l1", 2)]).Nodup := by decide
  rw [statisticsMatrix_first_cell]
  have hlen : ¬ [headers, row].length < 2 := by simp
  simp only [LoadInputFile, if_neg hlen, List.headD_cons, List.drop_one, List.tail_cons, hhdr]
  rw [series_processRowsFrom _ _ _ hnd]
  simp [series, NewDataProcessor, mapGet, hrow, CalculateStatistics, scanStep]

/-- Counterexample to C5: two header cells carry the same key `Q1_l1`. The later column
wins, so exchanging the two columns of a sheet whose rows have the header's width
changes the matrix: its first cell is 2 before and 1 after the exchange. -/
theorem column_swap_changes_matrix :
    (∀ row ∈ [["t", "1", "2"]],
      row.length = ["TS", "A1 Q1 Current : l1", "A1 Q1 Power : l1"].length) ∧
    statisticsMatrix (LoadInputFile parseDecimal RangeOrder.stored "A1.xlsx"
      NewDataProcessor
      (["TS", "A1 Q1 Current : l1", "A1 Q1 Power : l1"] :: [["t", "1", "2"]])).2 ≠
    statisticsMatrix (LoadInputFile parseDecimal RangeOrder.stored "A1.xlsx"
      NewDataProcessor
      (permuteCols (Equiv.swap (0 : Fin 2) 1)
          ["TS", "A1 Q1 Current : l1", "A1 Q1 Power : l1"] ::
        [["t", "1", "2"]].map (permuteCols (Equiv.swap (0 : Fin 2) 1)))).2 := by
  have hp1 : permuteCols (Equiv.swap (0 : Fin 2) 1)
      ["TS", "A1 Q1 Current : l1", "A1 Q1 Power : l1"] =
      ["TS", "A1 Q1 Power : l1", "A1 Q1 Current : l1"] := by decide
  have hp2 : [["t", "1", "2"]].map (permuteCols (Equiv.swap (0 : Fin 2) 1)) =
      [["t", "2", "1"]] := by decide
  have ht1 : TrimSpace "1" = "1" := by decide
  have ht2 : TrimSpace "2" = "2" := by decide
  have hne1 : ("1" : String) ≠ "" := by decide
  have hne2 : ("2" : String) ≠ "" := by decide
  have hL := first_cell_single_row parseDecimal RangeOrder.stored "A1.xlsx"
    ["TS", "A1 Q1 Current : l1", "A1 Q1 Power : l1"] ["t", "1", "2"] 2 (by decide)
    (by simp [sampleAt, ht2, hne2, parseDecimal_2])
  have hR := first_cell_single_row parseDecimal RangeOrder.stored "A1.xlsx"
    ["TS", "A1 Q1 Power : l1", "A1 Q1 Current : l1"] ["t", "2", "1"] 1 (by decide)
    (by simp [sampleAt, ht1, hne1, parseDecimal_1])
  refine ⟨by decide, ?_⟩
  rw [hp1, hp2]
  intro heq
  rw [heq, hR] at hL
  norm_num at hL

end PduProcessor

namespace PduProcessor

theorem columnOf_eq_none_iff (cells : List String) (k : String) :
    columnOf cells k = none ↔ k ∉ cells.filterMap headerKey := by
  induction cells with
  | nil => simp [columnOf]
  | cons c rest ih =>
    simp only [columnOf]
    cases hc : headerKey c with
    | none => simp [List.filterMap_cons, hc, ih]
    | some key =>
      by_cases hk : key = k
      · subst hk
        simp [List.filterMap_cons, hc]
      · have hk' : ¬ k = key := fun h => hk h.symm
        simp [List.filterMap_cons, hc, hk, hk', ih]

theorem headerStep_columnMap_none (st : HeaderState) (i : Nat) (c : String)
    (hc : headerKey c = none) : headerStep st i c = st := by
  have h : parseHeaderCell c = none := by
    simpa [headerKey] using hc
  by_cases hi : i = 0
  · simp [headerStep, hi]
  · simp [headerStep, hi, h]

theorem headerStep_columnMap_some (st : HeaderState) (i : Nat) (hi : i ≠ 0) (c key : String)
    (hc : headerKey c = some key) :
    (headerStep st i c).columnMap = mapSet st.columnMap key i := by
  cases hp : parseHeaderCell c with
  | none => simp [headerKey, hp] at hc
  | some nk =>
    obtain ⟨name, key'⟩ := nk
    have hk : key' = key := by simpa [headerKey, hp] using hc
    subst hk
    simp [headerStep, hi, hp]

theorem columnMap_parseHeadersFrom (cells : List String)
    (hnd : (cells.filterMap headerKey).Nodup) (i : Nat) (hi : i ≠ 0) (st : HeaderState)
    (k : String) :
    mapGet (parseHeadersFrom i cells st).columnMap k =
      match columnOf cells k with
      | some j => some (i + j)
      | none => mapGet st.columnMap k := by
  induction cells generalizing i st with
  | nil => simp [parseHeadersFrom, columnOf]
  | cons c rest ih =>
    simp only [parseHeadersFrom, columnOf]
    cases hc : headerKey c with
    | none =>
      have hnd' : (rest.filterMap headerKey).Nodup := by
        simpa [List.filterMap_cons, hc] using hnd
      rw [headerStep_columnMap_none st i c hc, ih hnd' (i + 1) (Nat.succ_ne_zero i) st]
      cases hco : columnOf rest k with
      | none => simp
      | some j => simp; omega
    | some key =>
      have hnd' : key ∉ rest.filterMap headerKey ∧ (rest.filterMap headerKey).Nodup := by
        simpa [List.filterMap_cons, hc] using hnd
      rw [ih hnd'.2 (i + 1) (Nat.succ_ne_zero i) (headerStep st i c),
        headerStep_columnMap_some st i hi c key hc, mapGet_mapSet]
      by_cases hk : key = k
      · subst hk
        have hnone := (columnOf_eq_none_iff rest key).mpr hnd'.1
        simp [hnone]
      · have hk' : ¬ some key = some k := fun h => hk (Option.some.inj h)
        simp only [hk, if_false, hk']
        cases hco : columnOf rest k with
        | none => simp
        | some j => simp; omega

theorem nodup_columnMap_parseHeadersFrom (cells : List String) (i : Nat) (st : HeaderState)
    (h : (mapKeys st.columnMap).Nodup) :
    (mapKeys (parseHeadersFrom i cells st).columnMap).Nodup := by
  induction cells generalizing i st with
  | nil => simpa [parseHeadersFrom] using h
  | cons c rest ih =>
    simp only [parseHeadersFrom]
    apply ih
    by_cases hi : i = 0
    · simpa [headerStep, hi] using h
    · cases hp : parseHeaderCell c with
      | none => simpa [headerStep, hi, hp] using h
      | some nk =>
        obtain ⟨name, key⟩ := nk
        simp only [headerStep, hi, if_false, hp]
        exact nodup_mapKeys_mapSet _ _ _ h

theorem sampleAt_cons_succ (parseFloat : String → Option ℚ) (t : String)
    (rc : List String) (j : Nat) :
    sampleAt parseFloat (t :: rc) (j + 1) = sampleAt parseFloat rc j := by
  simp [sampleAt]

theorem sampleAt_cons_zero (parseFloat : String → Option ℚ) (d : String)
    (rc : List String) :
    sampleAt parseFloat (d :: rc) 0 = cellSample parseFloat d := by
  simp [sampleAt, cellSample]

theorem sample_columnOf_eq_find (parseFloat : String → Option ℚ) (k : String)
    (cells rc : List String) (hlen : rc.length = cells.length) :
    (columnOf cells k).bind (sampleAt parseFloat rc) =
      ((cells.zip rc).find? (fun p => decide (headerKey p.1 = some k))).bind
        (fun p => cellSample parseFloat p.2) := by
  induction cells generalizing rc with
  | nil => simp [columnOf]
  | cons c rest ih =>
    cases rc with
    | nil => simp at hlen
    | cons d rc' =>
      have hlen' : rc'.length = rest.length := by simpa using hlen
      simp only [columnOf, List.zip_cons_cons, List.find?_cons]
      by_cases hc : headerKey c = some k
      · simp [hc, sampleAt_cons_zero]
      · simp only [hc, if_false, decide_False]
        rw [← ih rc' hlen']
        cases hco : columnOf rest k with
        | none => simp
        | some j => simp [sampleAt_cons_succ]

end PduProcessor

namespace PduProcessor

theorem find_key_perm (k : String) {l l' : List (String × String)} (hp : l.Perm l')
    (hnd : (l.filterMap (fun p => headerKey p.1)).Nodup) :
    l.find? (fun p => decide (headerKey p.1 = some k)) =
      l'.find? (fun p => decide (headerKey p.1 = some k)) := by
  induction hp with
  | nil => rfl
  | cons x _ ih =>
    have hnd' : (List.filterMap (fun p : String × String => headerKey p.1) _).Nodup :=
      ((List.sublist_cons_self x _).filterMap _).nodup hnd
    simp only [List.find?_cons, ih hnd']
  | swap x y l =>
    simp only [List.find?_cons]
    by_cases hx : headerKey x.1 = some k
    · by_cases hy : headerKey y.1 = some k
      · exfalso
        simp [List.filterMap_cons, hx, hy] at hnd
      · simp [hx, hy]
    · by_cases hy : headerKey y.1 = some k
      · simp [hx, hy]
      · simp [hx, hy]
  | trans h1 _ ih1 ih2 =>
    have hnd2 := ((h1.filterMap (fun p : String × String => headerKey p.1)).nodup_iff).mp hnd
    rw [ih1 hnd, ih2 hnd2]

theorem ofFn_getD_self {α : Type} (l : List α) (d : α) :
    List.ofFn (fun j : Fin l.length => l.getD j.val d) = l := by
  have h : (fun j : Fin l.length => l.getD j.val d) = fun j : Fin l.length => l[(j : Nat)] := by
    funext j
    rw [List.getD_eq_getElem _ _ j.isLt]
  rw [h, List.ofFn_getElem]

theorem zip_ofFn_ofFn {α β : Type} {m : Nat} (f : Fin m → α) (g : Fin m → β) :
    List.zip (List.ofFn f) (List.ofFn g) = List.ofFn (fun j => (f j, g j)) := by
  induction m with
  | zero => simp
  | succ n ih => simp [List.ofFn_succ, ih]

theorem zip_permuted_perm {m : Nat} (σ : Equiv.Perm (Fin m)) (cells rc : List String)
    (hc : cells.length = m) (hr : rc.length = m) :
    (List.zip (List.ofFn (fun j : Fin m => cells.getD (σ j).val ""))
      (List.ofFn (fun j : Fin m => rc.getD (σ j).val ""))).Perm (List.zip cells rc) := by
  subst hc
  rw [zip_ofFn_ofFn]
  have h := Equiv.Perm.ofFn_comp_perm σ
    (fun j : Fin cells.length => (cells.getD j.val "", rc.getD j.val ""))
  refine List.Perm.trans h ?_
  rw [← zip_ofFn_ofFn, ofFn_getD_self]
  have hr' : List.ofFn (fun j : Fin cells.length => rc.getD j.val "") = rc := by
    have := ofFn_getD_self rc ""
    rw [hr] at this
    exact this
  rw [hr']

theorem permuted_cells_perm {m : Nat} (σ : Equiv.Perm (Fin m)) (cells : List String)
    (hc : cells.length = m) :
    (List.ofFn (fun j : Fin m => cells.getD (σ j).val "")).Perm cells := by
  subst hc
  have h := Equiv.Perm.ofFn_comp_perm σ (fun j : Fin cells.length => cells.getD j.val "")
  rw [ofFn_getD_self] at h
  exact h

end PduProcessor

namespace PduProcessor

theorem filterMap_key_zip (cells rc : List String) (hlen : rc.length = cells.length) :
    (cells.zip rc).filterMap (fun p => headerKey p.1) = cells.filterMap headerKey := by
  have h : (cells.zip rc).map Prod.fst = cells :=
    List.map_fst_zip cells rc (le_of_eq hlen.symm)
  have h2 : (cells.zip rc).filterMap (fun p => headerKey p.1) =
      ((cells.zip rc).map Prod.fst).filterMap headerKey := by
    rw [List.filterMap_map]
    rfl
  rw [h2, h]

theorem sample_of_header (parseFloat : String → Option ℚ) (pduName : String)
    (h0 t : String) (cells rc : List String) (hlen : rc.length = cells.length)
    (hkeys : (cells.filterMap headerKey).Nodup) (k : String) :
    (mapGet (parseHeaders pduName (h0 :: cells)).columnMap k).bind
        (sampleAt parseFloat (t :: rc)) =
      ((cells.zip rc).find? (fun p => decide (headerKey p.1 = some k))).bind
        (fun p => cellSample parseFloat p.2) := by
  have hstep : headerStep { pduName := pduName, columnMap := [] } 0 h0 =
      { pduName := pduName, columnMap := [] } := by simp [headerStep]
  simp only [parseHeaders, parseHeadersFrom]
  rw [hstep, columnMap_parseHeadersFrom cells hkeys 1 (by decide),
    ← sample_columnOf_eq_find parseFloat k cells rc hlen]
  cases hco : columnOf cells k with
  | none => simp [mapGet]
  | some j =>
    have h1 : 1 + j = j + 1 := Nat.add_comm 1 j
    simp only [h1]
    exact sampleAt_cons_succ parseFloat t rc j

theorem sample_permuted (parseFloat : String → Option ℚ) (pduName : String) (m : Nat)
    (σ : Equiv.Perm (Fin m)) (headers row : List String)
    (hm : headers.tail.length = m) (hrow : row.length = headers.length)
    (hkeys : (headers.tail.filterMap headerKey).Nodup) (k : String) :
    (mapGet (parseHeaders pduName (permuteCols σ headers)).columnMap k).bind
        (sampleAt parseFloat (permuteCols σ row)) =
      (mapGet (parseHeaders pduName headers).columnMap k).bind (sampleAt parseFloat row) := by
  cases headers with
  | nil =>
    have hr : row = [] := List.length_eq_zero.mp (by simpa using hrow)
    subst hr
    rfl
  | cons h0 cells =>
    cases row with
    | nil => simp at hrow
    | cons t rc =>
      have hc : cells.length = m := by simpa using hm
      have hr : rc.length = m := by
        have : rc.length = cells.length := by simpa using hrow
        omega
      have hk : (cells.filterMap headerKey).Nodup := by simpa using hkeys
      have hpc := permuted_cells_perm σ cells hc
      have hk' : ((List.ofFn (fun j : Fin m => cells.getD (σ j).val "")).filterMap
          headerKey).Nodup := ((hpc.filterMap headerKey).nodup_iff).mpr hk
      have hlen' : (List.ofFn (fun j : Fin m => rc.getD (σ j).val "")).length =
          (List.ofFn (fun j : Fin m => cells.getD (σ j).val "")).length := by
        simp
      simp only [permuteCols]
      rw [sample_of_header parseFloat pduName h0 t _ _ hlen' hk' k,
        sample_of_header parseFloat pduName h0 t cells rc (by omega) hk k]
      have hz := zip_permuted_perm σ cells rc hc hr
      have hnz : ((List.zip (List.ofFn (fun j : Fin m => cells.getD (σ j).val ""))
          (List.ofFn (fun j : Fin m => rc.getD (σ j).val ""))).filterMap
          (fun p => headerKey p.1)).Nodup := by
        rw [filterMap_key_zip _ _ hlen']
        exact hk'
      rw [find_key_perm k hz hnz]

end PduProcessor

namespace PduProcessor

/-- C5 as amended: for every header row whose accepted cells carry pairwise distinct
keys and every export whose rows all have the header's width, applying one permutation
of the non-timestamp columns to the header row and to every data row gives the same
outcome of the load and exactly the same device statistics matrix as the unpermuted
export, whatever order the column map is visited in. -/
theorem matrix_invariant_under_column_permutation (parseFloat : String → Option ℚ)
    (ord ord' : RangeOrder) (filename : String) (dp : DataProcessor) (m : Nat)
    (σ : Equiv.Perm (Fin m)) (headers : List String) (rows : List (List String))
    (hm : headers.tail.length = m)
    (hrows : ∀ row ∈ rows, row.length = headers.length)
    (hkeys : (headers.tail.filterMap headerKey).Nodup) :
    (LoadInputFile parseFloat ord' filename dp
        (permuteCols σ headers :: rows.map (permuteCols σ))).1 =
      (LoadInputFile parseFloat ord filename dp (headers :: rows)).1 ∧
    statisticsMatrix (LoadInputFile parseFloat ord' filename dp
        (permuteCols σ headers :: rows.map (permuteCols σ))).2 =
      statisticsMatrix (LoadInputFile parseFloat ord filename dp (headers :: rows)).2 := by
  by_cases hlen : (headers :: rows).length < 2
  · have hlen' : (permuteCols σ headers :: rows.map (permuteCols σ)).length < 2 := by
      simpa using hlen
    simp only [LoadInputFile, if_pos hlen, if_pos hlen', and_self]
  · have hlen' : ¬ (permuteCols σ headers :: rows.map (permuteCols σ)).length < 2 := by
      simpa using hlen
    simp only [LoadInputFile, if_neg hlen, if_neg hlen', List.headD_cons, List.drop_one,
      List.tail_cons, true_and]
    apply statisticsMatrix_congr
    intro k
    have hndL : (mapKeys (parseHeaders dp.pduName headers).columnMap).Nodup :=
      nodup_columnMap_parseHeadersFrom headers 0 _ (by simp [mapKeys])
    have hndR : (mapKeys (parseHeaders dp.pduName (permuteCols σ headers)).columnMap).Nodup :=
      nodup_columnMap_parseHeadersFrom (permuteCols σ headers) 0 _ (by simp [mapKeys])
    simp only []
    rw [series_processRowsFrom _ _ _ hndL, series_processRowsFrom _ _ _ hndR,
      List.filterMap_map]
    congr 1
    apply List.filterMap_congr
    intro row hrow
    exact sample_permuted parseFloat dp.pduName m σ headers row hm (hrows row hrow) hkeys k

/-- Witness of C5 as amended: two columns with the keys `Q1_l1` and `Q2_l1`, exchanged. -/
theorem matrix_invariant_under_column_permutation_witness :
    (["TS", "A1 Q1 Current : l1", "A1 Q2 Current : l1"].tail.length = 2 ∧
      (∀ row ∈ [["t", "1", "2"], ["u", "2", ""]],
        row.length = ["TS", "A1 Q1 Current : l1", "A1 Q2 Current : l1"].length) ∧
      (["TS", "A1 Q1 Current : l1", "A1 Q2 Current : l1"].tail.filterMap headerKey).Nodup) ∧
    statisticsMatrix (LoadInputFile parseDecimal RangeOrder.reversed "A1.xlsx"
        NewDataProcessor
        (permuteCols (Equiv.swap (0 : Fin 2) 1)
            ["TS", "A1 Q1 Current : l1", "A1 Q2 Current : l1"] ::
          [["t", "1", "2"], ["u", "2", ""]].map (permuteCols (Equiv.swap (0 : Fin 2) 1)))).2 =
      statisticsMatrix (LoadInputFile parseDecimal RangeOrder.stored "A1.xlsx"
        NewDataProcessor
        (["TS", "A1 Q1 Current : l1", "A1 Q2 Current : l1"] ::
          [["t", "1", "2"], ["u", "2", ""]])).2 :=
  ⟨⟨by decide, by decide, by decide⟩,
    (matrix_invariant_under_column_permutation parseDecimal RangeOrder.stored
      RangeOrder.reversed "A1.xlsx" NewDataProcessor 2 (Equiv.swap (0 : Fin 2) 1)
      ["TS", "A1 Q1 Current : l1", "A1 Q2 Current : l1"]
      [["t", "1", "2"], ["u", "2", ""]] (by decide) (by decide) (by decide)).2⟩

end PduProcessor

namespace Report

/-! ## The device name in a file name -/

theorem not_occursIn_singleton (c : Char) : ¬ OccursIn [c] := by
  rintro ⟨p, a, d, s, h, _, _⟩
  have := congrArg List.length h
  simp at this
  omega

theorem findPDUMatch_eq_none_iff (l : List Char) : findPDUMatch l = none ↔ ¬ OccursIn l := by
  induction l with
  | nil =>
    simp only [findPDUMatch, true_iff]
    rintro ⟨p, a, d, s, h, _, _⟩
    simp at h
  | cons c cs ih =>
    simp only [findPDUMatch]
    by_cases hc : (isABC c && (cs.head?.map isDigitChar).getD false) = true
    · rw [if_pos hc]
      simp only [Bool.and_eq_true] at hc
      cases cs with
      | nil => simp at hc
      | cons d s =>
        have hocc : OccursIn (c :: d :: s) :=
          ⟨[], c, d, s, rfl, hc.1, by simpa using hc.2⟩
        constructor
        · intro h; simp at h
        · intro h; exact absurd hocc h
    · rw [if_neg hc, ih]
      constructor
      · rintro hno ⟨p, a, d, s, h, ha, hd⟩
        cases p with
        | nil =>
          simp only [List.nil_append, List.cons.injEq] at h
          obtain ⟨rfl, rfl⟩ := h
          apply hc
          simp [ha, hd]
        | cons x p' =>
          simp only [List.cons_append, List.cons.injEq] at h
          exact hno ⟨p', a, d, s, h.2, ha, hd⟩
      · rintro hno ⟨p, a, d, s, h, ha, hd⟩
        exact hno ⟨c :: p, a, d, s, by simp [h], ha, hd⟩

theorem findPDUMatch_some (l m : List Char) (h : findPDUMatch l = some m) :
    ∃ (pre : List Char) (letter : Char) (digits rest : List Char),
      l = pre ++ letter :: digits ++ rest ∧ isABC letter = true ∧ digits ≠ [] ∧
      (∀ d ∈ digits, isDigitChar d = true) ∧
      (∀ r, rest.head? = some r → isDigitChar r = false) ∧
      ¬ OccursIn (pre ++ [letter]) ∧ m = letter :: digits := by
  induction l with
  | nil => simp [findPDUMatch] at h
  | cons c cs ih =>
    simp only [findPDUMatch] at h
    by_cases hc : (isABC c && (cs.head?.map isDigitChar).getD false) = true
    · rw [if_pos hc, Option.some.injEq] at h
      simp only [Bool.and_eq_true] at hc
      refine ⟨[], c, cs.takeWhile isDigitChar, cs.dropWhile isDigitChar, ?_, hc.1, ?_, ?_, ?_,
        ?_, h.symm⟩
      · simp [List.takeWhile_append_dropWhile]
      · cases cs with
        | nil => simp at hc
        | cons d s =>
          have hd : isDigitChar d = true := by simpa using hc.2
          simp [List.takeWhile, hd]
      · intro d hd
        exact (List.mem_takeWhile_imp hd)
      · intro r hr
        cases hdw : cs.dropWhile isDigitChar with
        | nil => rw [hdw] at hr; simp at hr
        | cons a t =>
          rw [hdw] at hr
          simp only [List.head?_cons, Option.some.injEq] at hr
          subst hr
          exact PduProcessor.dropWhile_head_false isDigitChar cs a t hdw
      · simpa using not_occursIn_singleton c
    · rw [if_neg hc] at h
      obtain ⟨pre, letter, digits, rest, hl, ha, hne, hdig, hrest, hno, hm⟩ := ih h
      refine ⟨c :: pre, letter, digits, rest, by simp [hl], ha, hne, hdig, hrest, ?_, hm⟩
      rintro ⟨p, a, d, s, heq, haa, hd⟩
      cases p with
      | nil =>
        simp only [List.nil_append, List.cons_append, List.cons.injEq] at heq
        obtain ⟨rfl, heq2⟩ := heq
        apply hc
        have hhead : cs.head? = some d := by
          rw [hl]
          cases pre with
          | nil =>
            simp only [List.nil_append, List.cons.injEq] at heq2
            simp [heq2.1]
          | cons x pre' =>
            simp only [List.cons_append, List.cons.injEq] at heq2
            simp [heq2.1]
        simp [haa, hhead, hd]
      | cons x p' =>
        simp only [List.cons_append, List.cons.injEq] at heq
        exact hno ⟨p', a, d, s, heq.2, haa, hd⟩

end Report

namespace Report

/-- C20: for every file name, `ExtractPDUNameFromFilename` returns the upper-cased
leftmost occurrence, in the base name with its extension removed, of a letter among
a, b, c (either case) followed by a maximal run of one or more digits; it fails, with
the extraction error, if and only if that stem contains no letter among a, b, c
directly followed by a digit; `total_a1.csv` gives `A1`. -/
theorem extractPDUName_spec (filename : String) :
    (∀ name, ExtractPDUNameFromFilename filename = .ok name →
      ∃ (pre : List Char) (letter : Char) (digits rest : List Char),
        (stemOf filename).data = pre ++ letter :: digits ++ rest ∧
        isABC letter = true ∧ digits ≠ [] ∧ (∀ d ∈ digits, isDigitChar d = true) ∧
        (∀ r, rest.head? = some r → isDigitChar r = false) ∧
        ¬ OccursIn (pre ++ [letter]) ∧ name = ToUpper ⟨letter :: digits⟩) ∧
    ((∃ e, ExtractPDUNameFromFilename filename = .error e) ↔
      ¬ OccursIn (stemOf filename).data) ∧
    (∀ e, ExtractPDUNameFromFilename filename = .error e → e = .extractFailed filename) ∧
    ExtractPDUNameFromFilename "total_a1.csv" = .ok "A1" := by
  have hdef : ExtractPDUNameFromFilename filename =
      match findPDUMatch (stemOf filename).data with
      | none => .error (.extractFailed filename)
      | some m => .ok (ToUpper ⟨m⟩) := rfl
  refine ⟨?_, ?_, ?_, by decide⟩
  · intro name h
    rw [hdef] at h
    cases hm : findPDUMatch (stemOf filename).data with
    | none => rw [hm] at h; simp at h
    | some m =>
      rw [hm] at h
      simp only [Except.ok.injEq] at h
      obtain ⟨pre, letter, digits, rest, h1, h2, h3, h4, h5, h6, h7⟩ :=
        findPDUMatch_some _ _ hm
      exact ⟨pre, letter, digits, rest, h1, h2, h3, h4, h5, h6, by rw [← h, h7]⟩
  · rw [hdef, ← findPDUMatch_eq_none_iff]
    cases hm : findPDUMatch (stemOf filename).data with
    | none => simp
    | some m => simp
  · intro e h
    rw [hdef] at h
    cases hm : findPDUMatch (stemOf filename).data with
    | none =>
      rw [hm] at h
      simp only [Except.error.injEq] at h
      exact h.symm
    | some m => rw [hm] at h; simp at h

/-- Witness of C20: a path with a directory, a stem with two candidates and an
extension. -/
theorem extractPDUName_spec_witness :
    ExtractPDUNameFromFilename "/data/total_b12c3.csv" = .ok "B12" ∧
    ∃ (pre : List Char) (letter : Char) (digits rest : List Char),
      (stemOf "/data/total_b12c3.csv").data = pre ++ letter :: digits ++ rest ∧
      isABC letter = true ∧ digits ≠ [] ∧ (∀ d ∈ digits, isDigitChar d = true) ∧
      (∀ r, rest.head? = some r → isDigitChar r = false) ∧
      ¬ OccursIn (pre ++ [letter]) ∧ "B12" = ToUpper ⟨letter :: digits⟩ :=
  ⟨by decide, (extractPDUName_spec "/data/total_b12c3.csv").1 "B12" (by decide)⟩

/-- The occurrence is sought in the stem: an extension that holds the only candidate
makes the extraction fail. -/
theorem extractPDUName_extension_only :
    ExtractPDUNameFromFilename "report.a1" = .error (.extractFailed "report.a1") := by
  decide

/-! ## Loading the grid -/

theorem padRow_length (row : List Cell) : (padRow row).length = max row.length 15 := by
  simp only [padRow, List.length_append, List.length_replicate]
  omega

theorem padRow_getElem? (row : List Cell) (j : Nat) :
    (padRow row)[j]? =
      if j < row.length then row[j]? else if j < 15 then some Cell.empty else none := by
  simp only [padRow]
  by_cases h : j < row.length
  · rw [List.getElem?_append_left h, if_pos h]
  · rw [List.getElem?_append_right (not_lt.mp h), if_neg h]
    by_cases h2 : j < 15
    · rw [if_pos h2, List.getElem?_replicate]
      have : j - row.length < 15 - row.length := by omega
      simp [this]
    · rw [if_neg h2, List.getElem?_replicate]
      have : ¬ j - row.length < 15 - row.length := by omega
      simp [this]

/-- C14: for every list of text rows given to the loader, the grid has the same number
of rows; row `i` has length `max (len (source row i)) 15`; a cell within the source row
is empty when the source string is empty, numeric with the parsed value when the string
parses as a number and a text with the unchanged string otherwise; every added cell is
empty; hence every row of a loaded grid has at least 15 columns. -/
theorem convertRows_spec (parseFloat : String → Option ℚ) (rows : List (List String)) :
    (convertRows parseFloat rows).length = rows.length ∧
    (∀ (i : Nat) (src : List String), rows[i]? = some src →
      ∃ row, (convertRows parseFloat rows)[i]? = some row ∧
        row.length = max src.length 15 ∧
        (∀ (j : Nat) (s : String), src[j]? = some s →
          row[j]? = some (if s = "" then Cell.empty
            else match parseFloat s with
              | some v => Cell.num v
              | none => Cell.text s)) ∧
        (∀ j, src.length ≤ j → j < row.length → row[j]? = some Cell.empty)) ∧
    (∀ row ∈ convertRows parseFloat rows, 15 ≤ row.length) ∧
    (∀ (fs : FileSystem) (fmt : FloatFormat) (mf : MonthlyFiller) (filename : String)
      (preserveExisting : Bool) (outputFile : String),
      loadRows fs filename preserveExisting outputFile = .ok rows →
      (LoadMonthlyTemplate fs parseFloat fmt mf filename preserveExisting
        outputFile).2.monthlyData = convertRows parseFloat rows) := by
  refine ⟨by simp [convertRows], ?_, ?_, ?_⟩
  rotate_left 2
  · intro fs fmt mf filename preserveExisting outputFile h
    simp [LoadMonthlyTemplate, h, identifyPDUSections]
  · intro i src hsrc
    refine ⟨padRow (src.map (convertCell parseFloat)), ?_, ?_, ?_, ?_⟩
    · simp [convertRows, hsrc]
    · simp [padRow_length]
    · intro j s hs
      have hj : j < src.length := by
        by_contra hcon
        rw [List.getElem?_eq_none (not_lt.mp hcon)] at hs
        exact Option.noConfusion hs
      rw [padRow_getElem?]
      simp only [List.length_map, hj, if_true, List.getElem?_map, hs, Option.map_some',
        convertCell]
      by_cases he : s = ""
      · simp [he]
      · simp [he]
    · intro j hj1 hj2
      rw [padRow_length, List.length_map] at hj2
      rw [padRow_getElem?]
      have h1 : ¬ j < (src.map (convertCell parseFloat)).length := by simp; omega
      have h2 : j < 15 := by omega
      rw [if_neg h1, if_pos h2]
  · intro row hrow
    simp only [convertRows, List.mem_map] at hrow
    obtain ⟨src, _, rfl⟩ := hrow
    rw [padRow_length]
    omega

end Report

namespace Report

open PduProcessor

/-- Witness of C14: a row of three source cells from the template workbook. -/
theorem convertRows_spec_witness :
    [["PDU A1", "", "x1"]][0]? = some ["PDU A1", "", "x1"] ∧
    ∃ row, (convertRows parseDecimal [["PDU A1", "", "x1"]])[0]? = some row ∧
      row.length = max ["PDU A1", "", "x1"].length 15 ∧
      (∀ (j : Nat) (s : String), ["PDU A1", "", "x1"][j]? = some s →
        row[j]? = some (if s = "" then Cell.empty
          else match parseDecimal s with
            | some v => Cell.num v
            | none => Cell.text s)) ∧
      (∀ j, ["PDU A1", "", "x1"].length ≤ j → j < row.length → row[j]? = some Cell.empty) :=
  ⟨rfl, (convertRows_spec parseDecimal [["PDU A1", "", "x1"]]).2.1 0 ["PDU A1", "", "x1"] rfl⟩

/-- Counterexample to C15: the template workbook has one sheet with zero rows, and
`LoadMonthlyTemplate` returns no error; the grid is empty and no section is found. -/
theorem load_template_without_rows_succeeds :
    loadExcelFile (templateFS []) "monthlyjune2025.xlsx" = .ok [] ∧
    LoadMonthlyTemplate (templateFS []) parseDecimal FloatFormat.fixed3 NewMonthlyFiller
      "monthlyjune2025.xlsx" false "filled_monthly_report.csv" =
      (none, NewMonthlyFiller) := by
  decide

theorem loadExcelFile_error_iff (fs : FileSystem) (filename : String) :
    (∃ err, loadExcelFile fs filename = .error err) ↔
      (∃ err, fs.excel filename = .error err) ∨ fs.excel filename = .ok [] ∨
      (∃ err rest, fs.excel filename = .ok (.error err :: rest)) := by
  unfold loadExcelFile
  cases h : fs.excel filename with
  | error err => simp
  | ok sheets =>
    cases sheets with
    | nil => simp
    | cons first rest =>
      cases first with
      | error err => simp
      | ok rows => simp

/-- C15 as amended: `LoadMonthlyTemplate` fails with a load error exactly when the
source it reads cannot be read: the CSV reader fails, or the workbook cannot be opened,
has no sheets, or the rows of its first sheet cannot be read. The filler is then
unchanged. A source that is read with zero rows is loaded without error, as an empty
grid with no section. -/
theorem loadMonthlyTemplate_fails_iff (fs : FileSystem) (parseFloat : String → Option ℚ)
    (fmt : FloatFormat) (mf : MonthlyFiller) (filename : String) (preserveExisting : Bool)
    (outputFile : String) :
    ((LoadMonthlyTemplate fs parseFloat fmt mf filename preserveExisting outputFile).1 ≠ none
      ↔ ∃ e, loadRows fs filename preserveExisting outputFile = .error e) ∧
    (∀ e, loadRows fs filename preserveExisting outputFile = .error e →
      LoadMonthlyTemplate fs parseFloat fmt mf filename preserveExisting outputFile =
        (some e, mf)) ∧
    ((∃ e, loadRows fs filename preserveExisting outputFile = .error e) ↔
      if HasSuffix (ToLower (targetFile fs filename preserveExisting outputFile)) ".csv" then
        ∃ err, fs.csv (targetFile fs filename preserveExisting outputFile) = .error err
      else
        (∃ err, fs.excel (targetFile fs filename preserveExisting outputFile) = .error err) ∨
        fs.excel (targetFile fs filename preserveExisting outputFile) = .ok [] ∨
        (∃ err rest, fs.excel (targetFile fs filename preserveExisting outputFile) =
          .ok (.error err :: rest))) ∧
    (loadRows fs filename preserveExisting outputFile = .ok [] →
      LoadMonthlyTemplate fs parseFloat fmt mf filename preserveExisting outputFile =
        (none, { mf with monthlyData := [], pduSections := [] })) := by
  refine ⟨?_, ?_, ?_, ?_⟩
  · unfold LoadMonthlyTemplate
    cases h : loadRows fs filename preserveExisting outputFile with
    | error e => simp
    | ok rows => simp
  · intro e h
    simp [LoadMonthlyTemplate, h]
  · unfold loadRows
    by_cases hs : HasSuffix (ToLower (targetFile fs filename preserveExisting outputFile))
        ".csv" = true
    · simp only [hs, if_true, loadCSVFile]
      cases h : fs.csv (targetFile fs filename preserveExisting outputFile) with
      | error err => simp
      | ok rows => simp
    · simp only [hs, if_false]
      rw [← loadExcelFile_error_iff]
      cases h : loadExcelFile fs (targetFile fs filename preserveExisting outputFile) with
      | error err => simp
      | ok rows => simp
  · intro h
    simp [LoadMonthlyTemplate, h, identifyPDUSections, convertRows, identifyFrom]

/-- Witness of C15 as amended: the template workbook is read with zero rows. -/
theorem loadMonthlyTemplate_fails_iff_witness :
    loadRows (templateFS []) "monthlyjune2025.xlsx" false "out.csv" = .ok [] ∧
    LoadMonthlyTemplate (templateFS []) parseDecimal FloatFormat.fixed3 NewMonthlyFiller
      "monthlyjune2025.xlsx" false "out.csv" =
      (none, { NewMonthlyFiller with monthlyData := [], pduSections := [] }) :=
  ⟨by decide,
    (loadMonthlyTemplate_fails_iff (templateFS []) parseDecimal FloatFormat.fixed3
      NewMonthlyFiller "monthlyjune2025.xlsx" false "out.csv").2.2.2 (by decide)⟩

end Report

namespace Report

/-! ## Locating the sections -/

theorem hasPrefix_PDU_iff (s : String) :
    HasPrefix s "PDU " = true ↔ ∃ rest, s.data = 'P' :: 'D' :: 'U' :: ' ' :: rest := by
  have hd : ("PDU " : String).data = ['P', 'D', 'U', ' '] := rfl
  simp only [HasPrefix, hd, List.isPrefixOf_iff_prefix]
  constructor
  · rintro ⟨t, ht⟩
    exact ⟨t, ht.symm⟩
  · rintro ⟨t, ht⟩
    exact ⟨t, ht.symm⟩

theorem markerName_text (s : String) (r : List Cell) :
    markerName (Cell.text s :: r) =
      if HasPrefix s "PDU " = true then some (TrimPrefix s "PDU ") else none := by
  have hd : ("PDU " : String).data = ['P', 'D', 'U', ' '] := rfl
  by_cases h : HasPrefix s "PDU " = true
  · obtain ⟨rest, hrest⟩ := (hasPrefix_PDU_iff s).mp h
    simp [markerName, hrest, h, TrimPrefix, hd]
  · rw [if_neg h]
    simp only [markerName]
    split
    · rename_i rest hrest
      exact absurd ((hasPrefix_PDU_iff s).mpr ⟨rest, hrest⟩) h
    · rfl

theorem hasPrefix_render (fmt : FloatFormat) (v : ℚ) :
    HasPrefix (fmt.render v) "PDU " = false := by
  cases h : HasPrefix (fmt.render v) "PDU " with
  | false => rfl
  | true =>
    obtain ⟨rest, hrest⟩ := (hasPrefix_PDU_iff _).mp h
    have := fmt.no_upper_p v
    rw [hrest] at this
    simp at this

theorem identifyFrom_cons (fmt : FloatFormat) (i : Nat) (row : List Cell)
    (rest : List (List Cell)) :
    identifyFrom fmt i (row :: rest) =
      ((markerName row).map (sectionAt i)).toList ++ identifyFrom fmt (i + 1) rest := by
  cases row with
  | nil => simp [identifyFrom, markerName]
  | cons c r =>
    cases c with
    | empty => simp [identifyFrom, markerName]
    | num v => simp [identifyFrom, markerName, cellString, hasPrefix_render]
    | text s =>
      rw [markerName_text]
      by_cases h : HasPrefix s "PDU " = true
      · simp [identifyFrom, cellString, h, sectionAt]
      · simp [identifyFrom, cellString, h]

theorem identifyFrom_eq (fmt : FloatFormat) (grid : List (List Cell)) (i : Nat) :
    identifyFrom fmt i grid =
      (grid.enumFrom i).filterMap (fun p => (markerName p.2).map (sectionAt p.1)) := by
  induction grid generalizing i with
  | nil => simp [identifyFrom]
  | cons row rest ih =>
    rw [identifyFrom_cons, ih (i + 1)]
    cases h : markerName row with
    | none => simp [List.enumFrom, List.filterMap_cons, h]
    | some name => simp [List.enumFrom, List.filterMap_cons, h]

/-- C11: for every report grid, `identifyPDUSections` records exactly one section per
row whose column-0 cell is a text starting with the case-sensitive prefix `PDU `, in
increasing row order; the section for a marker in row `i` has the text after the prefix
as `Name`, `HeaderRow = i`, `StartRow = i + 1` and `EndRow = i + 18`, whether or not
those rows exist in the grid: a marker at row 5 of a grid of 6 rows gives
`StartRow = 6` and `EndRow = 23`. -/
theorem identifyPDUSections_spec (fmt : FloatFormat) (mf : MonthlyFiller) :
    (identifyPDUSections fmt mf).pduSections =
      mf.monthlyData.enum.filterMap (fun p =>
        (markerName p.2).map (fun name =>
          { Name := name, HeaderRow := p.1, StartRow := p.1 + 1, EndRow := p.1 + 18 })) ∧
    (identifyPDUSections fmt mf).monthlyData = mf.monthlyData ∧
    (identifyPDUSections fmt
      { mf with monthlyData := List.replicate 5 [Cell.empty] ++ [[Cell.text "PDU A1"]] }
      ).pduSections = [{ Name := "A1", HeaderRow := 5, StartRow := 6, EndRow := 23 }] := by
  refine ⟨?_, rfl, ?_⟩
  · simp only [identifyPDUSections, identifyFrom_eq, List.enum]
    rfl
  · simp only [identifyPDUSections, identifyFrom_eq]
    decide

end Report

namespace Report

theorem markerName_eq_some_iff (row : List Cell) (name : String) :
    markerName row = some name ↔ row.head? = some (Cell.text ("PDU " ++ name)) := by
  have hd : ∀ n : String, ("PDU " ++ n).data = 'P' :: 'D' :: 'U' :: ' ' :: n.data := by
    intro n
    rw [String.data_append]
    rfl
  cases row with
  | nil => simp [markerName]
  | cons c r =>
    cases c with
    | empty => simp [markerName]
    | num v => simp [markerName]
    | text s =>
      simp only [List.head?_cons, Option.some.injEq, Cell.text.injEq]
      constructor
      · intro h
        simp only [markerName] at h
        split at h
        · rename_i rest hrest
          simp only [Option.some.injEq] at h
          apply String.ext
          rw [hd, hrest, ← h]
        · exact Option.noConfusion h
      · intro h
        subst h
        simp [markerName, hd]

theorem find_identifyFrom (fmt : FloatFormat) (pduName : String) (grid : List (List Cell))
    (i : Nat) :
    (identifyFrom fmt i grid).find? (fun s => decide (s.Name = pduName)) =
      ((grid.enumFrom i).find? (fun p =>
        decide (p.2.head? = some (Cell.text ("PDU " ++ pduName))))).map
        (fun p => sectionAt p.1 pduName) := by
  induction grid generalizing i with
  | nil => simp [identifyFrom]
  | cons row rest ih =>
    rw [identifyFrom_cons, List.enumFrom, List.find?_cons]
    by_cases hrow : row.head? = some (Cell.text ("PDU " ++ pduName))
    · have hm := (markerName_eq_some_iff row pduName).mpr hrow
      simp [hm, hrow, sectionAt]
    · have hdec : decide (row.head? = some (Cell.text ("PDU " ++ pduName))) = false := by
        simp [hrow]
      simp only [hdec]
      cases hm : markerName row with
      | none => simpa using ih (i + 1)
      | some name =>
        have hne : name ≠ pduName := by
          rintro rfl
          exact hrow ((markerName_eq_some_iff row name).mp hm)
        simpa [sectionAt, hne] using ih (i + 1)

/-- C13: for every grid whose sections were identified, and so for every loaded grid,
and every device name, `FindPDUSection` succeeds if and only if some row's column-0 cell
is exactly the text `PDU ` followed by that name; it then returns the section of the
first such row in row order, and otherwise fails with the section-not-found error. -/
theorem findPDUSection_spec (fmt : FloatFormat) (mf : MonthlyFiller) (pduName : String) :
    FindPDUSection (identifyPDUSections fmt mf) pduName =
      (match mf.monthlyData.enum.find? (fun p =>
          decide (p.2.head? = some (Cell.text ("PDU " ++ pduName)))) with
      | some p =>
        .ok { Name := pduName, HeaderRow := p.1, StartRow := p.1 + 1, EndRow := p.1 + 18 }
      | none => .error (.sectionNotFound pduName)) ∧
    (∀ (fs : FileSystem) (parseFloat : String → Option ℚ) (filename : String)
      (preserveExisting : Bool) (outputFile : String),
      (LoadMonthlyTemplate fs parseFloat fmt mf filename preserveExisting outputFile).1
        = none →
      FindPDUSection
        (LoadMonthlyTemplate fs parseFloat fmt mf filename preserveExisting outputFile).2
        pduName =
      (match (LoadMonthlyTemplate fs parseFloat fmt mf filename preserveExisting
          outputFile).2.monthlyData.enum.find? (fun p =>
          decide (p.2.head? = some (Cell.text ("PDU " ++ pduName)))) with
      | some p =>
        .ok { Name := pduName, HeaderRow := p.1, StartRow := p.1 + 1, EndRow := p.1 + 18 }
      | none => .error (.sectionNotFound pduName))) := by
  have key : ∀ m : MonthlyFiller, FindPDUSection (identifyPDUSections fmt m) pduName =
      (match m.monthlyData.enum.find? (fun p =>
          decide (p.2.head? = some (Cell.text ("PDU " ++ pduName)))) with
      | some p =>
        .ok { Name := pduName, HeaderRow := p.1, StartRow := p.1 + 1, EndRow := p.1 + 18 }
      | none => .error (.sectionNotFound pduName)) := by
    intro m
    simp only [FindPDUSection, identifyPDUSections, find_identifyFrom, List.enum]
    cases (List.enumFrom 0 m.monthlyData).find? (fun p =>
        decide (p.2.head? = some (Cell.text ("PDU " ++ pduName)))) with
    | none => rfl
    | some p => rfl
  refine ⟨key mf, ?_⟩
  intro fs parseFloat filename preserveExisting outputFile hok
  unfold LoadMonthlyTemplate at hok ⊢
  cases h : loadRows fs filename preserveExisting outputFile with
  | error e => rw [h] at hok; simp at hok
  | ok rows =>
    simp only []
    exact key _

end Report

namespace Report

open PduProcessor

/-- Witness of C13: the marker of `A1` is in row 1 of the loaded template. -/
theorem findPDUSection_spec_witness :
    (LoadMonthlyTemplate (templateFS [["Rack"], ["PDU A1"], ["Q1"]]) parseDecimal
      FloatFormat.fixed3 NewMonthlyFiller "monthlyjune2025.xlsx" false "out.csv").1 = none ∧
    FindPDUSection
      (LoadMonthlyTemplate (templateFS [["Rack"], ["PDU A1"], ["Q1"]]) parseDecimal
        FloatFormat.fixed3 NewMonthlyFiller "monthlyjune2025.xlsx" false "out.csv").2 "A1" =
      .ok { Name := "A1", HeaderRow := 1, StartRow := 2, EndRow := 19 } :=
  ⟨by decide,
    ((findPDUSection_spec FloatFormat.fixed3 NewMonthlyFiller "A1").2
      (templateFS [["Rack"], ["PDU A1"], ["Q1"]]) parseDecimal "monthlyjune2025.xlsx" false
      "out.csv" (by decide)).trans (by decide)⟩

/-- Counterexample to C12: the loaded template has markers in rows 0 and 1; the two
sections found cover the rows 0..18 and 1..19, which overlap. -/
theorem adjacent_markers_overlap :
    (LoadMonthlyTemplate (templateFS [["PDU A1"], ["PDU A2"]]) parseDecimal
      FloatFormat.fixed3 NewMonthlyFiller "monthlyjune2025.xlsx" false
      "out.csv").2.pduSections =
      [{ Name := "A1", HeaderRow := 0, StartRow := 1, EndRow := 18 },
        { Name := "A2", HeaderRow := 1, StartRow := 2, EndRow := 19 }] ∧
    ¬ (LoadMonthlyTemplate (templateFS [["PDU A1"], ["PDU A2"]]) parseDecimal
      FloatFormat.fixed3 NewMonthlyFiller "monthlyjune2025.xlsx" false
      "out.csv").2.pduSections.Pairwise SectionsDisjoint := by
  decide

theorem mem_identifyFrom (fmt : FloatFormat) (grid : List (List Cell)) (i : Nat)
    (t : PDUSection) (ht : t ∈ identifyFrom fmt i grid) :
    ∃ (b : Nat) (r : List Cell), grid[b]? = some r ∧ (markerName r).isSome = true ∧
      t.HeaderRow = i + b ∧ t.EndRow = i + b + 18 := by
  induction grid generalizing i with
  | nil => simp [identifyFrom] at ht
  | cons row rest ih =>
    rw [identifyFrom_cons, List.mem_append] at ht
    rcases ht with ht | ht
    · cases hm : markerName row with
      | none => rw [hm] at ht; simp at ht
      | some name =>
        rw [hm] at ht
        simp only [Option.map_some', Option.toList_some, List.mem_singleton] at ht
        exact ⟨0, row, by simp, by simp [hm], by simp [ht, sectionAt], by simp [ht, sectionAt]⟩
    · obtain ⟨b, r, h1, h2, h3, h4⟩ := ih (i + 1) ht
      exact ⟨b + 1, r, by simpa using h1, h2, by omega, by omega⟩

theorem pairwise_identifyFrom (fmt : FloatFormat) (grid : List (List Cell)) (i : Nat)
    (hfar : ∀ (a b : Nat) (ra rb : List Cell), a < b → grid[a]? = some ra →
      grid[b]? = some rb → (markerName ra).isSome = true → (markerName rb).isSome = true →
      a + 19 ≤ b) :
    (identifyFrom fmt i grid).Pairwise (fun s t => s.EndRow < t.HeaderRow) := by
  induction grid generalizing i with
  | nil => simp [identifyFrom]
  | cons row rest ih =>
    have hrest := ih (i + 1) (fun a b ra rb hab ha hb hma hmb => by
      have := hfar (a + 1) (b + 1) ra rb (by omega) (by simpa using ha) (by simpa using hb)
        hma hmb
      omega)
    rw [identifyFrom_cons]
    cases hm : markerName row with
    | none => simpa using hrest
    | some name =>
      simp only [Option.map_some', Option.toList_some, List.singleton_append,
        List.pairwise_cons]
      refine ⟨?_, hrest⟩
      intro t ht
      obtain ⟨b, r, h1, h2, h3, _⟩ := mem_identifyFrom fmt rest (i + 1) t ht
      have := hfar 0 (b + 1) row r (by omega) (by simp) (by simpa using h1) (by simp [hm]) h2
      simp only [sectionAt]
      omega

/-- C12 as amended: for every grid, and so for every loaded grid, in which any two
marker rows lie at least 19 rows apart (each marker is followed by its 18 data rows
before the next marker), the sections found by `identifyPDUSections` are pairwise
non-overlapping: of two sections, the earlier one ends before the header row of the
later one, so the row ranges `HeaderRow..EndRow` share no row. -/
theorem sections_disjoint_of_markers_apart (fmt : FloatFormat) (mf : MonthlyFiller)
    (hfar : ∀ (a b : Nat) (ra rb : List Cell), a < b → mf.monthlyData[a]? = some ra →
      mf.monthlyData[b]? = some rb → (markerName ra).isSome = true →
      (markerName rb).isSome = true → a + 19 ≤ b) :
    (identifyPDUSections fmt mf).pduSections.Pairwise (fun s t => s.EndRow < t.HeaderRow) ∧
    (identifyPDUSections fmt mf).pduSections.Pairwise SectionsDisjoint := by
  have h := pairwise_identifyFrom fmt mf.monthlyData 0 hfar
  refine ⟨h, ?_⟩
  exact List.Pairwise.imp (fun hst => Or.inl hst) h

end Report

namespace Report

open PduProcessor

/-! ## Filling a section -/

theorem minValue_eq (a b c : ℚ) : minValue a b c = min (min a b) c := by
  simp only [minValue, min_def]
  split_ifs <;> linarith

theorem maxValue_eq (a b c : ℚ) : maxValue a b c = max (max a b) c := by
  simp only [maxValue, max_def]
  split_ifs <;> linarith

theorem writeStats_spec (row : List Cell) (st : RackStats) (hlen : 15 ≤ row.length) :
    ∃ row', writeStats row st = some row' ∧ row'.length = row.length ∧
      ∀ j, row'[j]? = match filledCell st j with
        | some c => some c
        | none => row[j]? := by
  have c3 : columnFor "L1Min" = 3 := by decide
  have c4 : columnFor "L1Avg" = 4 := by decide
  have c5 : columnFor "L1Max" = 5 := by decide
  have c6 : columnFor "L2Min" = 6 := by decide
  have c7 : columnFor "L2Avg" = 7 := by decide
  have c8 : columnFor "L2Max" = 8 := by decide
  have c9 : columnFor "L3Min" = 9 := by decide
  have c10 : columnFor "L3Avg" = 10 := by decide
  have c11 : columnFor "L3Max" = 11 := by decide
  have c12 : columnFor "SummaryMin" = 12 := by decide
  have c13 : columnFor "SummaryAvg" = 13 := by decide
  have c14 : columnFor "SummaryMax" = 14 := by decide
  have h3 : 3 < row.length := by omega
  have h4 : 4 < row.length := by omega
  have h5 : 5 < row.length := by omega
  have h6 : 6 < row.length := by omega
  have h7 : 7 < row.length := by omega
  have h8 : 8 < row.length := by omega
  have h9 : 9 < row.length := by omega
  have h10 : 10 < row.length := by omega
  have h11 : 11 < row.length := by omega
  have h12 : 12 < row.length := by omega
  have h13 : 13 < row.length := by omega
  have h14 : 14 < row.length := by omega
  have hw : writeStats row st = some
      ((((((((((((row.set 3 (.num st.l1Min)).set 4 (.num st.l1Avg)).set 5 (.num st.l1Max)).set 6
        (.num st.l2Min)).set 7 (.num st.l2Avg)).set 8 (.num st.l2Max)).set 9
        (.num st.l3Min)).set 10 (.num st.l3Avg)).set 11 (.num st.l3Max)).set 12
        (.num (minValue st.l1Min st.l2Min st.l3Min))).set 13
        (.num ((st.l1Avg + st.l2Avg + st.l3Avg) / 3))).set 14
        (.num (maxValue st.l1Max st.l2Max st.l3Max))) := by
    simp only [writeStats, setCell, c3, c4, c5, c6, c7, c8, c9, c10, c11, c12, c13, c14,
      List.length_set, h3, h4, h5, h6, h7, h8, h9, h10, h11, h12, h13, h14, if_true,
      Option.some_bind]
  refine ⟨_, hw, ?_, ?_⟩
  · simp only [List.length_set]
  · intro j
    have hcases : j = 3 ∨ j = 4 ∨ j = 5 ∨ j = 6 ∨ j = 7 ∨ j = 8 ∨ j = 9 ∨ j = 10 ∨ j = 11 ∨
        j = 12 ∨ j = 13 ∨ j = 14 ∨ (j < 3 ∨ 14 < j) := by omega
    rcases hcases with rfl | rfl | rfl | rfl | rfl | rfl | rfl | rfl | rfl | rfl | rfl | rfl |
      hout
    · simp [List.getElem?_set, filledCell, h3]
    · simp [List.getElem?_set, filledCell, h4]
    · simp [List.getElem?_set, filledCell, h5]
    · simp [List.getElem?_set, filledCell, h6]
    · simp [List.getElem?_set, filledCell, h7]
    · simp [List.getElem?_set, filledCell, h8]
    · simp [List.getElem?_set, filledCell, h9]
    · simp [List.getElem?_set, filledCell, h10]
    · simp [List.getElem?_set, filledCell, h11]
    · simp [List.getElem?_set, filledCell, h12, minValue_eq]
    · simp [List.getElem?_set, filledCell, h13]
    · simp [List.getElem?_set, filledCell, h14, maxValue_eq]
    · have e3 : ¬ 3 = j := by omega
      have e4 : ¬ 4 = j := by omega
      have e5 : ¬ 5 = j := by omega
      have e6 : ¬ 6 = j := by omega
      have e7 : ¬ 7 = j := by omega
      have e8 : ¬ 8 = j := by omega
      have e9 : ¬ 9 = j := by omega
      have e10 : ¬ 10 = j := by omega
      have e11 : ¬ 11 = j := by omega
      have e12 : ¬ 12 = j := by omega
      have e13 : ¬ 13 = j := by omega
      have e14 : ¬ 14 = j := by omega
      have f3 : ¬ j = 3 := by omega
      have f4 : ¬ j = 4 := by omega
      have f5 : ¬ j = 5 := by omega
      have f6 : ¬ j = 6 := by omega
      have f7 : ¬ j = 7 := by omega
      have f8 : ¬ j = 8 := by omega
      have f9 : ¬ j = 9 := by omega
      have f10 : ¬ j = 10 := by omega
      have f11 : ¬ j = 11 := by omega
      have f12 : ¬ j = 12 := by omega
      have f13 : ¬ j = 13 := by omega
      have f14 : ¬ j = 14 := by omega
      simp only [List.getElem?_set, filledCell, e3, e4, e5, e6, e7, e8, e9, e10, e11, e12,
        e13, e14, f3, f4, f5, f6, f7, f8, f9, f10, f11, f12, f13, f14, if_false]


theorem padRow_of_length (row : List Cell) (h : 15 ≤ row.length) : padRow row = row := by
  have h0 : 15 - row.length = 0 := by omega
  simp [padRow, h0]

theorem fillRow_spec (pd : PDUData) (q : Nat) (row row' : List Cell)
    (h : fillRow pd q row = some row') :
    ∃ st, readStats pd q = some st ∧ row'.length = max row.length 15 ∧
      ∀ j, row'[j]? = match filledCell st j with
        | some c => some c
        | none => (padRow row)[j]? := by
  unfold fillRow at h
  cases hr : readStats pd q with
  | none => rw [hr] at h; exact Option.noConfusion h
  | some st =>
    rw [hr] at h
    simp only [] at h
    have hlen : 15 ≤ (padRow row).length := by rw [padRow_length]; omega
    obtain ⟨w, hw, hwl, hwj⟩ := writeStats_spec (padRow row) st hlen
    rw [hw, Option.some.injEq] at h
    subst h
    exact ⟨st, rfl, by rw [hwl, padRow_length], hwj⟩

theorem fillRow_of_readStats (pd : PDUData) (q : Nat) (row : List Cell) (st : RackStats)
    (hr : readStats pd q = some st) : ∃ row', fillRow pd q row = some row' := by
  have hlen : 15 ≤ (padRow row).length := by rw [padRow_length]; omega
  obtain ⟨w, hw, _, _⟩ := writeStats_spec (padRow row) st hlen
  exact ⟨w, by simp [fillRow, hr, hw]⟩

theorem fillRow_idem (pd : PDUData) (q : Nat) (row row' : List Cell)
    (h : fillRow pd q row = some row') : fillRow pd q row' = some row' := by
  obtain ⟨st, hr, hl, hj⟩ := fillRow_spec pd q row row' h
  have hl15 : 15 ≤ row'.length := by rw [hl]; omega
  obtain ⟨w, hw⟩ := fillRow_of_readStats pd q row' st hr
  obtain ⟨st2, hr2, _, hj2⟩ := fillRow_spec pd q row' w hw
  have hst : st2 = st := by
    rw [hr] at hr2
    exact (Option.some.inj hr2).symm
  subst hst
  have hww : w = row' := by
    apply List.ext_getElem?
    intro j
    rw [hj2 j, padRow_of_length row' hl15, hj j]
    cases filledCell st2 j with
    | none => rfl
    | some c => rfl
  rw [hw, hww]

end Report

namespace Report

open PduProcessor

theorem fillLoop_spec (pd : PDUData) (start : Nat) (n : Nat) :
    ∀ (q : Nat) (grid : List (List Cell)) (o : Outcome) (grid' : List (List Cell)),
      fillLoop pd start n q grid = (o, grid') → o ≠ Outcome.panicked →
      grid'.length = grid.length ∧
      (∀ r, grid'[r]? =
        if start + q ≤ r ∧ r < start + q + n then (grid[r]?).bind (fillRow pd (r - start))
        else grid[r]?) ∧
      o = if n = 0 ∨ start + q + n ≤ grid.length then Outcome.ok
        else Outcome.failed (.rowIndexExceeds (max (start + q) grid.length)) := by
  induction n with
  | zero =>
    intro q grid o grid' h _
    simp only [fillLoop, Prod.mk.injEq] at h
    obtain ⟨rfl, rfl⟩ := h
    refine ⟨rfl, ?_, by simp⟩
    intro r
    have : ¬ (start + q ≤ r ∧ r < start + q + 0) := by omega
    rw [if_neg this]
  | succ n ih =>
    intro q grid o grid' h hnp
    simp only [fillLoop] at h
    by_cases hge : start + q ≥ grid.length
    · rw [if_pos hge, Prod.mk.injEq] at h
      obtain ⟨rfl, rfl⟩ := h
      refine ⟨rfl, ?_, ?_⟩
      · intro r
        by_cases hr : start + q ≤ r ∧ r < start + q + (n + 1)
        · rw [if_pos hr, List.getElem?_eq_none (by omega)]
          rfl
        · rw [if_neg hr]
      · have h1 : ¬ (n + 1 = 0 ∨ start + q + (n + 1) ≤ grid.length) := by omega
        have h2 : max (start + q) grid.length = start + q := by omega
        rw [if_neg h1, h2]
    · rw [if_neg hge] at h
      have hlt : start + q < grid.length := by omega
      have hget : grid[start + q]? = some (grid.getD (start + q) []) := by
        rw [List.getD_eq_getElem?_getD, List.getElem?_eq_getElem hlt]
        rfl
      cases hf : fillRow pd q (grid.getD (start + q) []) with
      | none =>
        rw [hf] at h
        simp only [Prod.mk.injEq] at h
        exact absurd h.1.symm hnp
      | some row =>
        rw [hf] at h
        simp only [] at h
        obtain ⟨hl, hcells, ho⟩ := ih (q + 1) _ o grid' h hnp
        rw [List.length_set] at hl ho
        refine ⟨hl, ?_, ?_⟩
        · intro r
          rw [hcells r]
          by_cases hr1 : r = start + q
          · subst hr1
            have c1 : ¬ (start + (q + 1) ≤ start + q ∧ start + q < start + (q + 1) + n) := by
              omega
            have c2 : start + q ≤ start + q ∧ start + q < start + q + (n + 1) := by omega
            rw [if_neg c1, if_pos c2, List.getElem?_set_self hlt, hget, Option.some_bind,
              Nat.add_sub_cancel_left, hf]
          · have hne : start + q ≠ r := fun e => hr1 e.symm
            rw [List.getElem?_set_ne hne]
            by_cases hr2 : start + (q + 1) ≤ r ∧ r < start + (q + 1) + n
            · have c2 : start + q ≤ r ∧ r < start + q + (n + 1) := by omega
              rw [if_pos hr2, if_pos c2]
            · have c2 : ¬ (start + q ≤ r ∧ r < start + q + (n + 1)) := by omega
              rw [if_neg hr2, if_neg c2]
        · rw [ho]
          by_cases hn : n = 0 ∨ start + (q + 1) + n ≤ grid.length
          · have c : n + 1 = 0 ∨ start + q + (n + 1) ≤ grid.length := by omega
            rw [if_pos hn, if_pos c]
          · have c : ¬ (n + 1 = 0 ∨ start + q + (n + 1) ≤ grid.length) := by omega
            have hm : max (start + (q + 1)) grid.length = max (start + q) grid.length := by
              omega
            rw [if_neg hn, if_neg c, hm]

theorem fillLoop_no_panic (pd : PDUData) (start : Nat) (n : Nat) :
    ∀ (q : Nat) (grid : List (List Cell)),
      (∀ j, q ≤ j → j < q + n → (readStats pd j).isSome = true) →
      (fillLoop pd start n q grid).1 ≠ Outcome.panicked := by
  induction n with
  | zero => intro q grid _; simp [fillLoop]
  | succ n ih =>
    intro q grid hread
    simp only [fillLoop]
    by_cases hge : start + q ≥ grid.length
    · rw [if_pos hge]; simp
    · rw [if_neg hge]
      have hq := hread q (le_refl q) (by omega)
      obtain ⟨st, hst⟩ := Option.isSome_iff_exists.mp hq
      obtain ⟨row, hrow⟩ := fillRow_of_readStats pd q (grid.getD (start + q) []) st hst
      rw [hrow]
      exact ih (q + 1) _ (fun j h1 h2 => hread j (by omega) (by omega))

end Report

namespace Report

open PduProcessor

theorem readStats_some (pd : PDUData) (q : Nat) (st : RackStats)
    (h : readStats pd q = some st) :
    pd.L1Min[q]? = some st.l1Min ∧ pd.L1Avg[q]? = some st.l1Avg ∧
    pd.L1Max[q]? = some st.l1Max ∧ pd.L2Min[q]? = some st.l2Min ∧
    pd.L2Avg[q]? = some st.l2Avg ∧ pd.L2Max[q]? = some st.l2Max ∧
    pd.L3Min[q]? = some st.l3Min ∧ pd.L3Avg[q]? = some st.l3Avg ∧
    pd.L3Max[q]? = some st.l3Max := by
  unfold readStats at h
  split at h
  · rename_i a1 a2 a3 b1 b2 b3 c1 c2 c3 e1 e2 e3 e4 e5 e6 e7 e8 e9
    simp only [Option.some.injEq] at h
    subst h
    exact ⟨e1, e2, e3, e4, e5, e6, e7, e8, e9⟩
  · exact Option.noConfusion h

theorem readStats_of_lengths (pd : PDUData) (q : Nat)
    (h1 : q < pd.L1Min.length) (h2 : q < pd.L1Avg.length) (h3 : q < pd.L1Max.length)
    (h4 : q < pd.L2Min.length) (h5 : q < pd.L2Avg.length) (h6 : q < pd.L2Max.length)
    (h7 : q < pd.L3Min.length) (h8 : q < pd.L3Avg.length) (h9 : q < pd.L3Max.length) :
    (readStats pd q).isSome = true := by
  simp [readStats, List.getElem?_eq_getElem, h1, h2, h3, h4, h5, h6, h7, h8, h9]

theorem fillPDUData_of_section (mf : MonthlyFiller) (sec : PDUSection)
    (hsec : FindPDUSection mf mf.pduData.PDUName = .ok sec) :
    FillPDUData mf =
      ((fillLoop mf.pduData sec.StartRow 18 0 mf.monthlyData).1,
        { mf with monthlyData := (fillLoop mf.pduData sec.StartRow 18 0 mf.monthlyData).2 }) := by
  simp [FillPDUData, hsec]

theorem fillPDUData_of_no_section (mf : MonthlyFiller) (e : ReportError)
    (hsec : FindPDUSection mf mf.pduData.PDUName = .error e) :
    FillPDUData mf = (.failed (.sectionNotFound mf.pduData.PDUName), mf) := by
  have he : e = .sectionNotFound mf.pduData.PDUName := by
    unfold FindPDUSection at hsec
    split at hsec
    · exact Except.noConfusion hsec
    · simp only [Except.error.injEq] at hsec
      exact hsec.symm
  subst he
  simp [FillPDUData, hsec]

/-- What a successful fill leaves in the grid. -/
theorem fillPDUData_ok_spec (mf : MonthlyFiller) (hok : (FillPDUData mf).1 = Outcome.ok) :
    ∃ sec, FindPDUSection mf mf.pduData.PDUName = .ok sec ∧
      (FillPDUData mf).2.pduData = mf.pduData ∧
      (FillPDUData mf).2.pduSections = mf.pduSections ∧
      (FillPDUData mf).2.monthlyData.length = mf.monthlyData.length ∧
      sec.StartRow + 18 ≤ mf.monthlyData.length ∧
      (∀ r, (FillPDUData mf).2.monthlyData[r]? =
        if sec.StartRow ≤ r ∧ r < sec.StartRow + 18 then
          (mf.monthlyData[r]?).bind (fillRow mf.pduData (r - sec.StartRow))
        else mf.monthlyData[r]?) := by
  cases hsec : FindPDUSection mf mf.pduData.PDUName with
  | error e =>
    rw [fillPDUData_of_no_section mf e hsec] at hok
    exact Outcome.noConfusion hok
  | ok sec =>
    rw [fillPDUData_of_section mf sec hsec] at hok ⊢
    generalize hres : fillLoop mf.pduData sec.StartRow 18 0 mf.monthlyData = res at hok ⊢
    obtain ⟨o, g'⟩ := res
    simp only [] at hok
    subst hok
    obtain ⟨hl, hcells, ho⟩ := fillLoop_spec mf.pduData sec.StartRow 18 0 mf.monthlyData
      Outcome.ok g' hres (fun h => Outcome.noConfusion h)
    refine ⟨sec, rfl, rfl, rfl, hl, ?_, ?_⟩
    · by_contra hcon
      have hc : ¬ (18 = 0 ∨ sec.StartRow + 0 + 18 ≤ mf.monthlyData.length) := by omega
      rw [if_neg hc] at ho
      exact Outcome.noConfusion ho
    · intro r
      have := hcells r
      simpa using this

end Report

namespace Report

open PduProcessor

/-- The row a successful fill leaves for rack `q`. -/
theorem fillPDUData_row (mf : MonthlyFiller) (hok : (FillPDUData mf).1 = Outcome.ok)
    (sec : PDUSection) (hsec : FindPDUSection mf mf.pduData.PDUName = .ok sec)
    (q : Nat) (hq : q < 18) :
    ∃ row0 row, mf.monthlyData[sec.StartRow + q]? = some row0 ∧
      (FillPDUData mf).2.monthlyData[sec.StartRow + q]? = some row ∧
      fillRow mf.pduData q row0 = some row := by
  obtain ⟨sec', hsec', _, _, hlen, hrows, hcells⟩ := fillPDUData_ok_spec mf hok
  rw [hsec] at hsec'
  have hs : sec' = sec := (Except.ok.inj hsec').symm
  subst hs
  have hlt : sec'.StartRow + q < mf.monthlyData.length := by omega
  have hlt' : sec'.StartRow + q < (FillPDUData mf).2.monthlyData.length := by omega
  have hc := hcells (sec'.StartRow + q)
  have hin : sec'.StartRow ≤ sec'.StartRow + q ∧ sec'.StartRow + q < sec'.StartRow + 18 := by
    omega
  rw [if_pos hin, List.getElem?_eq_getElem hlt, List.getElem?_eq_getElem hlt',
    Option.some_bind, Nat.add_sub_cancel_left] at hc
  exact ⟨_, _, List.getElem?_eq_getElem hlt, List.getElem?_eq_getElem hlt', hc.symm⟩

/-- C16: whenever `FillPDUData` succeeds, for every rack index `q` in 0..17 the row
`StartRow + q` of the target section holds, as numeric cells, L1 min/avg/max in columns
3/4/5, L2 min/avg/max in columns 6/7/8, L3 min/avg/max in columns 9/10/11, the least of
the three line minima in column 12, `(L1.avg + L2.avg + L3.avg) / 3` in column 13 and the
greatest of the three line maxima in column 14; for L1 = (10, 11, 12), L2 = (5, 6, 7),
L3 = (20, 21, 22) the summary is min 5, avg 38/3, max 22. -/
theorem fillPDUData_writes (mf : MonthlyFiller) (hok : (FillPDUData mf).1 = Outcome.ok)
    (q : Nat) (hq : q < 18) :
    (∃ (sec : PDUSection) (st : RackStats) (row : List Cell),
      FindPDUSection mf mf.pduData.PDUName = .ok sec ∧
      (mf.pduData.L1Min[q]? = some st.l1Min ∧ mf.pduData.L1Avg[q]? = some st.l1Avg ∧
        mf.pduData.L1Max[q]? = some st.l1Max ∧ mf.pduData.L2Min[q]? = some st.l2Min ∧
        mf.pduData.L2Avg[q]? = some st.l2Avg ∧ mf.pduData.L2Max[q]? = some st.l2Max ∧
        mf.pduData.L3Min[q]? = some st.l3Min ∧ mf.pduData.L3Avg[q]? = some st.l3Avg ∧
        mf.pduData.L3Max[q]? = some st.l3Max) ∧
      (FillPDUData mf).2.monthlyData[sec.StartRow + q]? = some row ∧
      row[3]? = some (Cell.num st.l1Min) ∧ row[4]? = some (Cell.num st.l1Avg) ∧
      row[5]? = some (Cell.num st.l1Max) ∧ row[6]? = some (Cell.num st.l2Min) ∧
      row[7]? = some (Cell.num st.l2Avg) ∧ row[8]? = some (Cell.num st.l2Max) ∧
      row[9]? = some (Cell.num st.l3Min) ∧ row[10]? = some (Cell.num st.l3Avg) ∧
      row[11]? = some (Cell.num st.l3Max) ∧
      row[12]? = some (Cell.num (min (min st.l1Min st.l2Min) st.l3Min)) ∧
      row[13]? = some (Cell.num ((st.l1Avg + st.l2Avg + st.l3Avg) / 3)) ∧
      row[14]? = some (Cell.num (max (max st.l1Max st.l2Max) st.l3Max))) ∧
    (minValue 10 5 20 = 5 ∧ ((11 : ℚ) + 6 + 21) / 3 = 38 / 3 ∧ maxValue 12 7 22 = 22) := by
  constructor
  · obtain ⟨sec, hsec, _⟩ := fillPDUData_ok_spec mf hok
    obtain ⟨row0, row, _, hrow, hfill⟩ := fillPDUData_row mf hok sec hsec q hq
    obtain ⟨st, hst, _, hj⟩ := fillRow_spec mf.pduData q row0 row hfill
    refine ⟨sec, st, row, hsec, readStats_some _ _ _ hst, hrow, ?_, ?_, ?_, ?_, ?_, ?_, ?_, ?_,
      ?_, ?_, ?_, ?_⟩
    all_goals (rw [hj]; rfl)
  · refine ⟨?_, ?_, ?_⟩
    · norm_num [minValue]
    · norm_num
    · norm_num [maxValue]

end Report

namespace Report

open PduProcessor

/-- C17: for every grid, and so for every loaded grid, and every device matrix with 18
values per statistic, `FillPDUData` succeeds if and only if a section with the device's
name exists and the `StartRow + 17` of the section found is less than the number of
grid rows; it fails with the section-not-found error when no section matches and with
the range error, for the first target row at or beyond the grid length, when some
target row `StartRow + q` (q in 0..17) does not exist; it never indexes a row or a
column out of bounds. -/
theorem fillPDUData_outcome (mf : MonthlyFiller)
    (h1 : mf.pduData.L1Min.length = 18) (h2 : mf.pduData.L1Avg.length = 18)
    (h3 : mf.pduData.L1Max.length = 18) (h4 : mf.pduData.L2Min.length = 18)
    (h5 : mf.pduData.L2Avg.length = 18) (h6 : mf.pduData.L2Max.length = 18)
    (h7 : mf.pduData.L3Min.length = 18) (h8 : mf.pduData.L3Avg.length = 18)
    (h9 : mf.pduData.L3Max.length = 18) :
    ((FillPDUData mf).1 = Outcome.ok ↔
      ∃ sec, FindPDUSection mf mf.pduData.PDUName = .ok sec ∧
        sec.StartRow + 17 < mf.monthlyData.length) ∧
    (∀ e, FindPDUSection mf mf.pduData.PDUName = .error e →
      (FillPDUData mf).1 = Outcome.failed (.sectionNotFound mf.pduData.PDUName)) ∧
    (∀ sec, FindPDUSection mf mf.pduData.PDUName = .ok sec →
      ¬ sec.StartRow + 17 < mf.monthlyData.length →
      (FillPDUData mf).1 =
        Outcome.failed (.rowIndexExceeds (max sec.StartRow mf.monthlyData.length))) ∧
    (FillPDUData mf).1 ≠ Outcome.panicked := by
  have hread : ∀ j, 0 ≤ j → j < 0 + 18 → (readStats mf.pduData j).isSome = true := by
    intro j _ hj
    exact readStats_of_lengths _ _ (by omega) (by omega) (by omega) (by omega) (by omega)
      (by omega) (by omega) (by omega) (by omega)
  have hloop : ∀ sec : PDUSection,
      (fillLoop mf.pduData sec.StartRow 18 0 mf.monthlyData).1 =
        if sec.StartRow + 17 < mf.monthlyData.length then Outcome.ok
        else Outcome.failed (.rowIndexExceeds (max sec.StartRow mf.monthlyData.length)) := by
    intro sec
    have hnp := fillLoop_no_panic mf.pduData sec.StartRow 18 0 mf.monthlyData hread
    generalize hres : fillLoop mf.pduData sec.StartRow 18 0 mf.monthlyData = res at hnp
    obtain ⟨o, g'⟩ := res
    obtain ⟨_, _, ho⟩ := fillLoop_spec mf.pduData sec.StartRow 18 0 mf.monthlyData o g' hres hnp
    simp only [] at hnp ⊢
    rw [ho]
    by_cases hc : sec.StartRow + 17 < mf.monthlyData.length
    · have hc' : 18 = 0 ∨ sec.StartRow + 0 + 18 ≤ mf.monthlyData.length := by omega
      rw [if_pos hc, if_pos hc']
    · have hc' : ¬ (18 = 0 ∨ sec.StartRow + 0 + 18 ≤ mf.monthlyData.length) := by omega
      rw [if_neg hc, if_neg hc', Nat.add_zero]
  cases hsec : FindPDUSection mf mf.pduData.PDUName with
  | error e =>
    rw [fillPDUData_of_no_section mf e hsec]
    refine ⟨?_, ?_, ?_, ?_⟩
    · simp
    · intro e' _; rfl
    · intro sec hs; exact Except.noConfusion hs
    · exact fun h => Outcome.noConfusion h
  | ok sec =>
    rw [fillPDUData_of_section mf sec hsec]
    simp only []
    rw [hloop sec]
    by_cases hc : sec.StartRow + 17 < mf.monthlyData.length
    · rw [if_pos hc]
      refine ⟨?_, ?_, ?_, ?_⟩
      · simp [hc]
      · intro e hs; exact Except.noConfusion hs
      · intro sec' hs hn
        rw [Except.ok.injEq] at hs
        subst hs
        exact absurd hc hn
      · exact fun h => Outcome.noConfusion h
    · rw [if_neg hc]
      refine ⟨?_, ?_, ?_, ?_⟩
      · simp [hc]
      · intro e hs; exact Except.noConfusion hs
      · intro sec' hs _
        rw [Except.ok.injEq] at hs
        subst hs
        rfl
      · exact fun h => Outcome.noConfusion h

/-- C18: for every grid and device matrix on which `FillPDUData` succeeds, every row
outside the rows `StartRow..StartRow+17` of the target section is unchanged, and inside
those rows every cell in the columns 0..2 and in the columns 15 and beyond is unchanged;
the sections stay as they were. Consequently, filling device B into a grid already
filled for device A leaves the 18 rows of A exactly as the fill of A wrote them whenever
the target rows of the two sections share no row. -/
theorem fillPDUData_frame (mf : MonthlyFiller) (hok : (FillPDUData mf).1 = Outcome.ok) :
    ∃ sec, FindPDUSection mf mf.pduData.PDUName = .ok sec ∧
      (FillPDUData mf).2.pduSections = mf.pduSections ∧
      (FillPDUData mf).2.monthlyData.length = mf.monthlyData.length ∧
      (∀ r, (r < sec.StartRow ∨ sec.StartRow + 17 < r) →
        (FillPDUData mf).2.monthlyData[r]? = mf.monthlyData[r]?) ∧
      (∀ (q : Nat) (row row' : List Cell), q < 18 →
        mf.monthlyData[sec.StartRow + q]? = some row →
        (FillPDUData mf).2.monthlyData[sec.StartRow + q]? = some row' →
        ∀ j, (j < 3 ∨ 15 ≤ j) → j < row.length → row'[j]? = row[j]?) ∧
      (∀ (pdB : PDUData) (secB : PDUSection),
        (FillPDUData { (FillPDUData mf).2 with pduData := pdB }).1 = Outcome.ok →
        FindPDUSection { (FillPDUData mf).2 with pduData := pdB } pdB.PDUName = .ok secB →
        (sec.StartRow + 17 < secB.StartRow ∨ secB.StartRow + 17 < sec.StartRow) →
        ∀ q, q < 18 →
          (FillPDUData { (FillPDUData mf).2 with pduData := pdB }).2.monthlyData[
              sec.StartRow + q]? =
            (FillPDUData mf).2.monthlyData[sec.StartRow + q]?) := by
  obtain ⟨sec, hsec, _, hsections, hlen, hrows, hcells⟩ := fillPDUData_ok_spec mf hok
  refine ⟨sec, hsec, hsections, hlen, ?_, ?_, ?_⟩
  · intro r hr
    have hn : ¬ (sec.StartRow ≤ r ∧ r < sec.StartRow + 18) := by omega
    rw [hcells r, if_neg hn]
  · intro q row row' hq hrow hrow' j hj hjlen
    obtain ⟨row0, row1, h0, h1, hfill⟩ := fillPDUData_row mf hok sec hsec q hq
    rw [hrow] at h0
    rw [hrow'] at h1
    have e0 : row0 = row := (Option.some.inj h0).symm
    have e1 : row1 = row' := (Option.some.inj h1).symm
    subst e0 e1
    obtain ⟨st, _, _, hcell⟩ := fillRow_spec mf.pduData q row0 row1 hfill
    have hnone : filledCell st j = none := by
      have f3 : ¬ j = 3 := by omega
      have f4 : ¬ j = 4 := by omega
      have f5 : ¬ j = 5 := by omega
      have f6 : ¬ j = 6 := by omega
      have f7 : ¬ j = 7 := by omega
      have f8 : ¬ j = 8 := by omega
      have f9 : ¬ j = 9 := by omega
      have f10 : ¬ j = 10 := by omega
      have f11 : ¬ j = 11 := by omega
      have f12 : ¬ j = 12 := by omega
      have f13 : ¬ j = 13 := by omega
      have f14 : ¬ j = 14 := by omega
      simp only [filledCell, f3, f4, f5, f6, f7, f8, f9, f10, f11, f12, f13, f14, if_false]
    rw [hcell j, hnone, padRow_getElem?, if_pos hjlen]
  · intro pdB secB hokB hsecB hdisj q hq
    obtain ⟨secB', hsecB', _, _, _, _, hcellsB⟩ :=
      fillPDUData_ok_spec { (FillPDUData mf).2 with pduData := pdB } hokB
    rw [hsecB] at hsecB'
    have hs : secB' = secB := (Except.ok.inj hsecB').symm
    subst hs
    have hn : ¬ (secB'.StartRow ≤ sec.StartRow + q ∧ sec.StartRow + q < secB'.StartRow + 18) := by
      omega
    rw [hcellsB (sec.StartRow + q), if_neg hn]

/-- C19: filling is idempotent. The fill is a function of the filler, so two fills of
the same matrix into the same base grid give the same grid and the same exported rows;
and when `FillPDUData` succeeds, filling the same matrix again into the grid it left
succeeds and leaves that grid unchanged, so the exported rows are identical. -/
theorem fillPDUData_idempotent (fmt3 : ℚ → String) (mf : MonthlyFiller)
    (hok : (FillPDUData mf).1 = Outcome.ok) :
    FillPDUData (FillPDUData mf).2 = (Outcome.ok, (FillPDUData mf).2) ∧
    ExportToCSV fmt3 (FillPDUData (FillPDUData mf).2).2 = ExportToCSV fmt3 (FillPDUData mf).2 ∧
    (∀ mf2 : MonthlyFiller, mf2.pduData = mf.pduData → mf2.monthlyData = mf.monthlyData →
      mf2.pduSections = mf.pduSections →
      (FillPDUData mf2).1 = Outcome.ok ∧
      ExportToCSV fmt3 (FillPDUData mf2).2 = ExportToCSV fmt3 (FillPDUData mf).2) := by
  have hmain : FillPDUData (FillPDUData mf).2 = (Outcome.ok, (FillPDUData mf).2) := by
    obtain ⟨sec, hsec, hpd, hsections, hlen, hrows, hcells⟩ := fillPDUData_ok_spec mf hok
    have hsec2 : FindPDUSection (FillPDUData mf).2 (FillPDUData mf).2.pduData.PDUName =
        .ok sec := by
      rw [hpd]
      simp only [FindPDUSection, hsections] at hsec ⊢
      exact hsec
    have hread : ∀ j, 0 ≤ j → j < 0 + 18 →
        (readStats (FillPDUData mf).2.pduData j).isSome = true := by
      intro j _ hj
      obtain ⟨row0, row, _, _, hfill⟩ := fillPDUData_row mf hok sec hsec j (by omega)
      obtain ⟨st, hst, _, _⟩ := fillRow_spec _ _ _ _ hfill
      rw [hpd, hst]
      rfl
    have hnp := fillLoop_no_panic (FillPDUData mf).2.pduData sec.StartRow 18 0
      (FillPDUData mf).2.monthlyData hread
    rw [fillPDUData_of_section _ sec hsec2]
    generalize hres : fillLoop (FillPDUData mf).2.pduData sec.StartRow 18 0
      (FillPDUData mf).2.monthlyData = res at hnp ⊢
    obtain ⟨o, g'⟩ := res
    obtain ⟨hl2, hcells2, ho⟩ := fillLoop_spec _ _ _ _ _ o g' hres hnp
    have ho' : o = Outcome.ok := by
      rw [ho]
      have hc : 18 = 0 ∨ sec.StartRow + 0 + 18 ≤ (FillPDUData mf).2.monthlyData.length := by
        omega
      rw [if_pos hc]
    have hg : g' = (FillPDUData mf).2.monthlyData := by
      apply List.ext_getElem?
      intro r
      rw [hcells2 r]
      by_cases hr : sec.StartRow + 0 ≤ r ∧ r < sec.StartRow + 0 + 18
      · rw [if_pos hr]
        obtain ⟨row0, row, _, hrow, hfill⟩ :=
          fillPDUData_row mf hok sec hsec (r - sec.StartRow) (by omega)
        have hr' : sec.StartRow + (r - sec.StartRow) = r := by omega
        rw [hr'] at hrow
        rw [hrow, Option.some_bind, hpd]
        exact fillRow_idem _ _ _ _ hfill
      · rw [if_neg hr]
    simp only []
    rw [ho', hg]
  refine ⟨hmain, by rw [hmain], ?_⟩
  intro mf2 e1 e2 e3
  have hm : mf2 = mf := by
    cases mf2
    cases mf
    simp only [MonthlyFiller.mk.injEq]
    exact ⟨e1, e2, e3⟩
  subst hm
  exact ⟨hok, rfl⟩

end Report

namespace Report

open PduProcessor

theorem exampleFiller_ok : (FillPDUData exampleFiller).1 = Outcome.ok := by decide

end Report

namespace Report

open PduProcessor

/-- Witness of C16: rack Q1 of the example filler. -/
theorem fillPDUData_writes_witness :
    (FillPDUData exampleFiller).1 = Outcome.ok ∧ (0 : Nat) < 18 ∧
    ((∃ (sec : PDUSection) (st : RackStats) (row : List Cell),
      FindPDUSection exampleFiller exampleFiller.pduData.PDUName = .ok sec ∧
      (exampleFiller.pduData.L1Min[0]? = some st.l1Min ∧ exampleFiller.pduData.L1Avg[0]? = some st.l1Avg ∧
        exampleFiller.pduData.L1Max[0]? = some st.l1Max ∧ exampleFiller.pduData.L2Min[0]? = some st.l2Min ∧
        exampleFiller.pduData.L2Avg[0]? = some st.l2Avg ∧ exampleFiller.pduData.L2Max[0]? = some st.l2Max ∧
        exampleFiller.pduData.L3Min[0]? = some st.l3Min ∧ exampleFiller.pduData.L3Avg[0]? = some st.l3Avg ∧
        exampleFiller.pduData.L3Max[0]? = some st.l3Max) ∧
      (FillPDUData exampleFiller).2.monthlyData[sec.StartRow + 0]? = some row ∧
      row[3]? = some (Cell.num st.l1Min) ∧ row[4]? = some (Cell.num st.l1Avg) ∧
      row[5]? = some (Cell.num st.l1Max) ∧ row[6]? = some (Cell.num st.l2Min) ∧
      row[7]? = some (Cell.num st.l2Avg) ∧ row[8]? = some (Cell.num st.l2Max) ∧
      row[9]? = some (Cell.num st.l3Min) ∧ row[10]? = some (Cell.num st.l3Avg) ∧
      row[11]? = some (Cell.num st.l3Max) ∧
      row[12]? = some (Cell.num (min (min st.l1Min st.l2Min) st.l3Min)) ∧
      row[13]? = some (Cell.num ((st.l1Avg + st.l2Avg + st.l3Avg) / 3)) ∧
      row[14]? = some (Cell.num (max (max st.l1Max st.l2Max) st.l3Max))) ∧
    (minValue 10 5 20 = 5 ∧ ((11 : ℚ) + 6 + 21) / 3 = 38 / 3 ∧ maxValue 12 7 22 = 22)) :=
  ⟨exampleFiller_ok, by decide, fillPDUData_writes exampleFiller exampleFiller_ok 0 (by decide)⟩

/-- Witness of C17: the example filler has 18 values per statistic. -/
theorem fillPDUData_outcome_witness :
    (exampleFiller.pduData.L1Min.length = 18 ∧ exampleFiller.pduData.L1Avg.length = 18 ∧
      exampleFiller.pduData.L1Max.length = 18 ∧ exampleFiller.pduData.L2Min.length = 18 ∧
      exampleFiller.pduData.L2Avg.length = 18 ∧ exampleFiller.pduData.L2Max.length = 18 ∧
      exampleFiller.pduData.L3Min.length = 18 ∧ exampleFiller.pduData.L3Avg.length = 18 ∧
      exampleFiller.pduData.L3Max.length = 18) ∧
    ((FillPDUData exampleFiller).1 = Outcome.ok ↔
      ∃ sec, FindPDUSection exampleFiller exampleFiller.pduData.PDUName = .ok sec ∧
        sec.StartRow + 17 < exampleFiller.monthlyData.length) ∧
    (FillPDUData exampleFiller).1 ≠ Outcome.panicked :=
  ⟨⟨rfl, rfl, rfl, rfl, rfl, rfl, rfl, rfl, rfl⟩,
    (fillPDUData_outcome exampleFiller rfl rfl rfl rfl rfl rfl rfl rfl rfl).1,
    (fillPDUData_outcome exampleFiller rfl rfl rfl rfl rfl rfl rfl rfl rfl).2.2.2⟩

/-- Witness of C18: the fill of the example filler keeps the sections and the number of
rows. -/
theorem fillPDUData_frame_witness :
    (FillPDUData exampleFiller).1 = Outcome.ok ∧
    ∃ sec, FindPDUSection exampleFiller exampleFiller.pduData.PDUName = .ok sec ∧
      (FillPDUData exampleFiller).2.pduSections = exampleFiller.pduSections ∧
      (FillPDUData exampleFiller).2.monthlyData.length = exampleFiller.monthlyData.length ∧
      (∀ r, (r < sec.StartRow ∨ sec.StartRow + 17 < r) →
        (FillPDUData exampleFiller).2.monthlyData[r]? = exampleFiller.monthlyData[r]?) :=
  ⟨exampleFiller_ok,
    (fillPDUData_frame exampleFiller exampleFiller_ok).imp
      (fun _ h => ⟨h.1, h.2.1, h.2.2.1, h.2.2.2.1⟩)⟩

/-- Witness of C19: a second fill of the example filler changes nothing. -/
theorem fillPDUData_idempotent_witness :
    (FillPDUData exampleFiller).1 = Outcome.ok ∧
    FillPDUData (FillPDUData exampleFiller).2 = (Outcome.ok, (FillPDUData exampleFiller).2) ∧
    ExportToCSV formatFixed3 (FillPDUData (FillPDUData exampleFiller).2).2 =
      ExportToCSV formatFixed3 (FillPDUData exampleFiller).2 :=
  ⟨exampleFiller_ok, (fillPDUData_idempotent formatFixed3 exampleFiller exampleFiller_ok).1,
    (fillPDUData_idempotent formatFixed3 exampleFiller exampleFiller_ok).2.1⟩

theorem twoSectionGrid_markers_apart (a b : Nat) (ra rb : List Cell) (hab : a < b)
    (ha : twoSectionGrid[a]? = some ra) (hb : twoSectionGrid[b]? = some rb)
    (hma : (markerName ra).isSome = true) (hmb : (markerName rb).isSome = true) :
    a + 19 ≤ b := by
  have hdec : ∀ x < 20, ∀ y < 20, x < y →
      (markerName (twoSectionGrid.getD x [])).isSome = true →
      (markerName (twoSectionGrid.getD y [])).isSome = true → x + 19 ≤ y := by decide
  have hlen : twoSectionGrid.length = 20 := by decide
  have hb' : b < 20 := by
    by_contra hcon
    rw [List.getElem?_eq_none (by omega)] at hb
    exact Option.noConfusion hb
  have ea : twoSectionGrid.getD a [] = ra := by
    rw [List.getD_eq_getElem?_getD, ha]; rfl
  have eb : twoSectionGrid.getD b [] = rb := by
    rw [List.getD_eq_getElem?_getD, hb]; rfl
  exact hdec a (by omega) b hb' hab (by rw [ea]; exact hma) (by rw [eb]; exact hmb)

/-- Witness of C12 as amended: markers in rows 0 and 19. -/
theorem sections_disjoint_of_markers_apart_witness :
    (identifyPDUSections FloatFormat.fixed3
      { NewMonthlyFiller with monthlyData := twoSectionGrid }).pduSections =
      [{ Name := "A1", HeaderRow := 0, StartRow := 1, EndRow := 18 },
        { Name := "A2", HeaderRow := 19, StartRow := 20, EndRow := 37 }] ∧
    (identifyPDUSections FloatFormat.fixed3
      { NewMonthlyFiller with monthlyData := twoSectionGrid }).pduSections.Pairwise
      SectionsDisjoint :=
  ⟨by decide,
    (sections_disjoint_of_markers_apart FloatFormat.fixed3
      { NewMonthlyFiller with monthlyData := twoSectionGrid }
      twoSectionGrid_markers_apart).2⟩

end Report

namespace Report

open PduProcessor

/-! ## From the statistics export to the device matrix -/

theorem storeValue_getElem? (parseFloat : String → Option ℚ) (record : List String)
    (target : List ℚ) (j q : Nat) (hj : 1 ≤ j) :
    (storeValue parseFloat record target j)[q]? =
      if j = q + 1 ∧ q + 1 < record.length then
        match parseFloat (TrimSpace (record.getD (q + 1) "")) with
        | some v => (target[q]?).map (fun _ => v)
        | none => target[q]?
      else target[q]? := by
  unfold storeValue
  by_cases hjq : j = q + 1
  · subst hjq
    by_cases hlen : q + 1 < record.length
    · rw [if_pos hlen, if_pos ⟨rfl, hlen⟩]
      cases parseFloat (TrimSpace (record.getD (q + 1) "")) with
      | none => rfl
      | some v =>
        simp only [Nat.add_sub_cancel, List.getElem?_set_self']
        rfl
    · have hn : ¬ (q + 1 = q + 1 ∧ q + 1 < record.length) := fun h => hlen h.2
      rw [if_neg hlen, if_neg hn]
  · have hn : ¬ (j = q + 1 ∧ q + 1 < record.length) := fun h => hjq h.1
    rw [if_neg hn]
    split_ifs
    · cases parseFloat (TrimSpace (record.getD j "")) with
      | none => rfl
      | some v =>
        have hne : j - 1 ≠ q := by omega
        simp only [List.getElem?_set_ne hne]
    · rfl

theorem foldl_storeValue_getElem? (parseFloat : String → Option ℚ) (record : List String)
    (js : List Nat) (hpos : ∀ j ∈ js, 1 ≤ j) (target : List ℚ) (q : Nat) :
    (js.foldl (storeValue parseFloat record) target)[q]? =
      if q + 1 ∈ js ∧ q + 1 < record.length then
        match parseFloat (TrimSpace (record.getD (q + 1) "")) with
        | some v => (target[q]?).map (fun _ => v)
        | none => target[q]?
      else target[q]? := by
  induction js generalizing target with
  | nil => simp
  | cons j rest ih =>
    have hj : 1 ≤ j := hpos j (List.mem_cons_self _ _)
    have hrest : ∀ x ∈ rest, 1 ≤ x := fun x hx => hpos x (List.mem_cons_of_mem _ hx)
    rw [List.foldl_cons, ih hrest, storeValue_getElem? parseFloat record target j q hj]
    by_cases hlen : q + 1 < record.length
    · by_cases hjq : j = q + 1
      · subst hjq
        simp only [List.mem_cons, true_or, hlen, and_self, if_true, true_and]
        cases parseFloat (TrimSpace (record.getD (q + 1) "")) with
        | none => simp
        | some v =>
          cases target[q]? with
          | none => simp
          | some t => simp
      · have hmem : (q + 1 ∈ j :: rest) ↔ q + 1 ∈ rest := by
          simp only [List.mem_cons]
          constructor
          · rintro (h | h)
            · exact absurd h.symm hjq
            · exact h
          · exact Or.inr
        simp only [hmem, hjq, false_and, if_false]
    · simp [hlen]

theorem storeValues_getElem? (parseFloat : String → Option ℚ) (record : List String)
    (target : List ℚ) (q : Nat) (hq : q < 18) (hlen : record.length = 19) :
    (storeValues parseFloat record target)[q]? =
      match parseFloat (TrimSpace (record.getD (q + 1) "")) with
      | some v => (target[q]?).map (fun _ => v)
      | none => target[q]? := by
  unfold storeValues
  rw [foldl_storeValue_getElem? parseFloat record _ (fun j hj => (List.mem_range'_1.mp hj).1)]
  have hmem : q + 1 ∈ List.range' 1 18 := List.mem_range'_1.mpr ⟨by omega, by omega⟩
  have hl : q + 1 < record.length := by omega
  rw [if_pos ⟨hmem, hl⟩]

end Report

namespace Report

open PduProcessor

theorem outputRow_length (fmt3 : ℚ → String) (dp : DataProcessor) (mt : String) :
    (outputRow fmt3 dp mt).length = 19 := by
  simp [outputRow, rowValues]

theorem storeValues_zero_getElem? (parseFloat : String → Option ℚ) (record : List String)
    (q : Nat) (hq : q < 18) (hlen : record.length = 19) :
    (storeValues parseFloat record (List.replicate 18 0))[q]? =
      some (match parseFloat (TrimSpace (record.getD (q + 1) "")) with
        | some v => v
        | none => 0) := by
  rw [storeValues_getElem? parseFloat record _ q hq hlen]
  have h0 : (List.replicate 18 (0 : ℚ))[q]? = some 0 := by
    rw [List.getElem?_replicate]
    simp [hq]
  rw [h0]
  cases parseFloat (TrimSpace (record.getD (q + 1) "")) with
  | none => rfl
  | some v => rfl

theorem storeValue_length (parseFloat : String → Option ℚ) (record : List String)
    (target : List ℚ) (j : Nat) :
    (storeValue parseFloat record target j).length = target.length := by
  unfold storeValue
  split_ifs
  · split
    · simp
    · rfl
  · rfl

theorem storeValues_length (parseFloat : String → Option ℚ) (record : List String)
    (target : List ℚ) : (storeValues parseFloat record target).length = target.length := by
  unfold storeValues
  generalize List.range' 1 18 = js
  induction js generalizing target with
  | nil => rfl
  | cons j rest ih => rw [List.foldl_cons, ih, storeValue_length]

/-- The device matrix after loading the records written by `GenerateOutput`. -/
theorem loadRecords_generateOutput (parseFloat : String → Option ℚ) (fmt3 : ℚ → String)
    (dp : DataProcessor) (pduName : String) :
    ((GenerateOutput fmt3 dp).drop 1).foldl (loadRecord parseFloat) (initSlices pduName) =
      { PDUName := pduName,
        L1Min := storeValues parseFloat (outputRow fmt3 dp "l1 min") (List.replicate 18 0),
        L1Avg := storeValues parseFloat (outputRow fmt3 dp "l1 avg") (List.replicate 18 0),
        L1Max := storeValues parseFloat (outputRow fmt3 dp "l1 max") (List.replicate 18 0),
        L2Min := storeValues parseFloat (outputRow fmt3 dp "l2 min") (List.replicate 18 0),
        L2Avg := storeValues parseFloat (outputRow fmt3 dp "l2 avg") (List.replicate 18 0),
        L2Max := storeValues parseFloat (outputRow fmt3 dp "l2 max") (List.replicate 18 0),
        L3Min := storeValues parseFloat (outputRow fmt3 dp "l3 min") (List.replicate 18 0),
        L3Avg := storeValues parseFloat (outputRow fmt3 dp "l3 avg") (List.replicate 18 0),
        L3Max := storeValues parseFloat (outputRow fmt3 dp "l3 max") (List.replicate 18 0) } := by
  have hrec : ∀ (pd : PDUData) (mt : String),
      loadRecord parseFloat pd (outputRow fmt3 dp mt) =
        if TrimSpace mt = "l1 min" then
          { pd with L1Min := storeValues parseFloat (outputRow fmt3 dp mt) pd.L1Min }
        else if TrimSpace mt = "l1 avg" then
          { pd with L1Avg := storeValues parseFloat (outputRow fmt3 dp mt) pd.L1Avg }
        else if TrimSpace mt = "l1 max" then
          { pd with L1Max := storeValues parseFloat (outputRow fmt3 dp mt) pd.L1Max }
        else if TrimSpace mt = "l2 min" then
          { pd with L2Min := storeValues parseFloat (outputRow fmt3 dp mt) pd.L2Min }
        else if TrimSpace mt = "l2 avg" then
          { pd with L2Avg := storeValues parseFloat (outputRow fmt3 dp mt) pd.L2Avg }
        else if TrimSpace mt = "l2 max" then
          { pd with L2Max := storeValues parseFloat (outputRow fmt3 dp mt) pd.L2Max }
        else if TrimSpace mt = "l3 min" then
          { pd with L3Min := storeValues parseFloat (outputRow fmt3 dp mt) pd.L3Min }
        else if TrimSpace mt = "l3 avg" then
          { pd with L3Avg := storeValues parseFloat (outputRow fmt3 dp mt) pd.L3Avg }
        else if TrimSpace mt = "l3 max" then
          { pd with L3Max := storeValues parseFloat (outputRow fmt3 dp mt) pd.L3Max }
        else pd := by
    intro pd mt
    have hl : ¬ (outputRow fmt3 dp mt).length < 19 := by
      rw [outputRow_length]; omega
    have h0 : (outputRow fmt3 dp mt).getD 0 "" = mt := rfl
    simp only [loadRecord, if_neg hl, h0]
  have t1 : TrimSpace "l1 min" = "l1 min" := by decide
  have t2 : TrimSpace "l1 avg" = "l1 avg" := by decide
  have t3 : TrimSpace "l1 max" = "l1 max" := by decide
  have t4 : TrimSpace "l2 min" = "l2 min" := by decide
  have t5 : TrimSpace "l2 avg" = "l2 avg" := by decide
  have t6 : TrimSpace "l2 max" = "l2 max" := by decide
  have t7 : TrimSpace "l3 min" = "l3 min" := by decide
  have t8 : TrimSpace "l3 avg" = "l3 avg" := by decide
  have t9 : TrimSpace "l3 max" = "l3 max" := by decide
  simp [GenerateOutput, measurementTypes, hrec, t1, t2, t3, t4, t5, t6, t7, t8, t9,
    initSlices]

end Report

namespace Report

open PduProcessor

/-- C21: for every aggregator state and every file name that yields a device name, the
rows written by `GenerateOutput` are accepted in full by `LoadPDUData`: there are 10
records, every data record has 19 fields so none is skipped, the load returns no error,
each of the nine labels selects its own series of 18 values, and after loading the slot
(line, stat, q) of the device matrix holds the parse of the trimmed cell `GenerateOutput`
wrote for (line, stat, rack Q(q+1)); a cell that does not parse leaves the initial 0. -/
theorem generateOutput_loadPDUData (parseFloat : String → Option ℚ) (fmt3 : ℚ → String)
    (dp : DataProcessor) (mf : MonthlyFiller) (filename pduName : String)
    (hname : ExtractPDUNameFromFilename filename = .ok pduName) :
    (GenerateOutput fmt3 dp).length = 10 ∧
    (∀ record ∈ (GenerateOutput fmt3 dp).tail, record.length = 19) ∧
    (LoadPDUData parseFloat mf filename (.ok (.ok (GenerateOutput fmt3 dp)))).1 = none ∧
    (LoadPDUData parseFloat mf filename
      (.ok (.ok (GenerateOutput fmt3 dp)))).2.pduData.PDUName = pduName ∧
    (∀ l s : Fin 3, (slotOf l s (LoadPDUData parseFloat mf filename
      (.ok (.ok (GenerateOutput fmt3 dp)))).2.pduData).length = 18) ∧
    (∀ (l s : Fin 3) (q : Fin 18),
      (slotOf l s (LoadPDUData parseFloat mf filename
        (.ok (.ok (GenerateOutput fmt3 dp)))).2.pduData)[q.val]? =
        some (match parseFloat (TrimSpace
            (((GenerateOutput fmt3 dp).getD (1 + 3 * l.val + s.val) []).getD (1 + q.val) ""))
          with
          | some v => v
          | none => 0)) := by
  have hlen : (GenerateOutput fmt3 dp).length = 10 := by
    simp [GenerateOutput, measurementTypes]
  have hnl : ¬ (GenerateOutput fmt3 dp).length < 10 := by omega
  have hload : LoadPDUData parseFloat mf filename (.ok (.ok (GenerateOutput fmt3 dp))) =
      (none, { mf with pduData := (((GenerateOutput fmt3 dp).drop 1).foldl
        (loadRecord parseFloat) (initSlices pduName)) }) := by
    simp only [LoadPDUData, hname, if_neg hnl]
  rw [hload, loadRecords_generateOutput]
  refine ⟨hlen, ?_, rfl, rfl, ?_, ?_⟩
  · intro record hrec
    simp only [GenerateOutput, List.tail_cons, List.mem_map] at hrec
    obtain ⟨mt, _, rfl⟩ := hrec
    exact outputRow_length fmt3 dp mt
  · intro l s
    fin_cases l <;> fin_cases s <;> simp [slotOf, storeValues_length]
  · intro l s q
    rw [Nat.add_comm 1 q.val]
    fin_cases l <;> fin_cases s <;>
      (simp only [slotOf]
       rw [storeValues_zero_getElem? _ _ _ q.isLt (outputRow_length _ _ _)]
       rfl)

end Report

namespace Report

open PduProcessor

/-! ## Sections after a fill -/

theorem filledCell_zero (st : RackStats) : filledCell st 0 = none := by
  simp [filledCell]

theorem fillRow_column_zero (pd : PDUData) (q : Nat) (row row' : List Cell)
    (h : fillRow pd q row = some row') :
    row'[0]? = some (row.headD Cell.empty) := by
  obtain ⟨st, _, _, hj⟩ := fillRow_spec pd q row row' h
  rw [hj 0, filledCell_zero, padRow_getElem?]
  cases row with
  | nil => simp
  | cons c t => simp

theorem markerName_fillRow (pd : PDUData) (q : Nat) (row row' : List Cell)
    (h : fillRow pd q row = some row') : markerName row' = markerName row := by
  have h0 := fillRow_column_zero pd q row row' h
  cases row' with
  | nil => simp at h0
  | cons c' t' =>
    simp only [List.getElem?_cons_zero, Option.some.injEq] at h0
    subst h0
    cases row with
    | nil => simp [markerName]
    | cons c t =>
      simp only [List.headD_cons]
      cases c <;> rfl

theorem identifyFrom_congr (fmt : FloatFormat) (g : List (List Cell)) :
    ∀ (g' : List (List Cell)) (i : Nat), g'.length = g.length →
      (∀ (r : Nat) (row row' : List Cell), g[r]? = some row → g'[r]? = some row' →
        markerName row' = markerName row) →
      identifyFrom fmt i g' = identifyFrom fmt i g := by
  induction g with
  | nil =>
    intro g' i hlen _
    have : g' = [] := List.length_eq_zero.mp (by simpa using hlen)
    rw [this]
  | cons row rest ih =>
    intro g' i hlen hrows
    cases g' with
    | nil => simp at hlen
    | cons row' rest' =>
      have hm : markerName row' = markerName row := hrows 0 row row' (by simp) (by simp)
      have hrest := ih rest' (i + 1) (by simpa using hlen)
        (fun r a b ha hb => hrows (r + 1) a b (by simpa using ha) (by simpa using hb))
      rw [identifyFrom_cons, identifyFrom_cons, hm, hrest]

/-- C22: for every grid and device matrix on which `FillPDUData` succeeds, the sections
located in the filled grid are exactly the sections located in the grid before the fill
(same names, header rows, start rows and end rows, in the same order), because the fill
never writes column 0: the column-0 cell of every row that has one keeps its value. -/
theorem sections_after_fill (fmt : FloatFormat) (mf : MonthlyFiller)
    (hok : (FillPDUData mf).1 = Outcome.ok) :
    (identifyPDUSections fmt (FillPDUData mf).2).pduSections =
      (identifyPDUSections fmt mf).pduSections ∧
    (∀ (r : Nat) (row row' : List Cell) (c : Cell), mf.monthlyData[r]? = some row →
      (FillPDUData mf).2.monthlyData[r]? = some row' → row[0]? = some c →
      row'[0]? = some c) := by
  obtain ⟨sec, _, _, _, hlen, _, hcells⟩ := fillPDUData_ok_spec mf hok
  have hrow : ∀ (r : Nat) (row row' : List Cell), mf.monthlyData[r]? = some row →
      (FillPDUData mf).2.monthlyData[r]? = some row' →
      row' = row ∨ fillRow mf.pduData (r - sec.StartRow) row = some row' := by
    intro r row row' h1 h2
    rw [hcells r, h1] at h2
    by_cases hr : sec.StartRow ≤ r ∧ r < sec.StartRow + 18
    · rw [if_pos hr, Option.some_bind] at h2
      exact Or.inr h2
    · rw [if_neg hr] at h2
      exact Or.inl (Option.some.inj h2).symm
  constructor
  · simp only [identifyPDUSections]
    apply identifyFrom_congr fmt _ _ 0 hlen
    intro r row row' h1 h2
    rcases hrow r row row' h1 h2 with h | h
    · rw [h]
    · exact markerName_fillRow _ _ _ _ h
  · intro r row row' c h1 h2 hc
    rcases hrow r row row' h1 h2 with h | h
    · rw [h]; exact hc
    · rw [fillRow_column_zero _ _ _ _ h]
      cases row with
      | nil => simp at hc
      | cons a t =>
        simp only [List.getElem?_cons_zero, Option.some.injEq] at hc
        simp [hc]

/-! ## The summary values in float64 -/

theorem F64.lower_of_two (p q : F64) (hp : p.isFinite = true) (hq : q.isFinite = true) :
    (if F64.lt q p then q else p).isFinite = true ∧
    (if F64.lt q p then q else p).toRat ≤ p.toRat ∧
    (if F64.lt q p then q else p).toRat ≤ q.toRat := by
  split_ifs with h
  · exact ⟨hq, le_of_lt ((F64.lt_iff_of_finite q p hq hp).mp h), le_refl _⟩
  · exact ⟨hp, le_refl _, not_lt.mp (fun hc => h ((F64.lt_iff_of_finite q p hq hp).mpr hc))⟩

theorem F64.upper_of_two (p q : F64) (hp : p.isFinite = true) (hq : q.isFinite = true) :
    (if F64.lt p q then q else p).isFinite = true ∧
    p.toRat ≤ (if F64.lt p q then q else p).toRat ∧
    q.toRat ≤ (if F64.lt p q then q else p).toRat := by
  split_ifs with h
  · exact ⟨hq, le_of_lt ((F64.lt_iff_of_finite p q hp hq).mp h), le_refl _⟩
  · exact ⟨hp, le_refl _, not_lt.mp (fun hc => h ((F64.lt_iff_of_finite p q hp hq).mpr hc))⟩

theorem minValueF64_spec (a b c : F64) (ha : a.isFinite = true) (hb : b.isFinite = true)
    (hc : c.isFinite = true) :
    (minValueF64 a b c).isFinite = true ∧ (minValueF64 a b c).toRat ≤ a.toRat ∧
    (minValueF64 a b c).toRat ≤ b.toRat ∧ (minValueF64 a b c).toRat ≤ c.toRat := by
  obtain ⟨hab, h1, h2⟩ := F64.lower_of_two a b ha hb
  obtain ⟨h3, h4, h5⟩ := F64.lower_of_two _ c hab hc
  exact ⟨h3, le_trans h4 h1, le_trans h4 h2, h5⟩

theorem maxValueF64_spec (a b c : F64) (ha : a.isFinite = true) (hb : b.isFinite = true)
    (hc : c.isFinite = true) :
    (maxValueF64 a b c).isFinite = true ∧ a.toRat ≤ (maxValueF64 a b c).toRat ∧
    b.toRat ≤ (maxValueF64 a b c).toRat ∧ c.toRat ≤ (maxValueF64 a b c).toRat := by
  obtain ⟨hab, h1, h2⟩ := F64.upper_of_two a b ha hb
  obtain ⟨h3, h4, h5⟩ := F64.upper_of_two _ c hab hc
  exact ⟨h3, le_trans h1 h4, le_trans h2 h4, h5⟩

/-- C23 as amended: for every rack whose nine statistics are finite float64 values with
`min ≤ avg ≤ max` on each line, the summary values that `FillPDUData` computes enclose
the exact mean of the three averages, `summary_min ≤ (l1Avg + l2Avg + l3Avg) / 3 ≤
summary_max` over the rationals; and `summary_min ≤ summary_avg ≤ summary_max` holds in
float64 whenever the float64 sum `l1Avg + l2Avg + l3Avg` is finite and free of rounding
error. -/
theorem summaryF64_min_mean_max (st : RackStatsF64)
    (hf1 : st.l1Min.isFinite = true ∧ st.l1Avg.isFinite = true ∧ st.l1Max.isFinite = true)
    (hf2 : st.l2Min.isFinite = true ∧ st.l2Avg.isFinite = true ∧ st.l2Max.isFinite = true)
    (hf3 : st.l3Min.isFinite = true ∧ st.l3Avg.isFinite = true ∧ st.l3Max.isFinite = true)
    (h1 : F64.le st.l1Min st.l1Avg = true ∧ F64.le st.l1Avg st.l1Max = true)
    (h2 : F64.le st.l2Min st.l2Avg = true ∧ F64.le st.l2Avg st.l2Max = true)
    (h3 : F64.le st.l3Min st.l3Avg = true ∧ F64.le st.l3Avg st.l3Max = true) :
    (summaryF64 st).1.toRat ≤ (st.l1Avg.toRat + st.l2Avg.toRat + st.l3Avg.toRat) / 3 ∧
    (st.l1Avg.toRat + st.l2Avg.toRat + st.l3Avg.toRat) / 3 ≤ (summaryF64 st).2.2.toRat ∧
    ((F64.add (F64.add st.l1Avg st.l2Avg) st.l3Avg).isFinite = true →
      (F64.add (F64.add st.l1Avg st.l2Avg) st.l3Avg).toRat =
        st.l1Avg.toRat + st.l2Avg.toRat + st.l3Avg.toRat →
      F64.le (summaryF64 st).1 (summaryF64 st).2.1 = true ∧
      F64.le (summaryF64 st).2.1 (summaryF64 st).2.2 = true) := by
  obtain ⟨hminf, m1, m2, m3⟩ := minValueF64_spec st.l1Min st.l2Min st.l3Min hf1.1 hf2.1 hf3.1
  obtain ⟨hmaxf, x1, x2, x3⟩ :=
    maxValueF64_spec st.l1Max st.l2Max st.l3Max hf1.2.2 hf2.2.2 hf3.2.2
  have a1 := (F64.le_iff_of_finite _ _ hf1.1 hf1.2.1).mp h1.1
  have a2 := (F64.le_iff_of_finite _ _ hf1.2.1 hf1.2.2).mp h1.2
  have b1 := (F64.le_iff_of_finite _ _ hf2.1 hf2.2.1).mp h2.1
  have b2 := (F64.le_iff_of_finite _ _ hf2.2.1 hf2.2.2).mp h2.2
  have c1 := (F64.le_iff_of_finite _ _ hf3.1 hf3.2.1).mp h3.1
  have c2 := (F64.le_iff_of_finite _ _ hf3.2.1 hf3.2.2).mp h3.2
  have hlo : (minValueF64 st.l1Min st.l2Min st.l3Min).toRat ≤
      (st.l1Avg.toRat + st.l2Avg.toRat + st.l3Avg.toRat) / 3 := by
    rw [le_div_iff₀ (by norm_num : (0 : ℚ) < 3)]
    linarith
  have hhi : (st.l1Avg.toRat + st.l2Avg.toRat + st.l3Avg.toRat) / 3 ≤
      (maxValueF64 st.l1Max st.l2Max st.l3Max).toRat := by
    rw [div_le_iff₀ (by norm_num : (0 : ℚ) < 3)]
    linarith
  refine ⟨hlo, hhi, ?_⟩
  intro hsfin hexact
  obtain ⟨ss, ms, es, hs, _⟩ := (F64.isFinite_iff _).mp hsfin
  simp only [summaryF64]
  rw [hs]
  rw [hs] at hexact
  have hq : (F64.fin ss ms es).toRat / (F64.fin false 3 0).toRat =
      (st.l1Avg.toRat + st.l2Avg.toRat + st.l3Avg.toRat) / 3 := by
    rw [hexact]
    norm_num [F64.toRat]
  constructor
  · exact (F64.div_le _ hminf ss ms es 3 0 (by norm_num)).1 (by rw [hq]; exact hlo)
  · exact (F64.div_le _ hmaxf ss ms es 3 0 (by norm_num)).2 (by rw [hq]; exact hhi)

/-- C23, counterexample: with all nine statistics of a rack equal to 0.1, so that
`min ≤ avg ≤ max` on each line, the float64 sum of the three averages is
0.30000000000000004 and `summary_avg` is 0.10000000000000002, above `summary_max = 0.1`. -/
theorem summaryF64_avg_above_max :
    (F64.le tenthRack.l1Min tenthRack.l1Avg = true ∧
      F64.le tenthRack.l1Avg tenthRack.l1Max = true) ∧
    (F64.le tenthRack.l2Min tenthRack.l2Avg = true ∧
      F64.le tenthRack.l2Avg tenthRack.l2Max = true) ∧
    (F64.le tenthRack.l3Min tenthRack.l3Avg = true ∧
      F64.le tenthRack.l3Avg tenthRack.l3Max = true) ∧
    summaryF64 tenthRack =
      (.fin false 7205759403792794 (-56), .fin false 7205759403792795 (-56),
        .fin false 7205759403792794 (-56)) ∧
    F64.le (summaryF64 tenthRack).2.1 (summaryF64 tenthRack).2.2 = false := by
  decide

end Report

namespace Report

open PduProcessor

/-! ## The grid after a failed fill -/

/-- C24: when `FillPDUData` fails with the section-not-found error the filler, and so
the grid, is unchanged; when it fails with the range error the grid is left partially
filled: the grid is too short for the section, every existing row from `StartRow` to
the last grid row already carries the values of its rack (rack 0 in row `StartRow`,
rack 1 in the next row, and so on) in the columns 3..14, all rows before `StartRow` are
unchanged, and the reported row index is the first target row that does not exist. -/
theorem fillPDUData_failure_state (mf : MonthlyFiller) :
    (∀ name, (FillPDUData mf).1 = Outcome.failed (.sectionNotFound name) →
      (FillPDUData mf).2 = mf) ∧
    (∀ k, (FillPDUData mf).1 = Outcome.failed (.rowIndexExceeds k) →
      ∃ sec, FindPDUSection mf mf.pduData.PDUName = .ok sec ∧
        k = max sec.StartRow mf.monthlyData.length ∧
        mf.monthlyData.length < sec.StartRow + 18 ∧
        (FillPDUData mf).2.monthlyData.length = mf.monthlyData.length ∧
        (∀ r, r < sec.StartRow →
          (FillPDUData mf).2.monthlyData[r]? = mf.monthlyData[r]?) ∧
        (∀ r, sec.StartRow ≤ r → r < mf.monthlyData.length →
          ∃ (row0 row : List Cell) (st : RackStats),
            mf.monthlyData[r]? = some row0 ∧
            (FillPDUData mf).2.monthlyData[r]? = some row ∧
            readStats mf.pduData (r - sec.StartRow) = some st ∧
            fillRow mf.pduData (r - sec.StartRow) row0 = some row ∧
            ∀ j, 3 ≤ j → j ≤ 14 → row[j]? = filledCell st j)) := by
  cases hsec : FindPDUSection mf mf.pduData.PDUName with
  | error e =>
    rw [fillPDUData_of_no_section mf e hsec]
    refine ⟨fun _ _ => rfl, ?_⟩
    intro k hk
    simp only [Outcome.failed.injEq] at hk
    exact ReportError.noConfusion hk
  | ok sec =>
    rw [fillPDUData_of_section mf sec hsec]
    generalize hres : fillLoop mf.pduData sec.StartRow 18 0 mf.monthlyData = res
    obtain ⟨o, g'⟩ := res
    simp only []
    constructor
    · intro name ho
      subst ho
      obtain ⟨_, _, ho⟩ := fillLoop_spec mf.pduData sec.StartRow 18 0 mf.monthlyData _ g' hres
        (fun h => Outcome.noConfusion h)
      by_cases hc : 18 = 0 ∨ sec.StartRow + 0 + 18 ≤ mf.monthlyData.length
      · rw [if_pos hc] at ho
        exact Outcome.noConfusion ho
      · rw [if_neg hc] at ho
        simp only [Outcome.failed.injEq] at ho
        exact ReportError.noConfusion ho
    · intro k ho
      subst ho
      obtain ⟨hl, hcells, ho⟩ := fillLoop_spec mf.pduData sec.StartRow 18 0 mf.monthlyData _
        g' hres (fun h => Outcome.noConfusion h)
      have hshort : ¬ (18 = 0 ∨ sec.StartRow + 0 + 18 ≤ mf.monthlyData.length) := by
        intro hc
        rw [if_pos hc] at ho
        exact Outcome.noConfusion ho
      rw [if_neg hshort] at ho
      simp only [Outcome.failed.injEq, ReportError.rowIndexExceeds.injEq, Nat.add_zero] at ho
      refine ⟨sec, rfl, ho, by omega, hl, ?_, ?_⟩
      · intro r hr
        have hn : ¬ (sec.StartRow + 0 ≤ r ∧ r < sec.StartRow + 0 + 18) := by omega
        rw [hcells r, if_neg hn]
      · intro r hr1 hr2
        have hin : sec.StartRow + 0 ≤ r ∧ r < sec.StartRow + 0 + 18 := by omega
        have hc := hcells r
        have hr2' : r < g'.length := by omega
        rw [if_pos hin, List.getElem?_eq_getElem hr2, List.getElem?_eq_getElem hr2',
          Option.some_bind] at hc
        obtain ⟨st, hst, _, hj⟩ := fillRow_spec _ _ _ _ hc.symm
        refine ⟨_, _, st, List.getElem?_eq_getElem hr2, List.getElem?_eq_getElem hr2', hst,
          hc.symm, ?_⟩
        intro j hj1 hj2
        rw [hj j]
        interval_cases j <;> rfl

end Report

namespace Report

open PduProcessor

/-- Witness of C21: the export of a fresh processor, read back from `total_a1.csv`. -/
theorem generateOutput_loadPDUData_witness :
    ExtractPDUNameFromFilename "total_a1.csv" = .ok "A1" ∧
    (LoadPDUData parseDecimal NewMonthlyFiller "total_a1.csv"
      (.ok (.ok (GenerateOutput formatFixed3 NewDataProcessor)))).1 = none ∧
    (LoadPDUData parseDecimal NewMonthlyFiller "total_a1.csv"
      (.ok (.ok (GenerateOutput formatFixed3 NewDataProcessor)))).2.pduData.PDUName = "A1" :=
  ⟨by decide,
    (generateOutput_loadPDUData parseDecimal formatFixed3 NewDataProcessor NewMonthlyFiller
      "total_a1.csv" "A1" (by decide)).2.2.1,
    (generateOutput_loadPDUData parseDecimal formatFixed3 NewDataProcessor NewMonthlyFiller
      "total_a1.csv" "A1" (by decide)).2.2.2.1⟩

/-- Witness of C22: the sections of the example filler after its fill. -/
theorem sections_after_fill_witness :
    (FillPDUData exampleFiller).1 = Outcome.ok ∧
    (identifyPDUSections FloatFormat.fixed3 (FillPDUData exampleFiller).2).pduSections =
      (identifyPDUSections FloatFormat.fixed3 exampleFiller).pduSections :=
  ⟨exampleFiller_ok, (sections_after_fill FloatFormat.fixed3 exampleFiller exampleFiller_ok).1⟩

/-- Witness of C23 as amended: the lines (1, 1.5, 2), (2, 2.5, 3) and (3, 3, 3), whose
averages have the exact float64 sum 7.0. -/
theorem summaryF64_min_mean_max_witness :
    (halvesRack.l1Min.isFinite = true ∧ halvesRack.l1Avg.isFinite = true ∧
      halvesRack.l1Max.isFinite = true) ∧
    (halvesRack.l2Min.isFinite = true ∧ halvesRack.l2Avg.isFinite = true ∧
      halvesRack.l2Max.isFinite = true) ∧
    (halvesRack.l3Min.isFinite = true ∧ halvesRack.l3Avg.isFinite = true ∧
      halvesRack.l3Max.isFinite = true) ∧
    (F64.le halvesRack.l1Min halvesRack.l1Avg = true ∧
      F64.le halvesRack.l1Avg halvesRack.l1Max = true) ∧
    (F64.le halvesRack.l2Min halvesRack.l2Avg = true ∧
      F64.le halvesRack.l2Avg halvesRack.l2Max = true) ∧
    (F64.le halvesRack.l3Min halvesRack.l3Avg = true ∧
      F64.le halvesRack.l3Avg halvesRack.l3Max = true) ∧
    (F64.add (F64.add halvesRack.l1Avg halvesRack.l2Avg) halvesRack.l3Avg).isFinite = true ∧
    (F64.add (F64.add halvesRack.l1Avg halvesRack.l2Avg) halvesRack.l3Avg).toRat =
      halvesRack.l1Avg.toRat + halvesRack.l2Avg.toRat + halvesRack.l3Avg.toRat ∧
    summaryF64 halvesRack =
      (.fin false 1 0, .fin false 5254199565265579 (-51), .fin false 3 0) ∧
    F64.le (summaryF64 halvesRack).1 (summaryF64 halvesRack).2.1 = true ∧
    F64.le (summaryF64 halvesRack).2.1 (summaryF64 halvesRack).2.2 = true := by
  have hs : F64.add (F64.add halvesRack.l1Avg halvesRack.l2Avg) halvesRack.l3Avg =
      .fin false 7881299347898368 (-50) := by decide
  have hexact : (F64.add (F64.add halvesRack.l1Avg halvesRack.l2Avg) halvesRack.l3Avg).toRat =
      halvesRack.l1Avg.toRat + halvesRack.l2Avg.toRat + halvesRack.l3Avg.toRat := by
    rw [hs]
    norm_num [F64.toRat, halvesRack]
  have h := summaryF64_min_mean_max halvesRack (by decide) (by decide) (by decide)
    (by decide) (by decide) (by decide)
  exact ⟨by decide, by decide, by decide, by decide, by decide, by decide, by decide, hexact,
    by decide, h.2.2 (by decide) hexact⟩

/-- Witness of C24: the grid of the short filler ends after three data rows, so the fill
stops at row 4. -/
theorem fillPDUData_failure_state_witness :
    (FillPDUData shortFiller).1 = Outcome.failed (.rowIndexExceeds 4) ∧
    ∃ sec, FindPDUSection shortFiller shortFiller.pduData.PDUName = .ok sec ∧
      4 = max sec.StartRow shortFiller.monthlyData.length ∧
      shortFiller.monthlyData.length < sec.StartRow + 18 ∧
      (FillPDUData shortFiller).2.monthlyData.length = shortFiller.monthlyData.length :=
  ⟨by decide,
    ((fillPDUData_failure_state shortFiller).2 4 (by decide)).imp
      (fun _ h => ⟨h.1, h.2.1, h.2.2.1, h.2.2.2.1⟩)⟩

end Report
